import Mathlib

/-!
# Gateway proxy engine and request dispatcher

A shallow embedding of `gateway/proxy/proxy.go`, `gateway/core/core.go` and the parts of
`gateway/model` they use.  Go code that mutates the script VM, the database or the network is
embedded as explicit state passing over a world type `σ`: a Go function returning `error`
becomes `σ → Option GoError × σ` (`none` is Go's `nil` error), and the state is returned on the
error path too, because Go never rolls a mutation back.

Functions of the repository whose bodies are not part of the sources at hand
(`evaluateComponentConditional`, `runJSTransformation`, the backend request constructors, ...)
are fields of a structure of collaborators, so every theorem holds for all of their behaviours.
-/

namespace Gateway

/-! ## Errors -/

/-- Go `error` values.  `errorf` keeps the format string and its arguments of a `fmt.Errorf`
call apart, `wrapped` is `aperrors.NewWrapped`, and `other` stands for an error value
created by a collaborator. -/
inductive GoError where
  | other (code : Nat)
  | errorf (format : String) (args : List String)
  | wrapped (context : String) (cause : GoError)
deriving DecidableEq, Repr

/-! ## Data model (`gateway/model`) -/

/-- The fields of `model.ProxyEndpointTransformation` that the sources at hand read. -/
structure ProxyEndpointTransformation where
  ID : Int
  Typ : String
  Before : Bool
  ComponentID : Option Int
  CallID : Option Int
deriving DecidableEq, Repr

/-- The fields of `model.ProxyEndpointCall` that the sources at hand read. -/
structure ProxyEndpointCall where
  ID : Int
  ComponentID : Int
  BeforeTransformations : List ProxyEndpointTransformation
  AfterTransformations : List ProxyEndpointTransformation
deriving DecidableEq, Repr

def ProxyEndpointComponentTypeSingle : String := "single"
def ProxyEndpointComponentTypeMulti : String := "multi"
def ProxyEndpointComponentTypeJS : String := "js"

/-- The struct `model.ProxyEndpointComponent`; `Call` is a pointer and may be nil. -/
structure ProxyEndpointComponent where
  ID : Int
  Conditional : String
  ConditionalPositive : Bool
  Typ : String
  BeforeTransformations : List ProxyEndpointTransformation
  AfterTransformations : List ProxyEndpointTransformation
  Call : Option ProxyEndpointCall
  Calls : List ProxyEndpointCall
  Data : String
  SharedComponentID : Int
deriving DecidableEq, Repr

/-! ## Execution engine (`gateway/proxy/proxy.go`) -/

/-- The collaborators of the engine: methods of `Server` and constants of `model` that the
engine calls and whose bodies are not in the sources at hand.  `σ` is the state they act on
(the script VM and everything a script or a backend call can reach). -/
structure Engine (σ : Type) where
  /-- The constant `model.ProxyEndpointTransformationTypeJS`. -/
  transformationTypeJS : String
  /-- The method `s.evaluateComponentConditional(vm, component)`, returning `(run, err)`. -/
  evaluateComponentConditional : ProxyEndpointComponent → σ → (Bool × Option GoError) × σ
  /-- The method `s.runJSTransformation(vm, t)`. -/
  runJSTransformation : ProxyEndpointTransformation → σ → Option GoError × σ
  /-- The method `s.runCallComponentCore(vm, component)`. -/
  runCallComponentCore : ProxyEndpointComponent → σ → Option GoError × σ
  /-- The method `s.runJSComponentCore(vm, component)`. -/
  runJSComponentCore : ProxyEndpointComponent → σ → Option GoError × σ

variable {σ : Type}

/-- The method `Server.runTransformations`. -/
def runTransformations (s : Engine σ) :
    List ProxyEndpointTransformation → σ → Option GoError × σ
  | [], vm => (none, vm)
  | t :: ts, vm =>
    if t.Typ = s.transformationTypeJS then
      match s.runJSTransformation t vm with
      | (some err, vm1) => (some err, vm1)
      | (none, vm1) => runTransformations s ts vm1
    else
      (some (GoError.errorf "%s is not a valid transformation type" [t.Typ]), vm)

/-- The method `Server.runComponent`.  The type switch either assigns `err` from a core action
or, in its default case, returns at once. -/
def runComponent (s : Engine σ) (component : ProxyEndpointComponent) (vm : σ) :
    Option GoError × σ :=
  match s.evaluateComponentConditional component vm with
  | ((_, some err), vm1) => (some err, vm1)
  | ((false, none), vm1) => (none, vm1)
  | ((true, none), vm1) =>
    match runTransformations s component.BeforeTransformations vm1 with
    | (some err, vm2) => (some err, vm2)
    | (none, vm2) =>
      let core : Option (Option GoError × σ) :=
        if component.Typ = ProxyEndpointComponentTypeSingle then
          some (s.runCallComponentCore component vm2)
        else if component.Typ = ProxyEndpointComponentTypeMulti then
          some (s.runCallComponentCore component vm2)
        else if component.Typ = ProxyEndpointComponentTypeJS then
          some (s.runJSComponentCore component vm2)
        else
          none
      match core with
      | none => (some (GoError.errorf "%s is not a valid component type" [component.Typ]), vm2)
      | some (some err, vm3) => (some err, vm3)
      | some (none, vm3) =>
        match runTransformations s component.AfterTransformations vm3 with
        | (some err, vm4) => (some err, vm4)
        | (none, vm4) => (none, vm4)

/-- The Go loop `for _, x := range xs { if err := f(x); err != nil { return err } }` followed
by `return nil`, with the function called on each element as an argument. -/
def rangeLoop {α : Type} (f : α → σ → Option GoError × σ) : List α → σ → Option GoError × σ
  | [], vm => (none, vm)
  | x :: xs, vm =>
    match f x vm with
    | (some err, vm1) => (some err, vm1)
    | (none, vm1) => rangeLoop f xs vm1

/-- The method `Server.runComponents`: the loop above over `s.runComponent`. -/
def runComponents (s : Engine σ) (components : List ProxyEndpointComponent) (vm : σ) :
    Option GoError × σ :=
  rangeLoop (runComponent s) components vm

/-! ## Instrumentation

The definitions above hold for every state type, so a log of calls is one more component of
the state: the instrumented collaborator does what the original does on the state and appends
one entry to the log. -/

/-- One call of a collaborator of the engine. -/
inductive Event where
  | conditional (c : ProxyEndpointComponent)
  | transformation (t : ProxyEndpointTransformation)
  | callCore (c : ProxyEndpointComponent)
  | jsCore (c : ProxyEndpointComponent)
deriving DecidableEq, Repr

/-- Runs `f` on the state and records `e` at the end of the log. -/
def logged {ε ρ : Type} (e : ε) (f : σ → ρ × σ) (st : σ × List ε) : ρ × (σ × List ε) :=
  ((f st.1).1, ((f st.1).2, st.2 ++ [e]))

/-- The engine whose collaborators record every call they receive. -/
def Engine.traced (s : Engine σ) : Engine (σ × List Event) where
  transformationTypeJS := s.transformationTypeJS
  evaluateComponentConditional c := logged (Event.conditional c) (s.evaluateComponentConditional c)
  runJSTransformation t := logged (Event.transformation t) (s.runJSTransformation t)
  runCallComponentCore c := logged (Event.callCore c) (s.runCallComponentCore c)
  runJSComponentCore c := logged (Event.jsCore c) (s.runJSComponentCore c)

/-- Every call of `step` along the list returns a nil error, each call starting in the state
the previous one left. -/
def allSucceed {α : Type} (step : α → σ → Option GoError × σ) : List α → σ → Bool
  | [], _ => true
  | a :: as, vm => (step a vm).1.isNone && allSucceed step as (step a vm).2

/-- The elements of the list that the loop hands to `step`: all of them up to and including
the first one on which `step` returns an error. -/
def attempted {α : Type} (step : α → σ → Option GoError × σ) : List α → σ → List α
  | [], _ => []
  | a :: as, vm =>
    match step a vm with
    | (some _, _) => [a]
    | (none, vm1) => a :: attempted step as vm1

/-- One iteration of the loop of `runTransformations`: the body of its type switch. -/
def transformationStep (s : Engine σ) (t : ProxyEndpointTransformation) (vm : σ) :
    Option GoError × σ :=
  if t.Typ = s.transformationTypeJS then s.runJSTransformation t vm
  else (some (GoError.errorf "%s is not a valid transformation type" [t.Typ]), vm)

/-- The transformations that `runTransformations` hands to `runJSTransformation`. -/
def ranTransformations (s : Engine σ) :
    List ProxyEndpointTransformation → σ → List ProxyEndpointTransformation
  | [], _ => []
  | t :: ts, vm =>
    if t.Typ = s.transformationTypeJS then
      match s.runJSTransformation t vm with
      | (some _, _) => [t]
      | (none, vm1) => t :: ranTransformations s ts vm1
    else []

/-- The core action that the type switch of `runComponent` selects, with the entry its call
leaves in the log; `none` for a type outside `single`, `multi` and `js`. -/
def coreAction (s : Engine σ) (c : ProxyEndpointComponent) :
    Option ((σ → Option GoError × σ) × Event) :=
  if c.Typ = ProxyEndpointComponentTypeSingle then
    some (s.runCallComponentCore c, Event.callCore c)
  else if c.Typ = ProxyEndpointComponentTypeMulti then
    some (s.runCallComponentCore c, Event.callCore c)
  else if c.Typ = ProxyEndpointComponentTypeJS then
    some (s.runJSComponentCore c, Event.jsCore c)
  else none

/-- The state in which `runComponent` finds the VM after the conditional gate has been
evaluated. -/
def gateState (s : Engine σ) (c : ProxyEndpointComponent) (vm : σ) : σ :=
  (s.evaluateComponentConditional c vm).2

/-- What the before-transformations of a component return, run right after its gate. -/
def beforeResult (s : Engine σ) (c : ProxyEndpointComponent) (vm : σ) : Option GoError × σ :=
  runTransformations s c.BeforeTransformations (gateState s c vm)

/-! ## A concrete engine

A small instance of the collaborators, used to evaluate the definitions on concrete inputs.
The state is a counter: transformations add 1, call cores add 10, script cores add 100. -/

/-- A script transformation with the given id. -/
def demoTransformation (id : Int) : ProxyEndpointTransformation :=
  { ID := id, Typ := "js", Before := true, ComponentID := none, CallID := none }

/-- A component of the given type with one before- and one after-transformation. -/
def demoComponent (id : Int) (typ : String) : ProxyEndpointComponent :=
  { ID := id, Conditional := "", ConditionalPositive := true, Typ := typ,
    BeforeTransformations := [demoTransformation (10 * id + 1)],
    AfterTransformations := [demoTransformation (10 * id + 2)],
    Call := none, Calls := [], Data := "", SharedComponentID := 0 }

/-- The gate follows `ConditionalPositive`; a transformation, a call core or a script core
fails exactly when the id of its subject is negative. -/
def demoEngine : Engine Nat where
  transformationTypeJS := "js"
  evaluateComponentConditional c vm := ((c.ConditionalPositive, none), vm)
  runJSTransformation t vm := (if t.ID < 0 then some (GoError.other 1) else none, vm + 1)
  runCallComponentCore c vm := (if c.ID < 0 then some (GoError.other 2) else none, vm + 10)
  runJSComponentCore c vm := (if c.ID < 0 then some (GoError.other 3) else none, vm + 100)

/-! ## Proxy router (`Server.proxyHandlerFunc`) -/

/-- The fields of `model.ProxyEndpoint` that the handler reads. -/
structure ProxyEndpoint where
  Name : String
  Components : List ProxyEndpointComponent
deriving DecidableEq, Repr

/-- The response decoded by `proxyResponseFromJSON`. -/
structure ProxyResponse where
  StatusCode : Int
  Headers : List (String × String)
  Body : String
deriving DecidableEq, Repr

/-- One operation of a handler on its `http.ResponseWriter`:
`aphttp.AddHeaders(w.Header(), h)`, `w.WriteHeader(code)`, `w.Write([]byte(body))` (also
through `fmt.Fprintf(w, ...)`), `w.Header().Set(name, value)` and
`w.Header().Add(name, value)` (as `http.SetCookie` does). -/
inductive WriterOp where
  | addHeaders (headers : List (String × String))
  | writeHeader (statusCode : Int)
  | write (body : String)
  | setHeader (name value : String)
  | addHeader (name value : String)
deriving DecidableEq, Repr

/-- Values of `aphttp.Error`, by the function that builds them: `aphttp.NewServerError(err)`
(the only one the proxy handler uses), `aphttp.DefaultServerError()` and
`aphttp.NewError(err, code)`. -/
inductive HttpError where
  | serverError (err : GoError)
  | defaultServerError
  | newError (err : GoError) (code : Nat)
deriving DecidableEq, Repr

/-- The line that the deferred function of the handler logs, durations in nanoseconds. -/
structure TimingRecord where
  total : Int
  processing : Int
  requests : Int
deriving DecidableEq, Repr

/-- The collaborators of the handler.  `ρ` is the inbound request with its route match and
`ν` the type of script values (`otto.Value`); the VM that `vm.NewVM` creates lives in the
state `σ`. -/
structure Server (σ ρ ν : Type) where
  /-- The methods of `Server` that the engine calls. -/
  engine : Engine σ
  /-- The clock read by `time.Now` and `time.Since`. -/
  now : σ → Int
  /-- The call `strconv.ParseInt(name, 10, 64)`. -/
  parseInt : String → Except GoError Int
  /-- The function `model.FindProxyEndpoint(s.db, id)`. -/
  FindProxyEndpoint : Int → σ → Except GoError ProxyEndpoint × σ
  /-- The function `vm.NewVM(requestID, w, r, s.proxyConf, nil)`. -/
  NewVM : String → ρ → σ → Except GoError Unit × σ
  /-- The function `proxyRequestJSON(r, match.Vars)`. -/
  proxyRequestJSON : ρ → σ → Except GoError String × σ
  /-- The method `vm.Set(name, value)`. -/
  vmSet : String → String → σ → σ
  /-- The method `vm.RunAll(scripts)`; its value is dropped by the handler. -/
  vmRunAll : List String → σ → Except GoError Unit × σ
  /-- The method `vm.Run(script)`. -/
  vmRun : String → σ → Except GoError ν × σ
  /-- The method `vm.Object(name)`. -/
  vmObject : String → σ → Except GoError ν × σ
  /-- The method `object.Call(method, argument)`. -/
  call : ν → String → ν → σ → Except GoError ν × σ
  /-- The method `value.String()`. -/
  valueString : ν → String
  /-- The function `proxyResponseFromJSON(json)`. -/
  proxyResponseFromJSON : String → Except GoError ProxyResponse
  /-- The field `vm.ProxiedRequestsDuration`. -/
  proxiedRequestsDuration : σ → Int

variable {ρ ν : Type}

/-- The method `Server.objectJSON`. -/
def objectJSON (s : Server σ ρ ν) (object : ν) (vm : σ) : Except GoError String × σ :=
  match s.vmObject "JSON" vm with
  | (Except.error err, vm1) => (Except.error err, vm1)
  | (Except.ok jsJSON, vm1) =>
    match s.call jsJSON "stringify" object vm1 with
    | (Except.error err, vm2) => (Except.error err, vm2)
    | (Except.ok result, vm2) => (Except.ok (s.valueString result), vm2)

/-- What one run of the handler leaves behind: the error it returns, the operations it
performed on the response writer, the timing line of its deferred function and the state. -/
structure HandlerResult (σ : Type) where
  err : Option HttpError
  writes : List WriterOp
  timing : TimingRecord
  state : σ

/-- The deferred function of `proxyHandlerFunc`, run at every return with the value the local
`proxiedRequestsDuration` has at that point. -/
def handlerReturn (s : Server σ ρ ν) (start : Int) (err : Option HttpError)
    (writes : List WriterOp) (proxiedRequestsDuration : Int) (w : σ) : HandlerResult σ :=
  let total := s.now w - start
  let processing := total - proxiedRequestsDuration
  { err := err, writes := writes,
    timing := { total := total, processing := processing, requests := proxiedRequestsDuration },
    state := w }

/-- The method `Server.proxyHandlerFunc`.  `routeName` is `match.Route.GetName()`; the local
`proxiedRequestsDuration` is 0 until the line before the response is written. -/
def proxyHandlerFunc (s : Server σ ρ ν) (routeName requestID : String) (r : ρ) (w0 : σ) :
    HandlerResult σ :=
  let start := s.now w0
  match s.parseInt routeName with
  | Except.error err => handlerReturn s start (some (HttpError.serverError err)) [] 0 w0
  | Except.ok proxyEndpointID =>
  match s.FindProxyEndpoint proxyEndpointID w0 with
  | (Except.error err, w1) => handlerReturn s start (some (HttpError.serverError err)) [] 0 w1
  | (Except.ok proxyEndpoint, w1) =>
  match s.NewVM requestID r w1 with
  | (Except.error err, w2) => handlerReturn s start (some (HttpError.serverError err)) [] 0 w2
  | (Except.ok _, w2) =>
  match s.proxyRequestJSON r w2 with
  | (Except.error err, w3) => handlerReturn s start (some (HttpError.serverError err)) [] 0 w3
  | (Except.ok incomingJSON, w3) =>
  let w4 := s.vmSet "__ap_proxyRequestJSON" incomingJSON w3
  match s.vmRunAll ["var request = JSON.parse(__ap_proxyRequestJSON);",
      "var response = new AP.HTTP.Response();"] w4 with
  | (Except.error err, w5) => handlerReturn s start (some (HttpError.serverError err)) [] 0 w5
  | (Except.ok _, w5) =>
  match runComponents s.engine proxyEndpoint.Components w5 with
  | (some err, w6) => handlerReturn s start (some (HttpError.serverError err)) [] 0 w6
  | (none, w6) =>
  match s.vmRun "response;" w6 with
  | (Except.error err, w7) => handlerReturn s start (some (HttpError.serverError err)) [] 0 w7
  | (Except.ok responseObject, w7) =>
  match objectJSON s responseObject w7 with
  | (Except.error err, w8) => handlerReturn s start (some (HttpError.serverError err)) [] 0 w8
  | (Except.ok responseJSON, w8) =>
  match s.proxyResponseFromJSON responseJSON with
  | Except.error err => handlerReturn s start (some (HttpError.serverError err)) [] 0 w8
  | Except.ok response =>
    handlerReturn s start none
      [WriterOp.addHeaders response.Headers, WriterOp.writeHeader response.StatusCode,
        WriterOp.write response.Body]
      (s.proxiedRequestsDuration w8) w8

/-- A concrete handler over the concrete engine: route "7" leads to an endpoint whose second
component fails, route "8" to one whose components all succeed; the clock is the state. -/
def demoServer : Server Nat Unit String where
  engine := demoEngine
  now w := w
  parseInt name :=
    if name = "7" then Except.ok 7 else if name = "8" then Except.ok 8
    else Except.error (GoError.other 20)
  FindProxyEndpoint id w :=
    if id = 7 then
      (Except.ok
        { Name := "failing",
          Components := [demoComponent 1 "single", demoComponent (-2) "multi"] }, w)
    else if id = 8 then
      (Except.ok { Name := "passing", Components := [demoComponent 1 "js"] }, w)
    else (Except.error (GoError.other 21), w)
  NewVM _ _ w := (Except.ok (), w)
  proxyRequestJSON _ w := (Except.ok "\x7b\x7d", w)
  vmSet _ _ w := w
  vmRunAll _ w := (Except.ok (), w + 1000)
  vmRun script w := (Except.ok script, w)
  vmObject name w := (Except.ok name, w)
  call _ _ argument w := (Except.ok argument, w)
  valueString v := v
  proxyResponseFromJSON json := Except.ok { StatusCode := 200, Headers := [], Body := json }
  proxiedRequestsDuration w := w % 100

/-! ## Request dispatcher (`Core.PrepareRequest`, `gateway/core/core.go`) -/

/-- The fields of `model.RemoteEndpoint` that `PrepareRequest` reads. -/
structure RemoteEndpoint where
  ID : Int
  Typ : String
deriving DecidableEq, Repr

/-- The string constants `model.RemoteEndpointTypeHTTP`, ..., `model.RemoteEndpointTypeLDAP`,
declared outside the sources at hand. -/
structure RemoteEndpointTypes where
  HTTP : String
  SQLServer : String
  Postgres : String
  MySQL : String
  Mongo : String
  Soap : String
  Script : String
  LDAP : String
deriving DecidableEq, Repr

/-- The eight request constructors of package `request`. -/
inductive Backend where
  | http | sqlServer | postgres | mySQL | mongo | soap | script | ldap
deriving DecidableEq, Repr

/-- The Go map `map[int64]io.Closer`, as an association list with at most one entry per
key.  A value is an interface value of `io.Closer`: `none` is nil, `some h` the connection
`h`. -/
abbrev Connections (κ : Type) := List (Int × Option κ)

/-- The Go index expression `connections[id]`: the value stored under `id`, nil when there
is no entry. -/
def Connections.get {κ : Type} (m : Connections κ) (id : Int) : Option κ :=
  match m.lookup id with
  | some v => v
  | none => none

/-- The Go assignment `connections[id] = conn`: replaces the entry under `id` or adds one. -/
def Connections.set {κ : Type} : Connections κ → Int → Option κ → Connections κ
  | [], id, conn => [(id, conn)]
  | (k, v) :: m, id, conn =>
    if k = id then (id, conn) :: m else (k, v) :: Connections.set m id conn

/-- The collaborators of `PrepareRequest`.  `ω` is the world the constructors and the
connection act on (clients, pools, network), `ρ` the type of `request.Request` values and
`κ` the type of connections.  A constructor returns the Go pair `(request, error)`. -/
structure Core (ω ρ κ : Type) where
  /-- The constants `model.RemoteEndpointType...`. -/
  types : RemoteEndpointTypes
  /-- The function `model.IsRemoteEndpointTypeEnabled(type)`. -/
  IsRemoteEndpointTypeEnabled : String → Bool
  NewHTTPRequest : RemoteEndpoint → String → ω → (Option ρ × Option GoError) × ω
  NewSQLServerRequest : RemoteEndpoint → String → ω → (Option ρ × Option GoError) × ω
  NewPostgresRequest : RemoteEndpoint → String → ω → (Option ρ × Option GoError) × ω
  NewMySQLRequest : RemoteEndpoint → String → ω → (Option ρ × Option GoError) × ω
  NewMongoRequest : RemoteEndpoint → String → ω → (Option ρ × Option GoError) × ω
  NewSoapRequest : RemoteEndpoint → String → ω → (Option ρ × Option GoError) × ω
  NewScriptRequest : RemoteEndpoint → String → ω → (Option ρ × Option GoError) × ω
  NewLDAPRequest : RemoteEndpoint → String → ω → (Option ρ × Option GoError) × ω
  /-- The method `r.CreateOrReuse(conn)` of the LDAP request `r`, returning `(conn, err)`. -/
  CreateOrReuse : Option ρ → Option κ → ω → (Option κ × Option GoError) × ω

/-- What a call of `PrepareRequest` leaves behind: the pair it returns, the connections map
and the world. -/
structure Prepared (ω ρ κ : Type) where
  request : Option ρ
  err : Option GoError
  connections : Connections κ
  world : ω

variable {ω κ : Type}

/-- The statement `return request.NewXRequest(...)`: the pair of the constructor is returned
as it is and the map is not touched. -/
def returnRequest (connections : Connections κ) (r : (Option ρ × Option GoError) × ω) :
    Prepared ω ρ κ :=
  { request := r.1.1, err := r.1.2, connections := connections, world := r.2 }

/-- The method `Core.PrepareRequest`. -/
def PrepareRequest (s : Core ω ρ κ) (endpoint : RemoteEndpoint) (data : String)
    (connections : Connections κ) (w : ω) : Prepared ω ρ κ :=
  if !s.IsRemoteEndpointTypeEnabled endpoint.Typ then
    { request := none,
      err := some (GoError.errorf "Remote endpoint type %s is not enabled" [endpoint.Typ]),
      connections := connections, world := w }
  else if endpoint.Typ = s.types.HTTP then
    returnRequest connections (s.NewHTTPRequest endpoint data w)
  else if endpoint.Typ = s.types.SQLServer then
    returnRequest connections (s.NewSQLServerRequest endpoint data w)
  else if endpoint.Typ = s.types.Postgres then
    returnRequest connections (s.NewPostgresRequest endpoint data w)
  else if endpoint.Typ = s.types.MySQL then
    returnRequest connections (s.NewMySQLRequest endpoint data w)
  else if endpoint.Typ = s.types.Mongo then
    returnRequest connections (s.NewMongoRequest endpoint data w)
  else if endpoint.Typ = s.types.Soap then
    returnRequest connections (s.NewSoapRequest endpoint data w)
  else if endpoint.Typ = s.types.Script then
    returnRequest connections (s.NewScriptRequest endpoint data w)
  else if endpoint.Typ = s.types.LDAP then
    match s.NewLDAPRequest endpoint data w with
    | ((r, e), w1) =>
      match s.CreateOrReuse r (connections.get endpoint.ID) w1 with
      | ((_, some err), w2) =>
        { request := none,
          err := some (GoError.wrapped "[requests.go] initializing sticky connection" err),
          connections := connections, world := w2 }
      | ((conn, none), w2) =>
        { request := r, err := e, connections := connections.set endpoint.ID conn,
          world := w2 }
  else
    { request := none,
      err := some (GoError.errorf "%q is not a valid endpoint type" [endpoint.Typ]),
      connections := connections, world := w }

/-- One call of a collaborator of `PrepareRequest`. -/
inductive CoreEvent (ρ κ : Type) where
  | construct (backend : Backend) (endpoint : RemoteEndpoint) (data : String)
  | createOrReuse (r : Option ρ) (cached : Option κ)
deriving DecidableEq, Repr

/-- The dispatcher whose constructors and connection method record every call they
receive. -/
def Core.traced (s : Core ω ρ κ) : Core (ω × List (CoreEvent ρ κ)) ρ κ where
  types := s.types
  IsRemoteEndpointTypeEnabled := s.IsRemoteEndpointTypeEnabled
  NewHTTPRequest e d := logged (CoreEvent.construct Backend.http e d) (s.NewHTTPRequest e d)
  NewSQLServerRequest e d :=
    logged (CoreEvent.construct Backend.sqlServer e d) (s.NewSQLServerRequest e d)
  NewPostgresRequest e d :=
    logged (CoreEvent.construct Backend.postgres e d) (s.NewPostgresRequest e d)
  NewMySQLRequest e d := logged (CoreEvent.construct Backend.mySQL e d) (s.NewMySQLRequest e d)
  NewMongoRequest e d := logged (CoreEvent.construct Backend.mongo e d) (s.NewMongoRequest e d)
  NewSoapRequest e d := logged (CoreEvent.construct Backend.soap e d) (s.NewSoapRequest e d)
  NewScriptRequest e d :=
    logged (CoreEvent.construct Backend.script e d) (s.NewScriptRequest e d)
  NewLDAPRequest e d := logged (CoreEvent.construct Backend.ldap e d) (s.NewLDAPRequest e d)
  CreateOrReuse r c := logged (CoreEvent.createOrReuse r c) (s.CreateOrReuse r c)

/-- The type tags of the concrete dispatcher. -/
def demoTypes : RemoteEndpointTypes :=
  { HTTP := "http", SQLServer := "sqlserver", Postgres := "postgres", MySQL := "mysql",
    Mongo := "mongodb", Soap := "soap", Script := "script", LDAP := "ldap" }

/-- A concrete dispatcher: the world counts the calls, every type but `soap` is enabled, a
constructor returns a request named after its backend, and `CreateOrReuse` returns the
connection it is given or, given nil, a new one numbered by the world. -/
def demoCore : Core Nat String Nat where
  types := demoTypes
  IsRemoteEndpointTypeEnabled t := t != "soap"
  NewHTTPRequest _ _ w := ((some "http", none), w + 1)
  NewSQLServerRequest _ _ w := ((some "sqlserver", none), w + 1)
  NewPostgresRequest _ _ w := ((some "postgres", none), w + 1)
  NewMySQLRequest _ _ w := ((some "mysql", none), w + 1)
  NewMongoRequest _ _ w := ((some "mongodb", none), w + 1)
  NewSoapRequest _ _ w := ((some "soap", none), w + 1)
  NewScriptRequest _ _ w := ((some "script", none), w + 1)
  NewLDAPRequest _ _ w := ((some "ldap", none), w + 1)
  CreateOrReuse _ cached w :=
    match cached with
    | some h => ((some h, none), w)
    | none => ((some w, none), w + 1)

/-- A dispatcher like the concrete one, whose LDAP constructor rejects every payload: it
returns a nil request and an error. -/
def demoCoreRejecting : Core Nat String Nat :=
  { demoCore with NewLDAPRequest := fun _ _ w => ((none, some (GoError.other 7)), w) }

/-! ## Component model (`gateway/model/proxy_endpoint_component.go`) -/

/-- The method `ProxyEndpointComponent.AllCalls`.  The result is a slice of pointers: the
pointer `c.Call` may be nil, the elements of `c.Calls` are the calls themselves. -/
def ProxyEndpointComponent.AllCalls (c : ProxyEndpointComponent) :
    List (Option ProxyEndpointCall) :=
  if c.Typ = ProxyEndpointComponentTypeSingle then [c.Call] else c.Calls.map some

/-- A call without transformations. -/
def demoCall (id componentID : Int) : ProxyEndpointCall :=
  { ID := id, ComponentID := componentID, BeforeTransformations := [],
    AfterTransformations := [] }

/-- A multi-call component with the given calls. -/
def demoMultiComponent (id : Int) (calls : List ProxyEndpointCall) : ProxyEndpointComponent :=
  { demoComponent id "multi" with Calls := calls }

/-! ## Postgres connection parameters (`gateway/db/sql/postgres.go`) -/

def sslModeDisable : String := "disable"
def sslModeAllow : String := "allow"
def sslModePrefer : String := "prefer"
def sslModeRequire : String := "require"
def sslModeVerifyCA : String := "verify-ca"
def sslModeVerifyFull : String := "verify-full"

/-- The modes that `init` joins with `|` into the pattern of the regular expression
`sslModes`, in the order of its loop. -/
def sslModeList : List String :=
  [sslModeDisable, sslModeAllow, sslModePrefer, sslModeRequire, sslModeVerifyCA,
    sslModeVerifyFull]

/-- Whether `needle` occurs as a contiguous run of characters in the given text. -/
def occursIn (needle : List Char) : List Char → Bool
  | [] => needle.isEmpty
  | c :: cs => needle.isPrefixOf (c :: cs) || occursIn needle cs

/-- The call `sslModes.MatchString(s)`.  The pattern is an alternation of plain words without
anchors, so Go's `regexp` reports a match when one of the words occurs anywhere in `s`. -/
def sslModesMatchString (s : String) : Bool :=
  sslModeList.any (fun mode => occursIn mode.toList s.toList)

/-- The `val` of a validation: an integer or a string field. -/
inductive ValidationValue where
  | int (n : Int)
  | str (s : String)
deriving DecidableEq, Repr

/-- The text of a value as an argument of the error message. -/
def ValidationValue.text : ValidationValue → String
  | ValidationValue.int n => toString n
  | ValidationValue.str s => s

/-- The struct `validation` that `PostgresSpec.validate` fills in. -/
structure validation where
  kw : String
  errCond : Bool
  val : ValidationValue
deriving DecidableEq, Repr

/-- Modelled from the spec: the value `postgres` of type `driver` returned by
`PostgresSpec.driver`, declared outside the sources; the error text expected by
`TestDBConfig` names it `pgx`. -/
def postgres : String := "pgx"

/-- Modelled from the spec: the function `validate(spec, validations)` of package `sql`,
whose body is not in the sources.  Following the error text that `TestDBConfig` expects
(`pgx config errors: bad value "" for "user"; bad value "" for "password"; ...`), it reports
the validations whose `errCond` holds, in the order given, and returns nil when there is
none.  The error keeps the format and, per reported validation, its value and keyword. -/
def validate (driver : String) (validations : List validation) : Option GoError :=
  match validations.filter (fun v => v.errCond) with
  | [] => none
  | bad =>
    some (GoError.errorf
      ("%s config errors: " ++ "; ".intercalate (bad.map fun _ => "bad value %q for %q"))
      (driver :: bad.flatMap fun v => [v.val.text, v.kw]))

/-- The struct `PostgresSpec`; `β` is the type of the embedded struct `spec`, declared
outside the sources. -/
structure PostgresSpec (β : Type) where
  spec : β
  Port : Int
  User : String
  Password : String
  DbName : String
  Host : String
  SSLMode : String
deriving DecidableEq, Repr

variable {β : Type}

/-- The slice of validations that `PostgresSpec.validate` hands to `validate`, built after
the default for `SSLMode` has been applied.  The local `sslModeOk` holds when the mode does
NOT match. -/
def PostgresSpec.validations (p : PostgresSpec β) : List validation :=
  let sslModeOk := !sslModesMatchString p.SSLMode
  [{ kw := "port", errCond := decide (p.Port < 0), val := ValidationValue.int p.Port },
   { kw := "user", errCond := decide (p.User = ""), val := ValidationValue.str p.User },
   { kw := "password", errCond := decide (p.Password = ""),
     val := ValidationValue.str p.Password },
   { kw := "dbname", errCond := decide (p.DbName = ""), val := ValidationValue.str p.DbName },
   { kw := "host", errCond := decide (p.Host = ""), val := ValidationValue.str p.Host },
   { kw := "sslmode", errCond := sslModeOk, val := ValidationValue.str p.SSLMode }]

/-- The method `PostgresSpec.validate`: it returns the error and the receiver, whose
`SSLMode` it may have set. -/
def PostgresSpec.validate (p : PostgresSpec β) : Option GoError × PostgresSpec β :=
  let p1 := if p.SSLMode = "" then { p with SSLMode := sslModePrefer } else p
  (Gateway.validate postgres p1.validations, p1)

/-- The method `PostgresSpec.UpdateWith`: it returns the error, the receiver `p` and the
argument `pSpec` as the call leaves them. -/
def PostgresSpec.UpdateWith (p : PostgresSpec β) (pSpec : Option (PostgresSpec β)) :
    Option GoError × PostgresSpec β × Option (PostgresSpec β) :=
  match pSpec with
  | none =>
    (some (GoError.errorf "cannot update a PostgresSpec with a nil Specifier" []), p, none)
  | some q =>
    match q.validate with
    | (some err, q1) => (some err, p, some q1)
    | (none, q1) => (none, q1, some q1)

/-- The configuration `pq-badConfig` of `TestDBConfig`: every field has its zero value. -/
def pqBadConfig : PostgresSpec Unit :=
  { spec := (), Port := 0, User := "", Password := "", DbName := "", Host := "", SSLMode := "" }

/-- The configuration `pq-simple` of `TestDBConfig`. -/
def pqSimple : PostgresSpec Unit :=
  { spec := (), Port := 1234, User := "user", Password := "pass", DbName := "db",
    Host := "some.url.net", SSLMode := "prefer" }

/-! ## Admin sessions (`gateway/admin/sessions.go`) -/

/-- The entries of `session.Values` under the keys `user_id`, `account_id` and `admin`; a
missing entry reads as nil (`none`).  The only code that writes these keys,
`NewSessionHandler`, stores `user.ID` and `user.AccountID` (int64) and `user.Admin`
(bool), the types that `checkAuth` asserts. -/
structure Session where
  userID : Option Int
  accountID : Option Int
  admin : Option Bool
deriving DecidableEq, Repr

/-- The fields of `SessionAuthRouter` that `Wrap` and `checkAuth` read. -/
structure SessionAuthRouter where
  whitelistMethods : List String
  adminRequired : Bool
deriving DecidableEq, Repr

/-- The loop of `isWhitelisted` over the remaining methods. -/
def isWhitelistedLoop (method : String) : List String → Bool
  | [] => false
  | m :: ms => if method = m then true else isWhitelistedLoop method ms

/-- The method `SessionAuthRouter.isWhitelisted`, on the method of the request. -/
def SessionAuthRouter.isWhitelisted (s : SessionAuthRouter) (method : String) : Bool :=
  isWhitelistedLoop method s.whitelistMethods

/-- The method `SessionAuthRouter.checkAuth`, on the method of the request and the session
that `requestSession(r)` returns. -/
def SessionAuthRouter.checkAuth (s : SessionAuthRouter) (method : String)
    (session : Session) : Bool :=
  if s.isWhitelisted method then true
  else
    match session.userID, session.accountID, session.admin with
    | some userID, some accountID, some admin =>
      if s.adminRequired && !admin then false
      else decide (userID > 0) && decide (accountID > 0)
    | _, _, _ => false

/-- What the handler built by `Wrap` does with a request: it calls the wrapped handler, or
it answers with `http.Error(w, body, code)`. -/
inductive WrapOutcome where
  | served
  | httpError (body : String) (code : Nat)
deriving DecidableEq, Repr

/-- The handler that `SessionAuthRouter.Wrap` returns.  `marshal` is the result of the call
`json.MarshalIndent` on the constant struct with the field `Error: "Unauthorized"`. -/
def SessionAuthRouter.Wrap (s : SessionAuthRouter) (marshal : Except GoError String)
    (method : String) (session : Session) : WrapOutcome :=
  if s.checkAuth method session then WrapOutcome.served
  else
    let body :=
      match marshal with
      | Except.ok data => data
      | Except.error _ => "Unauthorized\n\n"
    WrapOutcome.httpError body 401

/-- The call `session.Save(r, w)` on the cookie store that `setupSessions` creates, as the
operations it performs on the response writer: the store encodes the values of the session
and hands the cookie to `http.SetCookie`, which adds a `Set-Cookie` header.  `encode` is the
encoding of the library (`securecookie`), `none` when it fails; `Save` then returns an
error, which the handlers drop, and adds no header. -/
def sessionSave (encode : Session → Option String) (session : Session) : List WriterOp :=
  match encode session with
  | some cookie => [WriterOp.addHeader "Set-Cookie" cookie]
  | none => []

/-- The function `_deleteSession`: the values of the session after its two `delete`
statements, and the operations of its `session.Save(r, w)` on the response writer. -/
def _deleteSession (encode : Session → Option String) (session : Session) :
    Session × List WriterOp :=
  let session1 : Session := { session with userID := none, accountID := none }
  (session1, sessionSave encode session1)

/-- What a session handler leaves behind: the values of the session, the operations on the
response writer and the error returned. -/
structure SessionResult where
  session : Session
  writes : List WriterOp
  err : Option HttpError
deriving DecidableEq, Repr

/-- The function `DeleteSessionHandler`. -/
def DeleteSessionHandler (encode : Session → Option String) (session : Session) :
    SessionResult :=
  match _deleteSession encode session with
  | (session1, writes) =>
    { session := session1, writes := writes ++ [WriterOp.writeHeader 200], err := none }

/-- The session of a logged-in administrator, as `NewSessionHandler` stores it. -/
def demoAdminSession : Session := { userID := some 1, accountID := some 1, admin := some true }

/-- A concrete cookie encoding, which never fails: the cookie names the user of the session,
or nobody. -/
def demoEncode (session : Session) : Option String :=
  if session.userID = none then some "gateway=nobody" else some "gateway=user"

/-! ## Validation errors and `Validate` (`gateway/model`) -/

/-- Modelled from the spec: the type `aperrors.Errors` of package `gateway/errors`, declared
outside the sources: a map from a name to the messages recorded under it, here the
association list of its entries.  `Add` appends a message to the entry of a name, creating
it when missing, `AddErrors` adds every message of another map, and `Empty` holds when the
map has no entry. -/
abbrev Errors := List (String × List String)

/-- The method `Errors.Add(name, message)`. -/
def Errors.Add : Errors → String → String → Errors
  | [], name, message => [(name, [message])]
  | (k, ms) :: rest, name, message =>
    if k = name then (k, ms ++ [message]) :: rest
    else (k, ms) :: Errors.Add rest name message

/-- The method `Errors.AddErrors(errs)`. -/
def Errors.AddErrors (e errs : Errors) : Errors :=
  errs.foldl (fun acc entry => entry.2.foldl (fun acc2 message => acc2.Add entry.1 message) acc) e

/-- The method `Errors.Empty()`. -/
def Errors.Empty (e : Errors) : Bool := e.isEmpty

/-- The index expression `errors[name]`: the messages recorded under a name. -/
def Errors.messages (e : Errors) (name : String) : List String :=
  match e.lookup name with
  | some ms => ms
  | none => []

/-- One of the two loops of `validateTransformations`, from index `i` on: a transformation
whose `Validate()` result `tv t` is not empty adds a message under `key`.  `fmtErrors` is the
text that `fmt` prints for an `Errors` value under `%v`. -/
def validateTransformationsLoop (tv : ProxyEndpointTransformation → Errors)
    (fmtErrors : Errors → String) (key : String) :
    Nat → List ProxyEndpointTransformation → Errors → Errors
  | _, [], errors => errors
  | i, t :: ts, errors =>
    let tErrors := tv t
    if !tErrors.Empty then
      validateTransformationsLoop tv fmtErrors key (i + 1) ts
        (errors.Add key (toString i ++ " is invalid: " ++ fmtErrors tErrors))
    else validateTransformationsLoop tv fmtErrors key (i + 1) ts errors

/-- The method `ProxyEndpointComponent.validateTransformations`; `tv` is the method
`ProxyEndpointTransformation.Validate`, whose body is not in the sources. -/
def ProxyEndpointComponent.validateTransformations
    (tv : ProxyEndpointTransformation → Errors) (fmtErrors : Errors → String)
    (c : ProxyEndpointComponent) : Errors :=
  let errors : Errors := []
  let errors := validateTransformationsLoop tv fmtErrors "before" 0 c.BeforeTransformations errors
  validateTransformationsLoop tv fmtErrors "after" 0 c.AfterTransformations errors

/-- The method `ProxyEndpointComponent.validateNonShared`. -/
def ProxyEndpointComponent.validateNonShared
    (tv : ProxyEndpointTransformation → Errors) (fmtErrors : Errors → String)
    (c : ProxyEndpointComponent) : Errors :=
  let errors : Errors := []
  let errors :=
    if c.Typ = ProxyEndpointComponentTypeSingle then errors
    else if c.Typ = ProxyEndpointComponentTypeMulti then errors
    else if c.Typ = ProxyEndpointComponentTypeJS then errors
    else errors.Add "type" "must be one of 'single', or 'multi', or 'js'"
  errors.AddErrors (c.validateTransformations tv fmtErrors)

/-- The method `ProxyEndpointComponent.validateShared`. -/
def ProxyEndpointComponent.validateShared
    (tv : ProxyEndpointTransformation → Errors) (fmtErrors : Errors → String)
    (c : ProxyEndpointComponent) : Errors :=
  c.validateNonShared tv fmtErrors

/-- The method `ProxyEndpointComponent.Validate`. -/
def ProxyEndpointComponent.Validate
    (tv : ProxyEndpointTransformation → Errors) (fmtErrors : Errors → String)
    (c : ProxyEndpointComponent) : Errors :=
  if c.SharedComponentID ≠ 0 then c.validateShared tv fmtErrors
  else c.validateNonShared tv fmtErrors

/-- A concrete `Validate` of transformations: the type must be `js`. -/
def demoValidateTransformation (t : ProxyEndpointTransformation) : Errors :=
  if t.Typ = "js" then [] else [("type", ["must be 'js'"])]

/-- A concrete rendering of an `Errors` value: the names of its entries. -/
def demoFmtErrors (e : Errors) : String := ", ".intercalate (e.map fun entry => entry.1)

/-! ## Endpoint schemas (`gateway/model/proxy_endpoint_schema.go`) -/

/-- The struct `model.ProxyEndpointSchema`. -/
structure ProxyEndpointSchema where
  AccountID : Int
  UserID : Int
  APIID : Int
  ProxyEndpointID : Int
  ID : Int
  Name : String
  RequestSchemaID : Option Int
  RequestType : String
  RequestSchema : String
  ResponseSameAsRequest : Bool
  ResponseSchemaID : Option Int
  ResponseType : String
  ResponseSchema : String
  Data : String
  ExportProxyEndpointIndex : Int
deriving DecidableEq, Repr

/-- The method `ProxyEndpointSchema.Validate`.  `newSchema text` is the error that
`gojsonschema.NewSchema(gojsonschema.NewStringLoader(text))` returns, nil when the text
compiles as a JSON schema, and `fmtError` the text that `fmt` prints for an error. -/
def ProxyEndpointSchema.Validate (newSchema : String → Option GoError)
    (fmtError : GoError → String) (s : ProxyEndpointSchema) : Errors :=
  let errors : Errors := []
  let errors := if s.Name = "" then errors.Add "name" "must have a name" else errors
  let errors :=
    if s.RequestType ≠ "json_schema" then
      errors.Add "request_schema_type" "must be 'json_schema'"
    else errors
  let errors :=
    if s.ResponseType ≠ "json_schema" then
      errors.Add "response_schema_type" "must be 'json_schema'"
    else errors
  let errors :=
    if s.RequestSchema ≠ "" then
      match newSchema s.RequestSchema with
      | some err => errors.Add "request_schema" ("schema error: " ++ fmtError err)
      | none => errors
    else errors
  let errors :=
    if s.ResponseSchema ≠ "" then
      match newSchema s.ResponseSchema with
      | some err => errors.Add "response_schema" ("schema error: " ++ fmtError err)
      | none => errors
    else errors
  errors

/-- The methods of the transaction `tx` and the helper of package `model` that
`ProxyEndpointSchema.Insert` calls; `τ` is the state of the database. -/
structure SchemaTx (τ : Type) where
  /-- The function `marshaledForStorage(data)`. -/
  marshaledForStorage : String → Except GoError String
  /-- The call `tx.Get(&count, tx.SQL("proxy_endpoint_schemas/count"), endpointID, apiID)`:
  the value of `count` after it; the error of the call is dropped by `Insert`. -/
  GetCount : Int → Int → τ → Int × τ
  /-- The call `tx.InsertOne(tx.SQL("proxy_endpoint_schemas/insert"), ...)` with the fields
  of the schema and the marshaled data, returning `(id, err)`. -/
  InsertOne : ProxyEndpointSchema → String → τ → (Int × Option GoError) × τ
  /-- The call `tx.Notify("proxy_endpoint_schemas", ..., apsql.Insert)`. -/
  Notify : ProxyEndpointSchema → τ → Option GoError × τ

variable {τ : Type}

/-- The method `ProxyEndpointSchema.Insert`: it returns the error, the receiver and the
state of the database. -/
def ProxyEndpointSchema.Insert (tx : SchemaTx τ) (s : ProxyEndpointSchema) (t : τ) :
    Option GoError × ProxyEndpointSchema × τ :=
  match tx.marshaledForStorage s.Data with
  | Except.error err => (some err, s, t)
  | Except.ok data =>
    match tx.GetCount s.ProxyEndpointID s.APIID t with
    | (count, t1) =>
      if count ≥ 1 then
        (some (GoError.errorf "Only 1 schema is allowed per proxy endpoint" []), s, t1)
      else
        match tx.InsertOne s data t1 with
        | ((id, some err), t2) => (some err, { s with ID := id }, t2)
        | ((id, none), t2) =>
          match tx.Notify { s with ID := id } t2 with
          | (err, t3) => (err, { s with ID := id }, t3)

/-- One call of a method of the transaction. -/
inductive TxEvent where
  | getCount (endpointID apiID : Int)
  | insertOne (s : ProxyEndpointSchema) (data : String)
  | notify (s : ProxyEndpointSchema)
deriving DecidableEq, Repr

/-- The transaction whose methods record every call they receive. -/
def SchemaTx.traced (tx : SchemaTx τ) : SchemaTx (τ × List TxEvent) where
  marshaledForStorage := tx.marshaledForStorage
  GetCount e a := logged (TxEvent.getCount e a) (tx.GetCount e a)
  InsertOne s d := logged (TxEvent.insertOne s d) (tx.InsertOne s d)
  Notify s := logged (TxEvent.notify s) (tx.Notify s)

/-- A schema with the given name, types and data, for endpoint 1 of API 1. -/
def demoSchema (name requestType responseType data : String) : ProxyEndpointSchema :=
  { AccountID := 1, UserID := 1, APIID := 1, ProxyEndpointID := 1, ID := 0, Name := name,
    RequestSchemaID := none, RequestType := requestType, RequestSchema := "",
    ResponseSameAsRequest := false, ResponseSchemaID := none, ResponseType := responseType,
    ResponseSchema := "", Data := data, ExportProxyEndpointIndex := 0 }

/-- A concrete schema compiler: only the text `oops` fails to compile. -/
def demoNewSchema (text : String) : Option GoError :=
  if text = "oops" then some (GoError.other 40) else none

/-- A concrete transaction: the state is the number of stored schemas, marshaling fails
exactly on the data `oops`, inserting stores one more schema. -/
def demoTx : SchemaTx Nat where
  marshaledForStorage data :=
    if data = "oops" then Except.error (GoError.other 30) else Except.ok data
  GetCount _ _ t := (t, t)
  InsertOne _ _ t := ((t + 1, none), t + 1)
  Notify _ t := (none, t)

/-! ## Release of sticky connections -/

/-- Every collaborator of the handler keeps the property `P` of the state. -/
structure Server.Preserves (s : Server σ ρ ν) (P : σ → Prop) : Prop where
  findProxyEndpoint : ∀ id w, P w → P (s.FindProxyEndpoint id w).2
  newVM : ∀ requestID r w, P w → P (s.NewVM requestID r w).2
  proxyRequestJSON : ∀ r w, P w → P (s.proxyRequestJSON r w).2
  vmSet : ∀ name value w, P w → P (s.vmSet name value w)
  vmRunAll : ∀ scripts w, P w → P (s.vmRunAll scripts w).2
  vmRun : ∀ script w, P w → P (s.vmRun script w).2
  vmObject : ∀ name w, P w → P (s.vmObject name w).2
  call : ∀ object method argument w, P w → P (s.call object method argument w).2
  evaluateComponentConditional :
    ∀ c w, P w → P (s.engine.evaluateComponentConditional c w).2
  runJSTransformation : ∀ t w, P w → P (s.engine.runJSTransformation t w).2
  runCallComponentCore : ∀ c w, P w → P (s.engine.runCallComponentCore c w).2
  runJSComponentCore : ∀ c w, P w → P (s.engine.runJSComponentCore c w).2

/-- Modelled from the spec: the Connection Cache of one pipeline execution, which the
sources do not declare (the handler in `proxy.go` declares no cache and calls no `Close`; the
cache is the map that `PrepareRequest` receives).  It is a mapping from the id of a remote
endpoint to its connection, kept with the connections closed so far and with the world `ω`
that the dispatcher and the other collaborators act on. -/
structure CacheWorld (ω κ : Type) where
  connections : Connections κ
  closed : List κ
  world : ω
deriving DecidableEq

/-- The connections stored in the cache. -/
def CacheWorld.handles (w : CacheWorld ω κ) : List κ :=
  w.connections.filterMap fun entry => entry.2

/-- Every connection stored in the cache has been closed. -/
def CacheWorld.Released (w : CacheWorld ω κ) : Prop :=
  ∀ h ∈ w.handles, h ∈ w.closed

/-- Modelled from the spec: the release of the cache, `Close` on every connection stored in
it. -/
def CacheWorld.release (w : CacheWorld ω κ) : CacheWorld ω κ :=
  { w with closed := w.closed ++ w.handles }

/-- One call of `PrepareRequest` on the cache, for a remote endpoint and the payload of a
call. -/
def prepareStep {ι : Type} (core : Core ω ι κ) (request : RemoteEndpoint × String)
    (w : CacheWorld ω κ) : Option GoError × CacheWorld ω κ :=
  ((PrepareRequest core request.1 request.2 w.connections w.world).err,
    { connections := (PrepareRequest core request.1 request.2 w.connections w.world).connections,
      closed := w.closed,
      world := (PrepareRequest core request.1 request.2 w.connections w.world).world })

/-- Modelled from the spec: the method `runCallComponentCore`, whose body is not in the
sources, as the owner of the cache.  It hands the cache to `PrepareRequest` for the remote
endpoint of every call of the component (`requestsOf`), stops at the first error, performs
the prepared requests (`perform`), and releases the cache on every exit path, success or
failure.  `runComponents` and `proxyHandlerFunc` in `proxy.go` run nothing after a failing
component, so the release is where the cache is used. -/
def scopedCallCore {ι : Type} (core : Core ω ι κ)
    (requestsOf : ProxyEndpointComponent → List (RemoteEndpoint × String))
    (perform : ProxyEndpointComponent → ω → Option GoError × ω)
    (c : ProxyEndpointComponent) (w : CacheWorld ω κ) : Option GoError × CacheWorld ω κ :=
  match rangeLoop (prepareStep core) (requestsOf c) w with
  | (some err, w1) => (some err, w1.release)
  | (none, w1) =>
    ((perform c w1.world).1,
      CacheWorld.release
        { connections := w1.connections, closed := w1.closed, world := (perform c w1.world).2 })

/-- The state `w1` has the cache and the closed connections of `w`. -/
def CacheWorld.sameCache (w w1 : CacheWorld ω κ) : Prop :=
  w1.connections = w.connections ∧ w1.closed = w.closed

/-- Modelled from the spec: the cache is owned by the pipeline execution alone.  Every
collaborator of the handler other than the call core leaves the cache and the closed
connections as they are. -/
structure Server.KeepsCache (s : Server (CacheWorld ω κ) ρ ν) : Prop where
  findProxyEndpoint : ∀ id (w : CacheWorld ω κ),
    CacheWorld.sameCache w (s.FindProxyEndpoint id w).2
  newVM : ∀ requestID r (w : CacheWorld ω κ), CacheWorld.sameCache w (s.NewVM requestID r w).2
  proxyRequestJSON : ∀ r (w : CacheWorld ω κ),
    CacheWorld.sameCache w (s.proxyRequestJSON r w).2
  vmSet : ∀ name value (w : CacheWorld ω κ), CacheWorld.sameCache w (s.vmSet name value w)
  vmRunAll : ∀ scripts (w : CacheWorld ω κ), CacheWorld.sameCache w (s.vmRunAll scripts w).2
  vmRun : ∀ script (w : CacheWorld ω κ), CacheWorld.sameCache w (s.vmRun script w).2
  vmObject : ∀ name (w : CacheWorld ω κ), CacheWorld.sameCache w (s.vmObject name w).2
  call : ∀ object method argument (w : CacheWorld ω κ),
    CacheWorld.sameCache w (s.call object method argument w).2
  evaluateComponentConditional : ∀ c (w : CacheWorld ω κ),
    CacheWorld.sameCache w (s.engine.evaluateComponentConditional c w).2
  runJSTransformation : ∀ t (w : CacheWorld ω κ),
    CacheWorld.sameCache w (s.engine.runJSTransformation t w).2
  runJSComponentCore : ∀ c (w : CacheWorld ω κ),
    CacheWorld.sameCache w (s.engine.runJSComponentCore c w).2

/-- A concrete engine on a world with a cache: the call core is the owner above over the
concrete dispatcher, with an LDAP remote endpoint per call of the component, numbered like
the call; performing the requests fails exactly for a component with a negative id. -/
def releasingEngine : Engine (CacheWorld Nat Nat) where
  transformationTypeJS := "js"
  evaluateComponentConditional _ w := ((true, none), w)
  runJSTransformation _ w := (none, w)
  runCallComponentCore :=
    scopedCallCore demoCore
      (fun c => c.Calls.map fun call => ({ ID := call.ID, Typ := "ldap" }, c.Data))
      (fun c world => (if c.ID < 0 then some (GoError.other 2) else none, world))
  runJSComponentCore _ w := (none, w)

/-- A handler over that engine: route "9" leads to an endpoint with one call component,
route "10" to one whose second component has an invalid type, route "11" to one whose
requests fail when they are performed. -/
def releasingServer : Server (CacheWorld Nat Nat) Unit String where
  engine := releasingEngine
  now w := w.world
  parseInt name :=
    if name = "9" then Except.ok 9 else if name = "10" then Except.ok 10
    else if name = "11" then Except.ok 11 else Except.error (GoError.other 20)
  FindProxyEndpoint id w :=
    if id = 9 then
      (Except.ok { Name := "sticky", Components := [demoMultiComponent 1 [demoCall 5 1]] }, w)
    else if id = 10 then
      (Except.ok
        { Name := "sticky, then failing",
          Components := [demoMultiComponent 1 [demoCall 5 1], demoComponent 6 "soap"] }, w)
    else if id = 11 then
      (Except.ok
        { Name := "sticky, failing backend",
          Components := [demoMultiComponent (-1) [demoCall 5 (-1)]] }, w)
    else (Except.error (GoError.other 21), w)
  NewVM _ _ w := (Except.ok (), w)
  proxyRequestJSON _ w := (Except.ok "\x7b\x7d", w)
  vmSet _ _ w := w
  vmRunAll _ w := (Except.ok (), w)
  vmRun script w := (Except.ok script, w)
  vmObject name w := (Except.ok name, w)
  call _ _ argument w := (Except.ok argument, w)
  valueString v := v
  proxyResponseFromJSON json := Except.ok { StatusCode := 200, Headers := [], Body := json }
  proxiedRequestsDuration _ := 0

/-- The method `PostgresSpec.ConnectionString`: the text that `fmt.Sprintf` builds from the
format `postgres://%s:%s@%s:%d/%s?sslmode=%s`. -/
def PostgresSpec.ConnectionString (p : PostgresSpec β) : String :=
  "postgres://" ++ p.User ++ ":" ++ p.Password ++ "@" ++ p.Host ++ ":" ++ toString p.Port ++
    "/" ++ p.DbName ++ "?sslmode=" ++ p.SSLMode

/-- The method `PostgresSpec.UniqueServer`. -/
def PostgresSpec.UniqueServer (p : PostgresSpec β) : String :=
  p.ConnectionString

/-- The fields of `tls.Config` that `connConfig` sets; a field it does not mention has its
zero value. -/
structure tls.Config where
  InsecureSkipVerify : Bool
  ServerName : String
deriving DecidableEq, Repr

/-- The fields of `pgx.ConnConfig` that `connConfig` reads or sets; `rest` stands for the
other fields, of a type `γ` declared by the library. -/
structure pgx.ConnConfig (γ : Type) where
  Host : String
  TLSConfig : Option tls.Config
  UseFallbackTLS : Bool
  FallbackTLSConfig : Option tls.Config
  rest : γ
deriving DecidableEq, Repr

variable {γ : Type}

/-- The function `connConfig`.  `ParseURI` is `pgx.ParseURI`, returning the Go pair
`(connConfig, err)`, and `sslmodeOf connString` the value of
`url.Query().Get("sslmode")` for the parsed connection string, empty when the parameter is
absent. -/
def connConfig (ParseURI : String → pgx.ConnConfig γ × Option GoError)
    (sslmodeOf : String → String) (connString : String) :
    pgx.ConnConfig γ × Option GoError :=
  match ParseURI connString with
  | (connConfig, some err) => (connConfig, some err)
  | (connConfig, none) =>
    let sslmode := sslmodeOf connString
    let sslmode := if sslmode = "" then "prefer" else sslmode
    if sslmode = "disable" then (connConfig, none)
    else if sslmode = "allow" then
      ({ connConfig with
          UseFallbackTLS := true,
          FallbackTLSConfig := some { InsecureSkipVerify := true, ServerName := "" } }, none)
    else if sslmode = "prefer" then
      ({ connConfig with
          TLSConfig := some { InsecureSkipVerify := true, ServerName := "" },
          UseFallbackTLS := true,
          FallbackTLSConfig := none }, none)
    else if sslmode = "require" ∨ sslmode = "verify-ca" ∨ sslmode = "verify-full" then
      ({ connConfig with
          TLSConfig := some { InsecureSkipVerify := false, ServerName := connConfig.Host } },
        none)
    else (connConfig, none)

/-- A concrete parser: every connection string parses to the host `db.example.com` without
TLS settings. -/
def demoParseURI (_ : String) : pgx.ConnConfig Unit × Option GoError :=
  ({ Host := "db.example.com", TLSConfig := none, UseFallbackTLS := false,
     FallbackTLSConfig := none, rest := () }, none)

/-- The fields of `model.User` that `NewSessionHandler` reads. -/
structure User where
  ID : Int
  AccountID : Int
  Admin : Bool
  Confirmed : Bool
deriving DecidableEq, Repr

/-- The collaborators of `NewSessionHandler`; `δ` is the state of the database. -/
structure SessionEnv (δ : Type) where
  /-- The cookie encoding behind `session.Save(r, w)`, see `sessionSave`. -/
  encode : Session → Option String
  /-- The call `deserialize(&credentials, r.Body)`: the email and the password read. -/
  deserialize : String → Except GoError (String × String)
  /-- The function `model.FindUserByEmail(db, email)`. -/
  FindUserByEmail : String → δ → Except GoError User × δ
  /-- The method `user.ValidPassword(password)`. -/
  ValidPassword : User → String → Bool
  /-- The call `json.MarshalIndent(wrapped, "", "    ")` on the user found. -/
  marshalUser : User → Except GoError String
  /-- The function `model.UpdateLastLogin(db, user)`. -/
  UpdateLastLogin : User → δ → δ

variable {δ : Type}

/-- The function `NewSessionHandler`, on the body of the request and the session that
`requestSession(r)` returns.  The session of the result is the one last saved; the writes
start with those of the `session.Save` in `_deleteSession`. -/
def NewSessionHandler (env : SessionEnv δ) (body : String) (session : Session) (db : δ) :
    SessionResult × δ :=
  match _deleteSession env.encode session with
  | (session1, writes1) =>
  match env.deserialize body with
  | Except.error _ =>
    ({ session := session1, writes := writes1, err := some HttpError.defaultServerError }, db)
  | Except.ok (email, password) =>
    let invalid : Option HttpError :=
      some (HttpError.newError (GoError.errorf "Invalid credentials" []) 400)
    match env.FindUserByEmail email db with
    | (Except.error _, db1) =>
      ({ session := session1, writes := writes1, err := invalid }, db1)
    | (Except.ok user, db1) =>
      if !user.Confirmed || !env.ValidPassword user password then
        ({ session := session1, writes := writes1, err := invalid }, db1)
      else
        let session2 : Session :=
          { session1 with
            userID := some user.ID, accountID := some user.AccountID,
            admin := some user.Admin }
        let writes2 := writes1 ++ sessionSave env.encode session2 ++
          [WriterOp.setHeader "Content-Type" "application/json"]
        match env.marshalUser user with
        | Except.error _ =>
          ({ session := session2, writes := writes2,
             err := some HttpError.defaultServerError }, db1)
        | Except.ok dataJSON =>
          ({ session := session2, writes := writes2 ++ [WriterOp.write (dataJSON ++ "\n")],
             err := none }, env.UpdateLastLogin user db1)

/-- A concrete login environment: the body is the email, unless it is `garbage`, which
cannot be read; the only user is the confirmed administrator `dev@example.com`, and every
password is accepted except the empty one. -/
def demoSessionEnv : SessionEnv Nat where
  encode := demoEncode
  deserialize body :=
    if body = "garbage" then Except.error (GoError.other 50) else Except.ok (body, "secret")
  FindUserByEmail email db :=
    if email = "dev@example.com" then
      (Except.ok { ID := 7, AccountID := 3, Admin := true, Confirmed := true }, db)
    else (Except.error (GoError.other 51), db)
  ValidPassword _ password := password != ""
  marshalUser _ := Except.ok "user"
  UpdateLastLogin _ db := db + 1

/-! ## Storing a component (`ProxyEndpointComponent.Insert`) -/

/-- The methods that `ProxyEndpointComponent.Insert` calls and whose bodies are not in the
sources; `τ` is the state of the database.  What `InsertForComponent` and `Call.Insert`
write into their receivers is not followed. -/
structure ComponentTx (τ : Type) where
  /-- The function `marshaledForStorage(c.Data)`. -/
  marshaledForStorage : String → Except GoError String
  /-- The call `tx.InsertOne` on the statement `INSERT INTO proxy_endpoint_components`, with
  the component, the endpoint id, the position and the marshaled data; it returns
  `(id, err)`. -/
  InsertOne : ProxyEndpointComponent → Int → Int → String → τ → (Int × Option GoError) × τ
  /-- The method `transform.InsertForComponent(tx, componentID, before, position)`. -/
  InsertForComponent : ProxyEndpointTransformation → Int → Bool → Nat → τ → Option GoError × τ
  /-- The method `call.Insert(tx, componentID, apiID, position)`; the receiver of the single
  call is the pointer `c.Call`, which may be nil. -/
  CallInsert : Option ProxyEndpointCall → Int → Int → Nat → τ → Option GoError × τ

variable {τ : Type}

/-- One of the two loops of `Insert` over transformations, from the position given: the
first failure is returned wrapped in `context`. -/
def insertTransformationsFrom (tx : ComponentTx τ) (componentID : Int) (before : Bool)
    (context : String) : Nat → List ProxyEndpointTransformation → τ → Option GoError × τ
  | _, [], t => (none, t)
  | position, transform :: rest, t =>
    match tx.InsertForComponent transform componentID before position t with
    | (some err, t1) => (some (GoError.wrapped context err), t1)
    | (none, t1) =>
      insertTransformationsFrom tx componentID before context (position + 1) rest t1

/-- The loop of `Insert` over the calls of a multi-call component, from the position
given. -/
def insertCallsFrom (tx : ComponentTx τ) (componentID apiID : Int) :
    Nat → List ProxyEndpointCall → τ → Option GoError × τ
  | _, [], t => (none, t)
  | position, call :: rest, t =>
    match tx.CallInsert (some call) componentID apiID position t with
    | (some err, t1) => (some (GoError.wrapped "Inserting multi call" err), t1)
    | (none, t1) => insertCallsFrom tx componentID apiID (position + 1) rest t1

/-- The method `ProxyEndpointComponent.Insert`: it returns the error, the receiver (whose
`ID` the insert of the component sets) and the state of the database. -/
def ProxyEndpointComponent.Insert (tx : ComponentTx τ) (c : ProxyEndpointComponent)
    (endpointID apiID : Int) (position : Int) (t : τ) :
    Option GoError × ProxyEndpointComponent × τ :=
  match tx.marshaledForStorage c.Data with
  | Except.error err => (some (GoError.wrapped "Marshaling component JSON" err), c, t)
  | Except.ok data =>
    match tx.InsertOne c endpointID position data t with
    | ((id, some err), t1) =>
      (some (GoError.wrapped "Inserting component" err), { c with ID := id }, t1)
    | ((id, none), t1) =>
      let c1 := { c with ID := id }
      match insertTransformationsFrom tx c1.ID true "Inserting before transformation" 0
          c1.BeforeTransformations t1 with
      | (some err, t2) => (some err, c1, t2)
      | (none, t2) =>
        match insertTransformationsFrom tx c1.ID false "Inserting after transformation" 0
            c1.AfterTransformations t2 with
        | (some err, t3) => (some err, c1, t3)
        | (none, t3) =>
          if c1.Typ = ProxyEndpointComponentTypeSingle then
            match tx.CallInsert c1.Call c1.ID apiID 0 t3 with
            | (some err, t4) => (some (GoError.wrapped "Inserting single call" err), c1, t4)
            | (none, t4) => (none, c1, t4)
          else if c1.Typ = ProxyEndpointComponentTypeMulti then
            match insertCallsFrom tx c1.ID apiID 0 c1.Calls t3 with
            | (some err, t4) => (some err, c1, t4)
            | (none, t4) => (none, c1, t4)
          else (none, c1, t3)

/-- One insert that `Insert` issues after the component itself: a transformation with its
`before` flag and position, the single call (at position 0), or a call of a multi-call
component with its position. -/
inductive InsertOp where
  | transformation (t : ProxyEndpointTransformation) (before : Bool) (position : Nat)
  | singleCall (call : Option ProxyEndpointCall)
  | multiCall (call : ProxyEndpointCall) (position : Nat)
deriving DecidableEq, Repr

/-- The inserts of a component in the order of its lists, each element paired with its
index in its own list. -/
def insertPlan (c : ProxyEndpointComponent) : List InsertOp :=
  c.BeforeTransformations.enum.map (fun p => InsertOp.transformation p.2 true p.1) ++
  c.AfterTransformations.enum.map (fun p => InsertOp.transformation p.2 false p.1) ++
  (if c.Typ = ProxyEndpointComponentTypeSingle then [InsertOp.singleCall c.Call]
   else if c.Typ = ProxyEndpointComponentTypeMulti then
     c.Calls.enum.map (fun p => InsertOp.multiCall p.2 p.1)
   else [])

/-- Issues one insert for the component `componentID` and wraps its failure. -/
def insertStep (tx : ComponentTx τ) (componentID apiID : Int) (op : InsertOp) (t : τ) :
    Option GoError × τ :=
  match op with
  | InsertOp.transformation transform before position =>
    match tx.InsertForComponent transform componentID before position t with
    | (some err, t1) =>
      (some (GoError.wrapped
        (if before then "Inserting before transformation"
          else "Inserting after transformation") err), t1)
    | (none, t1) => (none, t1)
  | InsertOp.singleCall call =>
    match tx.CallInsert call componentID apiID 0 t with
    | (some err, t1) => (some (GoError.wrapped "Inserting single call" err), t1)
    | (none, t1) => (none, t1)
  | InsertOp.multiCall call position =>
    match tx.CallInsert (some call) componentID apiID position t with
    | (some err, t1) => (some (GoError.wrapped "Inserting multi call" err), t1)
    | (none, t1) => (none, t1)

/-- One call of a method of the transaction by `Insert`. -/
inductive ComponentTxEvent where
  | insertOne (c : ProxyEndpointComponent) (endpointID position : Int) (data : String)
  | insertForComponent (t : ProxyEndpointTransformation) (componentID : Int) (before : Bool)
      (position : Nat)
  | callInsert (call : Option ProxyEndpointCall) (componentID apiID : Int) (position : Nat)
deriving DecidableEq, Repr

/-- The entry that an insert for the component `componentID` leaves in the log. -/
def InsertOp.event (componentID apiID : Int) : InsertOp → ComponentTxEvent
  | InsertOp.transformation t before position =>
    ComponentTxEvent.insertForComponent t componentID before position
  | InsertOp.singleCall call => ComponentTxEvent.callInsert call componentID apiID 0
  | InsertOp.multiCall call position =>
    ComponentTxEvent.callInsert (some call) componentID apiID position

/-- The transaction whose methods record every call they receive. -/
def ComponentTx.traced (tx : ComponentTx τ) : ComponentTx (τ × List ComponentTxEvent) where
  marshaledForStorage := tx.marshaledForStorage
  InsertOne c e p d := logged (ComponentTxEvent.insertOne c e p d) (tx.InsertOne c e p d)
  InsertForComponent t c b p :=
    logged (ComponentTxEvent.insertForComponent t c b p) (tx.InsertForComponent t c b p)
  CallInsert call c a p :=
    logged (ComponentTxEvent.callInsert call c a p) (tx.CallInsert call c a p)

/-- A concrete transaction: the state counts the rows stored, the component gets the id 100,
and an insert fails exactly for a transformation or a call with a negative id. -/
def demoComponentTx : ComponentTx Nat where
  marshaledForStorage data := Except.ok data
  InsertOne _ _ _ _ t := ((100, none), t + 1)
  InsertForComponent transform _ _ _ t :=
    (if transform.ID < 0 then some (GoError.other 60) else none, t + 1)
  CallInsert call _ _ _ t :=
    match call with
    | some c => (if c.ID < 0 then some (GoError.other 61) else none, t + 1)
    | none => (some (GoError.other 62), t)

/-! ## Loading the components of an endpoint (`AllProxyEndpointComponentsForEndpointID`) -/

/-- The columns that the `SELECT` of `AllProxyEndpointComponentsForEndpointID` reads from
`proxy_endpoint_components`. -/
structure ComponentRow where
  ID : Int
  Conditional : String
  ConditionalPositive : Bool
  Typ : String
  Data : String
  SharedComponentID : Int
deriving DecidableEq, Repr

/-- The component that `db.Select` builds from a row: the fields outside the selected
columns keep their zero value. -/
def ComponentRow.component (r : ComponentRow) : ProxyEndpointComponent :=
  { ID := r.ID, Conditional := r.Conditional, ConditionalPositive := r.ConditionalPositive,
    Typ := r.Typ, BeforeTransformations := [], AfterTransformations := [], Call := none,
    Calls := [], Data := r.Data, SharedComponentID := r.SharedComponentID }

/-- A loaded component as the loops see it.  The loops work on pointers: a pointer to a call
is the index of the call in the slice of loaded calls, so that what a later loop writes into
a call is seen through every pointer to it. -/
structure ComponentCell where
  component : ProxyEndpointComponent
  Call : Option Nat
  Calls : List Nat
deriving DecidableEq, Repr

/-- A Go map from an id to a pointer (an index), as an association list with at most one
entry per id. -/
abbrev PointerMap := List (Int × Nat)

/-- The index expression `m[id]`: nil (`none`) when there is no entry. -/
def PointerMap.get (m : PointerMap) (id : Int) : Option Nat := m.lookup id

/-- The assignment `m[id] = pointer`. -/
def PointerMap.set : PointerMap → Int → Nat → PointerMap
  | [], id, pointer => [(id, pointer)]
  | (k, v) :: m, id, pointer =>
    if k = id then (id, pointer) :: m else (k, v) :: PointerMap.set m id pointer

/-- The first loop: `componentIDs` and `componentsByID`, for the components from index `i`
on. -/
def indexComponents : Nat → List ProxyEndpointComponent → List Int × PointerMap →
    List Int × PointerMap
  | _, [], st => st
  | i, component :: rest, (componentIDs, componentsByID) =>
    indexComponents (i + 1) rest
      (componentIDs ++ [component.ID], componentsByID.set component.ID i)

/-- The second loop, for the calls from index `j` on, on `callIDs`, `callsByID` and the
components.  `none` is the nil dereference `component.Type` of a call whose `ComponentID` is
not in `componentsByID`. -/
def attachCalls (componentsByID : PointerMap) :
    Nat → List ProxyEndpointCall → List Int × PointerMap × List ComponentCell →
    Option (List Int × PointerMap × List ComponentCell)
  | _, [], st => some st
  | j, call :: rest, (callIDs, callsByID, cells) =>
    match componentsByID.get call.ComponentID with
    | none => none
    | some i =>
      match cells[i]? with
      | none => none
      | some cell =>
        let cell1 :=
          if cell.component.Typ = ProxyEndpointComponentTypeSingle then
            { cell with Call := some j }
          else if cell.component.Typ = ProxyEndpointComponentTypeMulti then
            { cell with Calls := cell.Calls ++ [j] }
          else cell
        attachCalls componentsByID (j + 1) rest
          (callIDs ++ [call.ID], callsByID.set call.ID j, cells.set i cell1)

/-- The third loop, on the components and the calls.  A transformation with a `ComponentID`
goes to that component, otherwise one with a `CallID` goes to that call; `none` is the nil
dereference of an id that is not in its map. -/
def attachTransformations (componentsByID callsByID : PointerMap) :
    List ProxyEndpointTransformation → List ComponentCell × List ProxyEndpointCall →
    Option (List ComponentCell × List ProxyEndpointCall)
  | [], st => some st
  | transform :: rest, (cells, calls) =>
    match transform.ComponentID with
    | some componentID =>
      match componentsByID.get componentID with
      | none => none
      | some i =>
        match cells[i]? with
        | none => none
        | some cell =>
          let component1 :=
            if transform.Before then
              { cell.component with
                BeforeTransformations := cell.component.BeforeTransformations ++ [transform] }
            else
              { cell.component with
                AfterTransformations := cell.component.AfterTransformations ++ [transform] }
          attachTransformations componentsByID callsByID rest
            (cells.set i { cell with component := component1 }, calls)
    | none =>
      match transform.CallID with
      | some callID =>
        match callsByID.get callID with
        | none => none
        | some j =>
          match calls[j]? with
          | none => none
          | some call =>
            let call1 :=
              if transform.Before then
                { call with BeforeTransformations := call.BeforeTransformations ++ [transform] }
              else
                { call with AfterTransformations := call.AfterTransformations ++ [transform] }
            attachTransformations componentsByID callsByID rest (cells, calls.set j call1)
      | none => attachTransformations componentsByID callsByID rest (cells, calls)

/-- The component behind a cell, with its pointers to calls followed. -/
def ComponentCell.resolve (calls : List ProxyEndpointCall) (cell : ComponentCell) :
    ProxyEndpointComponent :=
  { cell.component with
    Call := cell.Call.bind (fun j => calls[j]?),
    Calls := cell.Calls.filterMap (fun j => calls[j]?) }

/-- The three queries of `AllProxyEndpointComponentsForEndpointID`: the `SELECT` of the
components of an endpoint, ordered by position, and the functions
`AllProxyEndpointCallsForComponentIDs` and
`AllProxyEndpointTransformationsForComponentIDsAndCallIDs`, whose bodies are not in the
sources. -/
structure ComponentStore where
  selectComponents : Int → Except GoError (List ComponentRow)
  AllProxyEndpointCallsForComponentIDs : List Int → Except GoError (List ProxyEndpointCall)
  AllProxyEndpointTransformationsForComponentIDsAndCallIDs :
    List Int → List Int → Except GoError (List ProxyEndpointTransformation)

/-- How a call of `AllProxyEndpointComponentsForEndpointID` ends: with the components, with
an error, or in a nil dereference. -/
inductive LoadResult where
  | ok (components : List ProxyEndpointComponent)
  | error (err : GoError)
  | nilDereference
deriving DecidableEq, Repr

/-- The function `AllProxyEndpointComponentsForEndpointID`. -/
def AllProxyEndpointComponentsForEndpointID (db : ComponentStore) (endpointID : Int) :
    LoadResult :=
  match db.selectComponents endpointID with
  | Except.error err => LoadResult.error err
  | Except.ok rows =>
    let components := rows.map ComponentRow.component
    match indexComponents 0 components ([], []) with
    | (componentIDs, componentsByID) =>
      match db.AllProxyEndpointCallsForComponentIDs componentIDs with
      | Except.error err => LoadResult.error err
      | Except.ok calls =>
        match attachCalls componentsByID 0 calls
            ([], [], components.map fun c => { component := c, Call := none, Calls := [] }) with
        | none => LoadResult.nilDereference
        | some (callIDs, callsByID, cells) =>
          match db.AllProxyEndpointTransformationsForComponentIDsAndCallIDs componentIDs
              callIDs with
          | Except.error err => LoadResult.error err
          | Except.ok transforms =>
            match attachTransformations componentsByID callsByID transforms (cells, calls) with
            | none => LoadResult.nilDereference
            | some (cells1, calls1) => LoadResult.ok (cells1.map (ComponentCell.resolve calls1))

/-- The lists of a loaded call after the transformations are attached: those it carried,
then the loaded transformations that name no component and name the call, in loaded order,
split by their `Before` flag. -/
def assembleCall (transforms : List ProxyEndpointTransformation) (call : ProxyEndpointCall) :
    ProxyEndpointCall :=
  { call with
    BeforeTransformations := call.BeforeTransformations ++
      transforms.filter (fun t =>
        decide (t.ComponentID = none) && decide (t.CallID = some call.ID) && t.Before),
    AfterTransformations := call.AfterTransformations ++
      transforms.filter (fun t =>
        decide (t.ComponentID = none) && decide (t.CallID = some call.ID) && !t.Before) }

/-- The component assembled for a row: its transformations are the loaded ones that name
it, in loaded order, split by their `Before` flag; the calls of a multi-call component are
the loaded calls that name it, in loaded order, and the call of a single-call component is
the last loaded call that names it. -/
def assembleComponent (calls : List ProxyEndpointCall)
    (transforms : List ProxyEndpointTransformation) (r : ComponentRow) :
    ProxyEndpointComponent :=
  { r.component with
    BeforeTransformations :=
      transforms.filter (fun t => decide (t.ComponentID = some r.ID) && t.Before),
    AfterTransformations :=
      transforms.filter (fun t => decide (t.ComponentID = some r.ID) && !t.Before),
    Call :=
      if r.Typ = ProxyEndpointComponentTypeSingle then
        ((calls.filter (fun call => decide (call.ComponentID = r.ID))).getLast?).map
          (assembleCall transforms)
      else none,
    Calls :=
      if r.Typ = ProxyEndpointComponentTypeMulti then
        (calls.filter (fun call => decide (call.ComponentID = r.ID))).map
          (assembleCall transforms)
      else [] }

/-- A store with one multi-call component (id 1), its two calls (ids 7 and 8) and three
transformations: one of the component, one of call 8, and one that names both the component
and call 7. -/
def demoStore : ComponentStore where
  selectComponents _ :=
    Except.ok
      [{ ID := 1, Conditional := "", ConditionalPositive := true, Typ := "multi", Data := "",
         SharedComponentID := 0 }]
  AllProxyEndpointCallsForComponentIDs _ := Except.ok [demoCall 7 1, demoCall 8 1]
  AllProxyEndpointTransformationsForComponentIDsAndCallIDs _ _ :=
    Except.ok
      [{ ID := 21, Typ := "js", Before := true, ComponentID := some 1, CallID := none },
       { ID := 22, Typ := "js", Before := false, ComponentID := none, CallID := some 8 },
       { ID := 23, Typ := "js", Before := true, ComponentID := some 1, CallID := some 7 }]

/-- The map after the assignments `m[key] = i`, `m[key'] = i + 1`, ... for the keys given,
in order. -/
def PointerMap.setAll : Nat → List Int → PointerMap → PointerMap
  | _, [], m => m
  | i, key :: keys, m => PointerMap.setAll (i + 1) keys (m.set key i)

/-- What the second loop makes of the cell at pointer `i`, for the calls from index `j`
on. -/
def cellAfterCalls (componentsByID : PointerMap) (i : Nat) :
    Nat → List ProxyEndpointCall → ComponentCell → ComponentCell
  | _, [], cell => cell
  | j, call :: rest, cell =>
    cellAfterCalls componentsByID i (j + 1) rest
      (if componentsByID.get call.ComponentID = some i then
        (if cell.component.Typ = ProxyEndpointComponentTypeSingle then
          { cell with Call := some j }
        else if cell.component.Typ = ProxyEndpointComponentTypeMulti then
          { cell with Calls := cell.Calls ++ [j] }
        else cell)
      else cell)

/-- What the third loop makes of the cell at pointer `i`. -/
def cellAfterTransformations (componentsByID : PointerMap) (i : Nat) :
    List ProxyEndpointTransformation → ComponentCell → ComponentCell
  | [], cell => cell
  | transform :: rest, cell =>
    cellAfterTransformations componentsByID i rest
      (if transform.ComponentID.bind componentsByID.get = some i then
        { cell with
          component :=
            if transform.Before then
              { cell.component with
                BeforeTransformations := cell.component.BeforeTransformations ++ [transform] }
            else
              { cell.component with
                AfterTransformations := cell.component.AfterTransformations ++ [transform] } }
      else cell)

/-- What the third loop makes of the call at pointer `j`. -/
def callAfterTransformations (callsByID : PointerMap) (j : Nat) :
    List ProxyEndpointTransformation → ProxyEndpointCall → ProxyEndpointCall
  | [], call => call
  | transform :: rest, call =>
    callAfterTransformations callsByID j rest
      (if transform.ComponentID = none ∧ transform.CallID.bind callsByID.get = some j then
        (if transform.Before then
          { call with BeforeTransformations := call.BeforeTransformations ++ [transform] }
        else
          { call with AfterTransformations := call.AfterTransformations ++ [transform] })
      else call)

/-! ## Theorems -/

section Loop

variable {α ε : Type}

theorem rangeLoop_logged (ev : α → ε) (step : α → σ → Option GoError × σ) (xs : List α)
    (vm : σ) (log : List ε) :
    rangeLoop (fun x => logged (ev x) (step x)) xs (vm, log) =
      ((rangeLoop step xs vm).1,
        ((rangeLoop step xs vm).2, log ++ (attempted step xs vm).map ev)) := by
  induction xs generalizing vm log with
  | nil => simp [rangeLoop, attempted]
  | cons x xs ih =>
    rcases h : step x vm with ⟨_ | err, vm1⟩
    · simp [rangeLoop, attempted, logged, h, ih]
    · simp [rangeLoop, attempted, logged, h]

theorem rangeLoop_of_allSucceed (step : α → σ → Option GoError × σ) (xs : List α) (vm : σ)
    (h : allSucceed step xs vm = true) :
    (rangeLoop step xs vm).1 = none ∧ attempted step xs vm = xs := by
  induction xs generalizing vm with
  | nil => simp [rangeLoop, attempted]
  | cons x xs ih =>
    rcases hx : step x vm with ⟨_ | err, vm1⟩
    · simp only [allSucceed, hx, Option.isNone_none, Bool.true_and] at h
      simpa [rangeLoop, attempted, hx] using ih vm1 h
    · simp [allSucceed, hx] at h

theorem rangeLoop_first_error (step : α → σ → Option GoError × σ) (xs : List α) (vm : σ)
    (i : Nat) (hi : i < xs.length) (err : GoError)
    (hpre : allSucceed step (xs.take i) vm = true)
    (herr : (step xs[i] (rangeLoop step (xs.take i) vm).2).1 = some err) :
    rangeLoop step xs vm = (some err, (step xs[i] (rangeLoop step (xs.take i) vm).2).2) ∧
      attempted step xs vm = xs.take (i + 1) := by
  induction xs generalizing vm i with
  | nil => simp at hi
  | cons x xs ih =>
    cases i with
    | zero =>
      simp only [List.take_zero, rangeLoop, List.getElem_cons_zero] at herr
      rcases hx : step x vm with ⟨_ | e, vm1⟩
      · simp [hx] at herr
      · simp only [hx, Option.some.injEq] at herr
        subst herr
        simp [rangeLoop, attempted, hx]
    | succ i =>
      have hi2 : i < xs.length := by simpa using hi
      rcases hx : step x vm with ⟨_ | e, vm1⟩
      · simp only [List.take_succ_cons, allSucceed, hx, Option.isNone_none, Bool.true_and] at hpre
        simp only [List.take_succ_cons, rangeLoop, hx, List.getElem_cons_succ] at herr
        have := ih vm1 i hi2 hpre herr
        simp [rangeLoop, attempted, hx, this]
      · simp [allSucceed, hx] at hpre

theorem allSucceed_of_rangeLoop (step : α → σ → Option GoError × σ) (xs : List α) (vm : σ)
    (h : (rangeLoop step xs vm).1 = none) : allSucceed step xs vm = true := by
  induction xs generalizing vm with
  | nil => rfl
  | cons x xs ih =>
    rcases hx : step x vm with ⟨_ | err, vm1⟩
    · simp only [rangeLoop, hx] at h
      simp [allSucceed, hx, ih vm1 h]
    · simp [rangeLoop, hx] at h

end Loop

section Transformations

@[simp]
theorem traced_transformationTypeJS (s : Engine σ) :
    s.traced.transformationTypeJS = s.transformationTypeJS := rfl

@[simp]
theorem traced_evaluateComponentConditional (s : Engine σ)
    (c : ProxyEndpointComponent) (st : σ × List Event) :
    s.traced.evaluateComponentConditional c st =
      ((s.evaluateComponentConditional c st.1).1,
        ((s.evaluateComponentConditional c st.1).2, st.2 ++ [Event.conditional c])) := rfl

@[simp]
theorem traced_runJSTransformation (s : Engine σ) (t : ProxyEndpointTransformation)
    (st : σ × List Event) :
    s.traced.runJSTransformation t st =
      ((s.runJSTransformation t st.1).1,
        ((s.runJSTransformation t st.1).2, st.2 ++ [Event.transformation t])) := rfl

@[simp]
theorem traced_runCallComponentCore (s : Engine σ) (c : ProxyEndpointComponent)
    (st : σ × List Event) :
    s.traced.runCallComponentCore c st =
      ((s.runCallComponentCore c st.1).1,
        ((s.runCallComponentCore c st.1).2, st.2 ++ [Event.callCore c])) := rfl

@[simp]
theorem traced_runJSComponentCore (s : Engine σ) (c : ProxyEndpointComponent)
    (st : σ × List Event) :
    s.traced.runJSComponentCore c st =
      ((s.runJSComponentCore c st.1).1,
        ((s.runJSComponentCore c st.1).2, st.2 ++ [Event.jsCore c])) := rfl

theorem runTransformations_eq_rangeLoop (s : Engine σ) (ts : List ProxyEndpointTransformation)
    (vm : σ) : runTransformations s ts vm = rangeLoop (transformationStep s) ts vm := by
  induction ts generalizing vm with
  | nil => rfl
  | cons t ts ih =>
    by_cases ht : t.Typ = s.transformationTypeJS
    · rcases h : s.runJSTransformation t vm with ⟨_ | err, vm1⟩
      · simp [runTransformations, rangeLoop, transformationStep, ht, h, ih]
      · simp [runTransformations, rangeLoop, transformationStep, ht, h]
    · simp [runTransformations, rangeLoop, transformationStep, ht]

theorem runTransformations_traced (s : Engine σ) (ts : List ProxyEndpointTransformation)
    (vm : σ) (log : List Event) :
    runTransformations s.traced ts (vm, log) =
      ((runTransformations s ts vm).1,
        ((runTransformations s ts vm).2,
          log ++ (ranTransformations s ts vm).map Event.transformation)) := by
  induction ts generalizing vm log with
  | nil => simp [runTransformations, ranTransformations]
  | cons t ts ih =>
    by_cases ht : t.Typ = s.transformationTypeJS
    · rcases h : s.runJSTransformation t vm with ⟨_ | err, vm1⟩
      · simp [runTransformations, ranTransformations, ht, h, ih]
      · simp [runTransformations, ranTransformations, ht, h]
    · simp [runTransformations, ranTransformations, ht]

theorem ranTransformations_of_allSucceed (s : Engine σ)
    (ts : List ProxyEndpointTransformation) (vm : σ)
    (h : allSucceed (transformationStep s) ts vm = true) :
    ranTransformations s ts vm = ts := by
  induction ts generalizing vm with
  | nil => rfl
  | cons t ts ih =>
    by_cases ht : t.Typ = s.transformationTypeJS
    · rcases hx : s.runJSTransformation t vm with ⟨_ | err, vm1⟩
      · simp only [allSucceed, transformationStep, ht, if_true, hx, Option.isNone_none,
          Bool.true_and] at h
        simp [ranTransformations, ht, hx, ih vm1 h]
      · simp [allSucceed, transformationStep, ht, hx] at h
    · simp [allSucceed, transformationStep, ht] at h

theorem ranTransformations_first_error (s : Engine σ)
    (ts : List ProxyEndpointTransformation) (vm : σ) (i : Nat) (hi : i < ts.length)
    (err : GoError)
    (hpre : allSucceed (transformationStep s) (ts.take i) vm = true)
    (herr : (transformationStep s ts[i] (rangeLoop (transformationStep s) (ts.take i) vm).2).1
      = some err) :
    ranTransformations s ts vm =
      ts.take i ++ (if ts[i].Typ = s.transformationTypeJS then [ts[i]] else []) := by
  induction ts generalizing vm i with
  | nil => simp at hi
  | cons t ts ih =>
    cases i with
    | zero =>
      simp only [List.take_zero, rangeLoop, List.getElem_cons_zero] at herr
      by_cases ht : t.Typ = s.transformationTypeJS
      · rcases hx : s.runJSTransformation t vm with ⟨_ | e, vm1⟩
        · simp [transformationStep, ht, hx] at herr
        · simp [ranTransformations, ht, hx]
      · simp [ranTransformations, ht]
    | succ i =>
      have hi2 : i < ts.length := by simpa using hi
      by_cases ht : t.Typ = s.transformationTypeJS
      · rcases hx : s.runJSTransformation t vm with ⟨_ | e, vm1⟩
        · have hstep : transformationStep s t vm = (none, vm1) := by
            simp [transformationStep, ht, hx]
          simp only [List.take_succ_cons, allSucceed, hstep, Option.isNone_none,
            Bool.true_and] at hpre
          simp only [List.take_succ_cons, rangeLoop, hstep, List.getElem_cons_succ] at herr
          have := ih vm1 i hi2 hpre herr
          simp [ranTransformations, ht, hx, this]
        · simp [allSucceed, transformationStep, ht, hx] at hpre
      · simp [allSucceed, transformationStep, ht] at hpre

end Transformations

/-- C1: when every call of `runComponent` along the list succeeds, `runComponents` returns
nil and calls `runComponent` exactly once per component, in the order of the list: the log of
the instrumented loop grows by exactly the list of components. -/
theorem runComponents_calls_each_once_in_order (s : Engine σ)
    (components : List ProxyEndpointComponent) (vm : σ) (log : List ProxyEndpointComponent)
    (h : allSucceed (runComponent s) components vm = true) :
    (runComponents s components vm).1 = none ∧
      rangeLoop (fun c => logged c (runComponent s c)) components (vm, log) =
        (none, ((runComponents s components vm).2, log ++ components)) := by
  have h1 := rangeLoop_of_allSucceed (runComponent s) components vm h
  have h2 := rangeLoop_logged (fun c => c) (runComponent s) components vm log
  refine ⟨h1.1, ?_⟩
  rw [h2, h1.2]
  simp [runComponents, h1.1]

theorem runComponents_calls_each_once_in_order_witness :
    allSucceed (runComponent demoEngine) [demoComponent 1 "single", demoComponent 2 "js"] 0
        = true ∧
      (runComponents demoEngine [demoComponent 1 "single", demoComponent 2 "js"] 0).1 = none ∧
      rangeLoop (fun c => logged c (runComponent demoEngine c))
          [demoComponent 1 "single", demoComponent 2 "js"] (0, []) =
        (none, ((runComponents demoEngine [demoComponent 1 "single", demoComponent 2 "js"] 0).2,
          [] ++ [demoComponent 1 "single", demoComponent 2 "js"])) :=
  ⟨by decide, runComponents_calls_each_once_in_order demoEngine
    [demoComponent 1 "single", demoComponent 2 "js"] 0 [] (by decide)⟩

/-- C2: if `i` is the first index at which `runComponent` returns an error, `runComponents`
returns exactly that error, in the state that failing call left, and `runComponent` is called
on the components at indices `0..i` only: the log of the instrumented loop grows by the first
`i + 1` components and by nothing after them. -/
theorem runComponents_stops_at_first_error (s : Engine σ)
    (components : List ProxyEndpointComponent) (vm : σ) (log : List ProxyEndpointComponent)
    (i : Nat) (hi : i < components.length) (err : GoError)
    (hpre : allSucceed (runComponent s) (components.take i) vm = true)
    (herr : (runComponent s components[i] (runComponents s (components.take i) vm).2).1
      = some err) :
    runComponents s components vm =
        (some err, (runComponent s components[i] (runComponents s (components.take i) vm).2).2) ∧
      rangeLoop (fun c => logged c (runComponent s c)) components (vm, log) =
        (some err, ((runComponents s components vm).2, log ++ components.take (i + 1))) := by
  have h1 := rangeLoop_first_error (runComponent s) components vm i hi err hpre herr
  have h2 := rangeLoop_logged (fun c => c) (runComponent s) components vm log
  refine ⟨h1.1, ?_⟩
  rw [h2, h1.2]
  simp [runComponents, h1.1]

theorem runComponents_stops_at_first_error_witness :
    runComponents demoEngine
        [demoComponent 1 "single", demoComponent (-2) "multi", demoComponent 3 "js"] 0 =
        (some (GoError.other 1), 13) ∧
      rangeLoop (fun c => logged c (runComponent demoEngine c))
          [demoComponent 1 "single", demoComponent (-2) "multi", demoComponent 3 "js"] (0, []) =
        (some (GoError.other 1), (13, [demoComponent 1 "single", demoComponent (-2) "multi"])) :=
  runComponents_stops_at_first_error demoEngine
    [demoComponent 1 "single", demoComponent (-2) "multi", demoComponent 3 "js"] 0 [] 1
    (by decide) (GoError.other 1) (by decide) (by decide)

section Component

theorem ranTransformations_of_success (s : Engine σ) (ts : List ProxyEndpointTransformation)
    (vm : σ) (h : (runTransformations s ts vm).1 = none) : ranTransformations s ts vm = ts := by
  rw [runTransformations_eq_rangeLoop] at h
  exact ranTransformations_of_allSucceed s ts vm (allSucceed_of_rangeLoop _ ts vm h)

/-- C3: when the conditional gate of a component decides "do not run" (the gate returns
`false` and no error), `runComponent` returns nil, leaves the state as the evaluation of the
gate left it, and calls neither a before-transformation, nor a core action, nor an
after-transformation: the only entry the instrumented run adds to the log is the evaluation
of the gate. -/
theorem runComponent_gate_closed (s : Engine σ) (c : ProxyEndpointComponent) (vm : σ)
    (log : List Event)
    (hgate : (s.evaluateComponentConditional c vm).1 = (false, none)) :
    runComponent s c vm = (none, (s.evaluateComponentConditional c vm).2) ∧
      runComponent s.traced c (vm, log) =
        (none, ((s.evaluateComponentConditional c vm).2, log ++ [Event.conditional c])) := by
  rcases hg : s.evaluateComponentConditional c vm with ⟨⟨b, e⟩, vm1⟩
  rw [hg] at hgate
  simp only [Prod.mk.injEq] at hgate
  obtain ⟨rfl, rfl⟩ := hgate
  simp [runComponent, hg]

theorem runComponent_gate_closed_witness :
    (demoEngine.evaluateComponentConditional
        { demoComponent 1 "single" with ConditionalPositive := false } 7).1 = (false, none) ∧
      runComponent demoEngine { demoComponent 1 "single" with ConditionalPositive := false } 7
        = (none, 7) ∧
      runComponent demoEngine.traced
          { demoComponent 1 "single" with ConditionalPositive := false } (7, []) =
        (none, (7, [Event.conditional
          { demoComponent 1 "single" with ConditionalPositive := false }])) :=
  ⟨by decide, runComponent_gate_closed demoEngine
    { demoComponent 1 "single" with ConditionalPositive := false } 7 [] (by decide)⟩

end Component

/-- C4: for a component whose gate passes, `runComponent` runs the before-transformations,
then the core action, then the after-transformations, in that order, and returns the error
of the step that fails.  With the log of the instrumented run: (1) the instrumented run
returns what the plain run returns; (2) if the before-transformations return an error, that
error is returned and the log holds the gate and the before-transformations that ran, no core
action and no after-transformation; (3) if they succeed and the type is none of `single`,
`multi`, `js`, the core step fails with the "not a valid component type" error and nothing
runs after the before-transformations; (4) if they succeed and the core action returns an
error, that error is returned and the log ends with the core action; (5) otherwise the
after-transformations run last and their result is returned. -/
theorem runComponent_before_core_after (s : Engine σ) (c : ProxyEndpointComponent) (vm : σ)
    (log : List Event)
    (hgate : (s.evaluateComponentConditional c vm).1 = (true, none)) :
    ((runComponent s.traced c (vm, log)).1 = (runComponent s c vm).1 ∧
      (runComponent s.traced c (vm, log)).2.1 = (runComponent s c vm).2) ∧
    (∀ err, (beforeResult s c vm).1 = some err →
      runComponent s.traced c (vm, log) =
        (some err, ((beforeResult s c vm).2,
          log ++ Event.conditional c ::
            (ranTransformations s c.BeforeTransformations (gateState s c vm)).map
              Event.transformation))) ∧
    ((beforeResult s c vm).1 = none → coreAction s c = none →
      runComponent s.traced c (vm, log) =
        (some (GoError.errorf "%s is not a valid component type" [c.Typ]),
          ((beforeResult s c vm).2,
            log ++ Event.conditional c :: c.BeforeTransformations.map Event.transformation))) ∧
    (∀ core ev, (beforeResult s c vm).1 = none → coreAction s c = some (core, ev) →
      (∀ err, (core (beforeResult s c vm).2).1 = some err →
        runComponent s.traced c (vm, log) =
          (some err, ((core (beforeResult s c vm).2).2,
            log ++ Event.conditional c :: c.BeforeTransformations.map Event.transformation
              ++ [ev]))) ∧
      ((core (beforeResult s c vm).2).1 = none →
        runComponent s.traced c (vm, log) =
          ((runTransformations s c.AfterTransformations (core (beforeResult s c vm).2).2).1,
            ((runTransformations s c.AfterTransformations (core (beforeResult s c vm).2).2).2,
              log ++ Event.conditional c :: c.BeforeTransformations.map Event.transformation
                ++ ev :: (ranTransformations s c.AfterTransformations
                  (core (beforeResult s c vm).2).2).map Event.transformation)))) := by
  rcases hg : s.evaluateComponentConditional c vm with ⟨⟨b, e⟩, vm1⟩
  rw [hg] at hgate
  simp only [Prod.mk.injEq] at hgate
  obtain ⟨rfl, rfl⟩ := hgate
  have hgs : gateState s c vm = vm1 := by simp [gateState, hg]
  have htb := runTransformations_traced s c.BeforeTransformations vm1
    (log ++ [Event.conditional c])
  simp only [beforeResult, hgs]
  rcases hb : runTransformations s c.BeforeTransformations vm1 with ⟨_ | eb, vm2⟩
  · have hran := ranTransformations_of_success s c.BeforeTransformations vm1 (by rw [hb])
    rw [hb, hran] at htb
    have hta := fun vm3 lg => runTransformations_traced s c.AfterTransformations vm3 lg
    by_cases h1 : c.Typ = ProxyEndpointComponentTypeSingle
    · rcases hc : s.runCallComponentCore c vm2 with ⟨_ | ec, vm3⟩
      · rcases ha : runTransformations s c.AfterTransformations vm3 with ⟨_ | ea, vm4⟩
        · simp [runComponent, hg, hb, htb, coreAction, h1, hc, ha, hta]
        · simp [runComponent, hg, hb, htb, coreAction, h1, hc, ha, hta]
      · simp [runComponent, hg, hb, htb, coreAction, h1, hc]
    · by_cases h2 : c.Typ = ProxyEndpointComponentTypeMulti
      · have h1b := h1
        rw [h2] at h1b
        rcases hc : s.runCallComponentCore c vm2 with ⟨_ | ec, vm3⟩
        · rcases ha : runTransformations s c.AfterTransformations vm3 with ⟨_ | ea, vm4⟩
          · simp [runComponent, hg, hb, htb, coreAction, h1b, h2, hc, ha, hta]
          · simp [runComponent, hg, hb, htb, coreAction, h1b, h2, hc, ha, hta]
        · simp [runComponent, hg, hb, htb, coreAction, h1b, h2, hc]
      · by_cases h3 : c.Typ = ProxyEndpointComponentTypeJS
        · have h1b := h1
          have h2b := h2
          rw [h3] at h1b h2b
          rcases hc : s.runJSComponentCore c vm2 with ⟨_ | ec, vm3⟩
          · rcases ha : runTransformations s c.AfterTransformations vm3 with ⟨_ | ea, vm4⟩
            · simp [runComponent, hg, hb, htb, coreAction, h1b, h2b, h3, hc, ha, hta]
            · simp [runComponent, hg, hb, htb, coreAction, h1b, h2b, h3, hc, ha, hta]
          · simp [runComponent, hg, hb, htb, coreAction, h1b, h2b, h3, hc]
        · simp [runComponent, hg, hb, htb, coreAction, h1, h2, h3]
  · rw [hb] at htb
    simp [runComponent, hg, hb, htb]

theorem runComponent_before_core_after_witness :
    (demoEngine.evaluateComponentConditional (demoComponent 1 "js") 0).1 = (true, none) ∧
      runComponent demoEngine.traced (demoComponent 1 "js") (0, []) =
        (none, (102, [Event.conditional (demoComponent 1 "js"),
          Event.transformation (demoTransformation 11), Event.jsCore (demoComponent 1 "js"),
          Event.transformation (demoTransformation 12)])) :=
  ⟨by decide,
    (((runComponent_before_core_after demoEngine (demoComponent 1 "js") 0 [] (by decide)).2.2.2
      (demoEngine.runJSComponentCore (demoComponent 1 "js")) (Event.jsCore (demoComponent 1 "js"))
      (by decide) rfl).2 (by decide)).trans (by decide)⟩

/-- C5: `runTransformations` runs the transformations one at a time in list order (it is the
loop over `transformationStep`), returns nil exactly when every transformation ran without
error, in which case every transformation was run once, in order; and if `i` is the first
index whose transformation fails (its script returns an error, or its type is not the script
type), it returns exactly that error and runs nothing after index `i`: the log holds the
first `i` transformations, then the failing one if it is a script, and nothing else. -/
theorem runTransformations_stops_at_first_failure (s : Engine σ)
    (ts : List ProxyEndpointTransformation) (vm : σ) (log : List Event) :
    runTransformations s ts vm = rangeLoop (transformationStep s) ts vm ∧
    ((runTransformations s ts vm).1 = none ↔ allSucceed (transformationStep s) ts vm = true) ∧
    (allSucceed (transformationStep s) ts vm = true →
      runTransformations s.traced ts (vm, log) =
        (none, ((runTransformations s ts vm).2, log ++ ts.map Event.transformation))) ∧
    (∀ (i : Nat) (hi : i < ts.length) (err : GoError),
      allSucceed (transformationStep s) (ts.take i) vm = true →
      (transformationStep s ts[i] (runTransformations s (ts.take i) vm).2).1 = some err →
      runTransformations s ts vm =
          (some err, (transformationStep s ts[i] (runTransformations s (ts.take i) vm).2).2) ∧
        runTransformations s.traced ts (vm, log) =
          (some err, ((runTransformations s ts vm).2,
            log ++ (ts.take i).map Event.transformation ++
              (if ts[i].Typ = s.transformationTypeJS then [Event.transformation ts[i]]
                else [])))) := by
  refine ⟨runTransformations_eq_rangeLoop s ts vm, ⟨fun h => ?_, fun h => ?_⟩, fun h => ?_,
    fun i hi err hpre herr => ?_⟩
  · rw [runTransformations_eq_rangeLoop] at h
    exact allSucceed_of_rangeLoop _ ts vm h
  · rw [runTransformations_eq_rangeLoop]
    exact (rangeLoop_of_allSucceed _ ts vm h).1
  · have h1 := (rangeLoop_of_allSucceed _ ts vm h).1
    rw [← runTransformations_eq_rangeLoop] at h1
    rw [runTransformations_traced, ranTransformations_of_allSucceed s ts vm h, h1]
  · rw [runTransformations_eq_rangeLoop s (ts.take i)] at herr ⊢
    have h1 := (rangeLoop_first_error _ ts vm i hi err hpre herr).1
    rw [← runTransformations_eq_rangeLoop] at h1
    refine ⟨h1, ?_⟩
    rw [runTransformations_traced, ranTransformations_first_error s ts vm i hi err hpre herr, h1]
    by_cases ht : ts[i].Typ = s.transformationTypeJS
    · rw [if_pos ht, if_pos ht, List.map_append, List.append_assoc]
      rfl
    · rw [if_neg ht, if_neg ht, List.map_append, List.append_assoc]
      rfl

theorem runTransformations_stops_at_first_failure_witness :
    allSucceed (transformationStep demoEngine) [demoTransformation 1] 0 = true ∧
      (transformationStep demoEngine
        { demoTransformation 2 with Typ := "xslt" }
        (runTransformations demoEngine [demoTransformation 1] 0).2).1 =
          some (GoError.errorf "%s is not a valid transformation type" ["xslt"]) ∧
      runTransformations demoEngine.traced
          [demoTransformation 1, { demoTransformation 2 with Typ := "xslt" },
            demoTransformation 3] (0, []) =
        (some (GoError.errorf "%s is not a valid transformation type" ["xslt"]),
          (1, [Event.transformation (demoTransformation 1)])) :=
  ⟨by decide, by decide,
    (((runTransformations_stops_at_first_failure demoEngine
      [demoTransformation 1, { demoTransformation 2 with Typ := "xslt" },
        demoTransformation 3] 0 []).2.2.2 1 (by decide)
      (GoError.errorf "%s is not a valid transformation type" ["xslt"])
      (by decide) (by decide)).2).trans (by decide)⟩

/-- C6: when a request reaches the pipeline (route name parsed, endpoint found, VM created,
request JSON bound, prelude scripts run) and `runComponents` returns an error, then
`proxyHandlerFunc` returns the server error built from exactly that error and performs no
operation on the response writer: no header is added, `WriteHeader` is not called, no body
is written.  The handler stops in the state the failed pipeline left, so the `response`
object is not even read. -/
theorem proxyHandlerFunc_failed_pipeline_writes_nothing (s : Server σ ρ ν)
    (routeName requestID : String) (r : ρ) (w0 w1 w2 w3 w5 : σ) (id : Int)
    (ep : ProxyEndpoint) (json : String) (err : GoError)
    (h1 : s.parseInt routeName = Except.ok id)
    (h2 : s.FindProxyEndpoint id w0 = (Except.ok ep, w1))
    (h3 : s.NewVM requestID r w1 = (Except.ok (), w2))
    (h4 : s.proxyRequestJSON r w2 = (Except.ok json, w3))
    (h5 : s.vmRunAll ["var request = JSON.parse(__ap_proxyRequestJSON);",
        "var response = new AP.HTTP.Response();"] (s.vmSet "__ap_proxyRequestJSON" json w3)
      = (Except.ok (), w5))
    (h6 : (runComponents s.engine ep.Components w5).1 = some err) :
    (proxyHandlerFunc s routeName requestID r w0).err = some (HttpError.serverError err) ∧
      (proxyHandlerFunc s routeName requestID r w0).writes = [] ∧
      (proxyHandlerFunc s routeName requestID r w0).state =
        (runComponents s.engine ep.Components w5).2 := by
  rcases hrun : runComponents s.engine ep.Components w5 with ⟨_ | e, w6⟩
  · rw [hrun] at h6
    simp at h6
  · rw [hrun] at h6
    simp only [Option.some.injEq] at h6
    subst h6
    simp [proxyHandlerFunc, h1, h2, h3, h4, h5, hrun, handlerReturn]

theorem proxyHandlerFunc_failed_pipeline_writes_nothing_witness :
    (runComponents demoServer.engine
        [demoComponent 1 "single", demoComponent (-2) "multi"] 1000).1
        = some (GoError.other 1) ∧
      (proxyHandlerFunc demoServer "7" "req" () 0).err
        = some (HttpError.serverError (GoError.other 1)) ∧
      (proxyHandlerFunc demoServer "7" "req" () 0).writes = [] ∧
      (proxyHandlerFunc demoServer "7" "req" () 0).state =
        (runComponents demoServer.engine
          { Name := "failing",
            Components := [demoComponent 1 "single", demoComponent (-2) "multi"]
            : ProxyEndpoint }.Components 1000).2 :=
  ⟨by decide, proxyHandlerFunc_failed_pipeline_writes_nothing demoServer "7" "req" () 0 0 0 0
    1000 7
    { Name := "failing", Components := [demoComponent 1 "single", demoComponent (-2) "multi"] }
    "\x7b\x7d" (GoError.other 1) rfl rfl rfl rfl rfl (by decide)⟩

section Dispatcher

variable {ω ρ κ : Type}

/-- C7: for an endpoint whose type is disabled, whatever the type tag, `PrepareRequest`
returns a nil request and the "is not enabled" error, leaves the connections map as it was,
and calls no constructor and no connection method: the instrumented run leaves the world and
the log of calls untouched. -/
theorem PrepareRequest_disabled_type (s : Core ω ρ κ) (endpoint : RemoteEndpoint)
    (data : String) (connections : Connections κ) (w : ω) (log : List (CoreEvent ρ κ))
    (hdisabled : s.IsRemoteEndpointTypeEnabled endpoint.Typ = false) :
    PrepareRequest s.traced endpoint data connections (w, log) =
      { request := none,
        err := some (GoError.errorf "Remote endpoint type %s is not enabled" [endpoint.Typ]),
        connections := connections, world := (w, log) } := by
  simp [PrepareRequest, Core.traced, hdisabled]

theorem PrepareRequest_disabled_type_witness :
    demoCore.IsRemoteEndpointTypeEnabled ({ ID := 4, Typ := "soap" } : RemoteEndpoint).Typ
        = false ∧
      PrepareRequest demoCore.traced { ID := 4, Typ := "soap" } "payload" [(4, some 9)] (0, []) =
        { request := none,
          err := some (GoError.errorf "Remote endpoint type %s is not enabled"
            [({ ID := 4, Typ := "soap" } : RemoteEndpoint).Typ]),
          connections := [(4, some 9)], world := (0, []) } :=
  ⟨by decide, PrepareRequest_disabled_type demoCore { ID := 4, Typ := "soap" } "payload"
    [(4, some 9)] 0 [] (by decide)⟩

/-- C8: for an enabled endpoint whose type tag is none of the eight supported tags,
`PrepareRequest` returns a nil request and the "is not a valid endpoint type" error naming
the tag, leaves the connections map as it was, and calls no constructor and no connection
method: the instrumented run leaves the world and the log of calls untouched. -/
theorem PrepareRequest_unknown_type (s : Core ω ρ κ) (endpoint : RemoteEndpoint)
    (data : String) (connections : Connections κ) (w : ω) (log : List (CoreEvent ρ κ))
    (henabled : s.IsRemoteEndpointTypeEnabled endpoint.Typ = true)
    (hunknown : endpoint.Typ ∉ [s.types.HTTP, s.types.SQLServer, s.types.Postgres,
      s.types.MySQL, s.types.Mongo, s.types.Soap, s.types.Script, s.types.LDAP]) :
    PrepareRequest s.traced endpoint data connections (w, log) =
      { request := none,
        err := some (GoError.errorf "%q is not a valid endpoint type" [endpoint.Typ]),
        connections := connections, world := (w, log) } := by
  simp only [List.mem_cons, List.mem_singleton, not_or, List.mem_nil_iff, not_false_eq_true,
    and_true] at hunknown
  obtain ⟨h1, h2, h3, h4, h5, h6, h7, h8⟩ := hunknown
  simp [PrepareRequest, Core.traced, henabled, h1, h2, h3, h4, h5, h6, h7, h8]

theorem PrepareRequest_unknown_type_witness :
    PrepareRequest demoCore.traced { ID := 4, Typ := "ftp" } "payload" [(4, some 9)] (0, []) =
      { request := none,
        err := some (GoError.errorf "%q is not a valid endpoint type"
          [({ ID := 4, Typ := "ftp" } : RemoteEndpoint).Typ]),
        connections := [(4, some 9)], world := (0, []) } :=
  PrepareRequest_unknown_type demoCore { ID := 4, Typ := "ftp" } "payload" [(4, some 9)] 0 []
    (by decide) (by decide)

theorem PrepareRequest_connections_of_ne_ldap (s : Core ω ρ κ) (endpoint : RemoteEndpoint)
    (data : String) (connections : Connections κ) (w : ω)
    (hnotLDAP : endpoint.Typ ≠ s.types.LDAP) :
    (PrepareRequest s endpoint data connections w).connections = connections := by
  unfold PrepareRequest
  split_ifs <;> rfl

/-- C10: for an endpoint whose type is not the LDAP type, `PrepareRequest` returns the
connections map exactly as it received it, whether it returns an error or not. -/
theorem PrepareRequest_non_sticky_keeps_connections (s : Core ω ρ κ)
    (endpoint : RemoteEndpoint) (data : String) (connections : Connections κ) (w : ω)
    (hnotLDAP : endpoint.Typ ≠ s.types.LDAP) :
    (PrepareRequest s endpoint data connections w).connections = connections :=
  PrepareRequest_connections_of_ne_ldap s endpoint data connections w hnotLDAP

theorem PrepareRequest_non_sticky_keeps_connections_witness :
    ({ ID := 4, Typ := "http" } : RemoteEndpoint).Typ ≠ demoCore.types.LDAP ∧
      (PrepareRequest demoCore { ID := 4, Typ := "http" } "payload" [(4, some 9)] 0).connections
        = [(4, some 9)] :=
  ⟨by decide, PrepareRequest_non_sticky_keeps_connections demoCore { ID := 4, Typ := "http" }
    "payload" [(4, some 9)] 0 (by decide)⟩

theorem Connections.get_set_self (m : Connections κ) (id : Int) (conn : Option κ) :
    (m.set id conn).get id = conn := by
  induction m with
  | nil => simp [Connections.set, Connections.get, List.lookup]
  | cons kv m ih =>
    obtain ⟨k, v⟩ := kv
    by_cases hk : k = id
    · simp [Connections.set, Connections.get, List.lookup, hk]
    · have hne : (id == k) = false := by simpa using fun h => hk h.symm
      simpa [Connections.set, Connections.get, List.lookup, hk, hne] using ih

theorem Connections.lookup_set_of_ne (m : Connections κ) (id other : Int) (conn : Option κ)
    (hne : other ≠ id) : (m.set id conn).lookup other = m.lookup other := by
  induction m with
  | nil =>
    have : (other == id) = false := by simpa using hne
    simp [Connections.set, List.lookup, this]
  | cons kv m ih =>
    obtain ⟨k, v⟩ := kv
    by_cases hk : k = id
    · subst hk
      have : (other == k) = false := by simpa using hne
      simp [Connections.set, List.lookup, this]
    · by_cases ho : (other == k) = true
      · simp [Connections.set, List.lookup, hk, ho]
      · simp only [Bool.not_eq_true] at ho
        simp [Connections.set, List.lookup, hk, ho, ih]

theorem Connections.get_set_of_ne (m : Connections κ) (id other : Int) (conn : Option κ)
    (hne : other ≠ id) : (m.set id conn).get other = m.get other := by
  simp [Connections.get, Connections.lookup_set_of_ne m id other conn hne]

theorem PrepareRequest_ldap (s : Core ω ρ κ) (endpoint : RemoteEndpoint) (data : String)
    (connections : Connections κ) (w : ω)
    (hdistinct : s.types.LDAP ∉ [s.types.HTTP, s.types.SQLServer, s.types.Postgres,
      s.types.MySQL, s.types.Mongo, s.types.Soap, s.types.Script])
    (henabled : s.IsRemoteEndpointTypeEnabled s.types.LDAP = true)
    (htype : endpoint.Typ = s.types.LDAP) :
    PrepareRequest s endpoint data connections w =
      match s.NewLDAPRequest endpoint data w with
      | ((r, e), w1) =>
        match s.CreateOrReuse r (connections.get endpoint.ID) w1 with
        | ((_, some err), w2) =>
          { request := none,
            err := some (GoError.wrapped "[requests.go] initializing sticky connection" err),
            connections := connections, world := w2 }
        | ((conn, none), w2) =>
          { request := r, err := e, connections := connections.set endpoint.ID conn,
            world := w2 } := by
  simp only [List.mem_cons, List.mem_singleton, not_or, List.mem_nil_iff, not_false_eq_true,
    and_true] at hdistinct
  obtain ⟨h1, h2, h3, h4, h5, h6, h7⟩ := hdistinct
  simp [PrepareRequest, htype, henabled, h1, h2, h3, h4, h5, h6, h7]

theorem PrepareRequest_connections_cases (s : Core ω ρ κ) (endpoint : RemoteEndpoint)
    (data : String) (connections : Connections κ) (w : ω) :
    (PrepareRequest s endpoint data connections w).connections = connections ∨
      ∃ conn, (PrepareRequest s endpoint data connections w).connections =
        connections.set endpoint.ID conn := by
  generalize hP : PrepareRequest s endpoint data connections w = P
  unfold PrepareRequest at hP
  split_ifs at hP
  all_goals first
    | (subst hP
       exact Or.inl rfl)
    | (rcases hn : s.NewLDAPRequest endpoint data w with ⟨⟨r, e⟩, w1⟩
       rcases hc : s.CreateOrReuse r (connections.get endpoint.ID) w1 with
         ⟨⟨conn, _ | err⟩, w2⟩
       · rw [hn] at hP
         simp only [hc] at hP
         subst hP
         exact Or.inr ⟨conn, rfl⟩
       · rw [hn] at hP
         simp only [hc] at hP
         subst hP
         exact Or.inl rfl)

/-- C9: for an enabled LDAP endpoint (the LDAP tag being different from the seven other
tags), (1) `PrepareRequest` calls the constructor and then `CreateOrReuse` with the handle
cached under `connections[endpoint.ID]`, and when `CreateOrReuse` returns no error it stores
the returned handle under that same key; (2) assuming `CreateOrReuse` returns the handle it
is given when one is present, a second call for the same endpoint id on the map left by a
first call that stored the handle `h` is handed `h` and leaves `h` under the key; (3) a call
for a different endpoint id, of whatever type, leaves the entry under the first id as it was
and, if it is an LDAP call, hands `CreateOrReuse` the handle cached under its own id. -/
theorem PrepareRequest_sticky_connection (s : Core ω ρ κ)
    (hdistinct : s.types.LDAP ∉ [s.types.HTTP, s.types.SQLServer, s.types.Postgres,
      s.types.MySQL, s.types.Mongo, s.types.Soap, s.types.Script])
    (henabled : s.IsRemoteEndpointTypeEnabled s.types.LDAP = true)
    (hreuse : ∀ r h w, (s.CreateOrReuse r (some h) w).1 = (some h, none)) :
    (∀ (ep : RemoteEndpoint) (data : String) (m : Connections κ) (w : ω)
        (log : List (CoreEvent ρ κ)), ep.Typ = s.types.LDAP →
      (PrepareRequest s.traced ep data m (w, log)).world.2 =
          log ++ [CoreEvent.construct Backend.ldap ep data,
            CoreEvent.createOrReuse (s.NewLDAPRequest ep data w).1.1 (m.get ep.ID)] ∧
        ∀ conn, (s.CreateOrReuse (s.NewLDAPRequest ep data w).1.1 (m.get ep.ID)
            (s.NewLDAPRequest ep data w).2).1 = (conn, none) →
          (PrepareRequest s ep data m w).connections = m.set ep.ID conn ∧
            (PrepareRequest s ep data m w).connections.get ep.ID = conn) ∧
    (∀ (ep1 ep2 : RemoteEndpoint) (d1 d2 : String) (m : Connections κ) (w1 w2 : ω) (h : κ)
        (log : List (CoreEvent ρ κ)),
      ep1.Typ = s.types.LDAP → ep2.Typ = s.types.LDAP → ep2.ID = ep1.ID →
      (PrepareRequest s ep1 d1 m w1).err = none →
      (PrepareRequest s ep1 d1 m w1).connections.get ep1.ID = some h →
      (PrepareRequest s.traced ep2 d2 (PrepareRequest s ep1 d1 m w1).connections
          (w2, log)).world.2 =
          log ++ [CoreEvent.construct Backend.ldap ep2 d2,
            CoreEvent.createOrReuse (s.NewLDAPRequest ep2 d2 w2).1.1 (some h)] ∧
        (PrepareRequest s ep2 d2 (PrepareRequest s ep1 d1 m w1).connections
          w2).connections.get ep1.ID = some h) ∧
    (∀ (ep1 ep3 : RemoteEndpoint) (d : String) (m : Connections κ) (w : ω)
        (log : List (CoreEvent ρ κ)), ep3.ID ≠ ep1.ID →
      (PrepareRequest s ep3 d m w).connections.lookup ep1.ID = m.lookup ep1.ID ∧
        (PrepareRequest s ep3 d m w).connections.get ep1.ID = m.get ep1.ID ∧
        (ep3.Typ = s.types.LDAP →
          (PrepareRequest s.traced ep3 d m (w, log)).world.2 =
            log ++ [CoreEvent.construct Backend.ldap ep3 d,
              CoreEvent.createOrReuse (s.NewLDAPRequest ep3 d w).1.1 (m.get ep3.ID)])) := by
  have hlog : ∀ (ep : RemoteEndpoint) (data : String) (m : Connections κ) (w : ω)
      (log : List (CoreEvent ρ κ)), ep.Typ = s.types.LDAP →
      (PrepareRequest s.traced ep data m (w, log)).world.2 =
        log ++ [CoreEvent.construct Backend.ldap ep data,
          CoreEvent.createOrReuse (s.NewLDAPRequest ep data w).1.1 (m.get ep.ID)] := by
    intro ep data m w log ht
    rw [PrepareRequest_ldap s.traced ep data m (w, log) hdistinct henabled ht]
    rcases hn : s.NewLDAPRequest ep data w with ⟨⟨r, e⟩, w1⟩
    rcases hc : s.CreateOrReuse r (m.get ep.ID) w1 with ⟨⟨conn, _ | err⟩, w2⟩ <;>
      simp [Core.traced, logged, hn, hc]
  refine ⟨fun ep data m w log ht => ⟨hlog ep data m w log ht, fun conn hconn => ?_⟩,
    fun ep1 ep2 d1 d2 m w1 w2 h log ht1 ht2 hid _ hstored => ⟨?_, ?_⟩,
    fun ep1 ep3 d m w log hne => ⟨?_, ?_, fun ht => hlog ep3 d m w log ht⟩⟩
  · rw [PrepareRequest_ldap s ep data m w hdistinct henabled ht]
    rcases hn : s.NewLDAPRequest ep data w with ⟨⟨r, e⟩, w1⟩
    rw [hn] at hconn
    rcases hc : s.CreateOrReuse r (m.get ep.ID) w1 with ⟨⟨conn2, _ | err⟩, w2⟩
    · rw [hc] at hconn
      simp only [Prod.mk.injEq, and_true] at hconn
      subst hconn
      simp [hc, Connections.get_set_self]
    · rw [hc] at hconn
      simp at hconn
  · rw [hlog ep2 d2 _ w2 log ht2, hid, hstored]
  · rw [PrepareRequest_ldap s ep2 d2 _ w2 hdistinct henabled ht2, hid, hstored]
    rcases hn : s.NewLDAPRequest ep2 d2 w2 with ⟨⟨r, e⟩, w3⟩
    have hr := hreuse r h w3
    rcases hc : s.CreateOrReuse r (some h) w3 with ⟨⟨conn2, err⟩, w4⟩
    rw [hc] at hr
    simp only [Prod.mk.injEq] at hr
    obtain ⟨rfl, rfl⟩ := hr
    simp [hc, ← hid, Connections.get_set_self]
  · rcases PrepareRequest_connections_cases s ep3 d m w with h | ⟨conn, h⟩
    · rw [h]
    · rw [h, Connections.lookup_set_of_ne m ep3.ID ep1.ID conn (Ne.symm hne)]
  · rcases PrepareRequest_connections_cases s ep3 d m w with h | ⟨conn, h⟩
    · rw [h]
    · rw [h, Connections.get_set_of_ne m ep3.ID ep1.ID conn (Ne.symm hne)]

theorem PrepareRequest_sticky_connection_witness :
    demoCore.types.LDAP ∉ [demoCore.types.HTTP, demoCore.types.SQLServer,
        demoCore.types.Postgres, demoCore.types.MySQL, demoCore.types.Mongo,
        demoCore.types.Soap, demoCore.types.Script] ∧
      demoCore.IsRemoteEndpointTypeEnabled demoCore.types.LDAP = true ∧
      (∀ r h w, (demoCore.CreateOrReuse r (some h) w).1 = (some h, none)) ∧
      (PrepareRequest demoCore { ID := 5, Typ := "ldap" } "first" [] 0).connections
        = [(5, some 1)] ∧
      (PrepareRequest demoCore.traced { ID := 5, Typ := "ldap" } "second"
          (PrepareRequest demoCore { ID := 5, Typ := "ldap" } "first" [] 0).connections
          (10, [])).world.2 =
        [CoreEvent.construct Backend.ldap { ID := 5, Typ := "ldap" } "second",
          CoreEvent.createOrReuse (some "ldap") (some 1)] ∧
      (PrepareRequest demoCore { ID := 5, Typ := "ldap" } "second"
          (PrepareRequest demoCore { ID := 5, Typ := "ldap" } "first" [] 0).connections
          10).connections.get 5 = some 1 :=
  ⟨by decide, by decide, fun _ _ _ => rfl, by decide,
    (PrepareRequest_sticky_connection demoCore (by decide) (by decide) (fun _ _ _ => rfl)).2.1
      { ID := 5, Typ := "ldap" } { ID := 5, Typ := "ldap" } "first" "second" [] 0 10 1 []
      rfl rfl rfl (by decide) (by decide)⟩

end Dispatcher

/-- C11 (the code differs): an enabled LDAP endpoint whose constructor rejects the payload.
`PrepareRequest` does not stop at the constructor error: it calls `CreateOrReuse` on the
nil request with the cached handle (here none), and because that call succeeds it stores
the new connection under the endpoint id and only then returns the constructor error. -/
theorem PrepareRequest_ldap_connects_after_constructor_error :
    (demoCoreRejecting.NewLDAPRequest { ID := 5, Typ := "ldap" } "payload" 0).1 =
        (none, some (GoError.other 7)) ∧
      (PrepareRequest demoCoreRejecting.traced { ID := 5, Typ := "ldap" } "payload" []
          (0, [])).err = some (GoError.other 7) ∧
      (PrepareRequest demoCoreRejecting.traced { ID := 5, Typ := "ldap" } "payload" []
          (0, [])).world.2 =
        [CoreEvent.construct Backend.ldap { ID := 5, Typ := "ldap" } "payload",
          CoreEvent.createOrReuse none none] ∧
      (PrepareRequest demoCoreRejecting.traced { ID := 5, Typ := "ldap" } "payload" []
          (0, [])).connections = [(5, some 0)] := by
  decide

/-- C13: for a single-call component `AllCalls` is the one-element list holding the
component's `Call`, and for a multi-call component it is the component's `Calls`, element by
element in the same order (so of the same length, empty exactly when `Calls` is). -/
theorem AllCalls_single_and_multi (c : ProxyEndpointComponent) :
    (c.Typ = ProxyEndpointComponentTypeSingle →
      c.AllCalls = [c.Call] ∧ c.AllCalls.length = 1) ∧
    (c.Typ = ProxyEndpointComponentTypeMulti →
      c.AllCalls = c.Calls.map some ∧ c.AllCalls.length = c.Calls.length ∧
        ∀ (i : Nat) (hi : i < c.Calls.length), c.AllCalls[i]? = some (some c.Calls[i])) := by
  constructor
  · intro h
    simp [ProxyEndpointComponent.AllCalls, h]
  · intro h
    have hne : ¬ c.Typ = ProxyEndpointComponentTypeSingle := by
      rw [h]
      decide
    have hall : c.AllCalls = c.Calls.map some := by
      simp [ProxyEndpointComponent.AllCalls, hne]
    refine ⟨hall, by simp [hall], fun i hi => ?_⟩
    rw [hall, List.getElem?_map, List.getElem?_eq_getElem hi]
    rfl

theorem AllCalls_single_and_multi_witness :
    (demoMultiComponent 1 [demoCall 3 1, demoCall 4 1]).AllCalls =
      [some (demoCall 3 1), some (demoCall 4 1)] :=
  ((AllCalls_single_and_multi (demoMultiComponent 1 [demoCall 3 1, demoCall 4 1])).2 rfl).1

section Postgres

variable {β : Type}

/-- C17 (the code differs): validating the configuration whose fields are all empty, with
port 0.  `validate` first replaces the empty `SSLMode` by `prefer`, which the expression
`sslModes` matches, so the validation of `sslmode` is handed over with a false `errCond`
and the value `prefer`: only `user`, `password`, `dbname` and `host` are reported, in that
order, with the empty string as their bad value; `port` and `sslmode` are not. -/
theorem PostgresSpec_validate_empty_config :
    pqBadConfig.validate.1 =
        some (GoError.errorf
          ("%s config errors: bad value %q for %q; bad value %q for %q; " ++
            "bad value %q for %q; bad value %q for %q")
          ["pgx", "", "user", "", "password", "", "dbname", "", "host"]) ∧
      pqBadConfig.validate.2.SSLMode = "prefer" ∧
      pqBadConfig.validate.2.validations.filter (fun v => v.errCond) =
        [{ kw := "user", errCond := true, val := ValidationValue.str "" },
         { kw := "password", errCond := true, val := ValidationValue.str "" },
         { kw := "dbname", errCond := true, val := ValidationValue.str "" },
         { kw := "host", errCond := true, val := ValidationValue.str "" }] ∧
      pqBadConfig.validate.2.validations.getLast? =
        some { kw := "sslmode", errCond := false, val := ValidationValue.str "prefer" } := by
  decide

/-- C18: `UpdateWith` validates `pSpec` and updates `p` only if it is valid.  With a nil
`pSpec`, or one whose validation returns an error, it returns an error (the validation error
itself) and `p` is left as it was; when the validation returns nil it returns nil and
afterwards `p` equals `pSpec` field for field, both holding the fields of the argument with
an empty `SSLMode` replaced by `prefer`. -/
theorem PostgresSpec_UpdateWith_valid_only (p : PostgresSpec β) :
    ((p.UpdateWith none).1 =
        some (GoError.errorf "cannot update a PostgresSpec with a nil Specifier" []) ∧
      (p.UpdateWith none).2.1 = p) ∧
    (∀ (q : PostgresSpec β) (err : GoError), q.validate.1 = some err →
      (p.UpdateWith (some q)).1 = some err ∧ (p.UpdateWith (some q)).2.1 = p) ∧
    (∀ q : PostgresSpec β, q.validate.1 = none →
      (p.UpdateWith (some q)).1 = none ∧
        (p.UpdateWith (some q)).2.2 = some (p.UpdateWith (some q)).2.1 ∧
        (p.UpdateWith (some q)).2.1 =
          { q with SSLMode := if q.SSLMode = "" then sslModePrefer else q.SSLMode }) := by
  refine ⟨⟨rfl, rfl⟩, fun q err h => ?_, fun q h => ?_⟩
  · rcases hv : q.validate with ⟨_ | e, q1⟩
    · rw [hv] at h
      simp at h
    · rw [hv] at h
      simp only [Option.some.injEq] at h
      subst h
      simp [PostgresSpec.UpdateWith, hv]
  · rcases hv : q.validate with ⟨_ | e, q1⟩
    · have hq : q1 = q.validate.2 := by rw [hv]
      simp only [PostgresSpec.UpdateWith, hv, true_and]
      rw [hq]
      by_cases hs : q.SSLMode = "" <;> simp [PostgresSpec.validate, hs]
    · rw [hv] at h
      simp at h

theorem PostgresSpec_UpdateWith_valid_only_witness :
    pqSimple.validate.1 = none ∧ pqBadConfig.validate.1 ≠ none ∧
      (pqBadConfig.UpdateWith (some pqSimple)).2.1 = pqSimple ∧
      (pqSimple.UpdateWith (some pqBadConfig)).2.1 = pqSimple :=
  ⟨by decide, by decide,
    (((PostgresSpec_UpdateWith_valid_only pqBadConfig).2.2 pqSimple (by decide)).2.2).trans
      (by decide),
    ((PostgresSpec_UpdateWith_valid_only pqSimple).2.1 pqBadConfig
      (GoError.errorf
        ("%s config errors: bad value %q for %q; bad value %q for %q; " ++
          "bad value %q for %q; bad value %q for %q")
        ["pgx", "", "user", "", "password", "", "dbname", "", "host"]) (by decide)).2⟩

end Postgres

section Sessions

theorem isWhitelistedLoop_iff (method : String) (methods : List String) :
    isWhitelistedLoop method methods = true ↔ method ∈ methods := by
  induction methods with
  | nil => simp [isWhitelistedLoop]
  | cons m ms ih =>
    by_cases h : method = m
    · simp [isWhitelistedLoop, h]
    · simp [isWhitelistedLoop, h, ih]

/-- C19: `checkAuth` returns true exactly when the method of the request is in the whitelist,
or the session holds a `user_id`, an `account_id` and an `admin` value, all three present,
with `user_id > 0`, `account_id > 0` and, when `adminRequired` is set, `admin` true.  The
handler built by `Wrap` calls the wrapped handler exactly when `checkAuth` returns true, and
otherwise answers with status 401 and does not call it. -/
theorem checkAuth_iff_and_Wrap (s : SessionAuthRouter) (marshal : Except GoError String)
    (method : String) (session : Session) :
    (s.checkAuth method session = true ↔
      method ∈ s.whitelistMethods ∨
        ∃ userID accountID admin, session.userID = some userID ∧
          session.accountID = some accountID ∧ session.admin = some admin ∧
          userID > 0 ∧ accountID > 0 ∧ (s.adminRequired = true → admin = true)) ∧
    (s.Wrap marshal method session = WrapOutcome.served ↔ s.checkAuth method session = true) ∧
    (s.checkAuth method session = false →
      ∃ body, s.Wrap marshal method session = WrapOutcome.httpError body 401) := by
  refine ⟨?_, ?_, ?_⟩
  · by_cases hw : method ∈ s.whitelistMethods
    · have : s.isWhitelisted method = true :=
        (isWhitelistedLoop_iff method s.whitelistMethods).2 hw
      simp [SessionAuthRouter.checkAuth, this, hw]
    · have : s.isWhitelisted method = false := by
        rw [← Bool.not_eq_true]
        exact fun h => hw ((isWhitelistedLoop_iff method s.whitelistMethods).1 h)
      obtain ⟨u, a, ad⟩ := session
      rcases u with _ | u <;> rcases a with _ | a <;> rcases ad with _ | ad <;>
        simp [SessionAuthRouter.checkAuth, this, hw]
      cases s.adminRequired <;> cases ad <;> simp
  · by_cases hc : s.checkAuth method session = true
    · simp [SessionAuthRouter.Wrap, hc]
    · simp [SessionAuthRouter.Wrap, hc]
  · intro hc
    simp [SessionAuthRouter.Wrap, hc]

theorem checkAuth_iff_and_Wrap_witness :
    ({ whitelistMethods := ["OPTIONS"], adminRequired := true } : SessionAuthRouter).checkAuth
        "GET" demoAdminSession = true ∧
      ({ whitelistMethods := ["OPTIONS"], adminRequired := true } : SessionAuthRouter).Wrap
        (Except.ok "Unauthorized") "GET" demoAdminSession = WrapOutcome.served :=
  ⟨by decide,
    (checkAuth_iff_and_Wrap { whitelistMethods := ["OPTIONS"], adminRequired := true }
      (Except.ok "Unauthorized") "GET" demoAdminSession).2.1.2 (by decide)⟩

/-- C20 (the code differs): `DeleteSessionHandler` on the session of a logged-in
administrator.  `_deleteSession` deletes `user_id` and `account_id` but not `admin`: the
session still holds the `admin` value that the login stored, and that is the session whose
cookie `session.Save` sets before the status 200 is written.  The request is no longer
authenticated all the same: `checkAuth` is false for a method outside the whitelist. -/
theorem DeleteSessionHandler_keeps_admin :
    (DeleteSessionHandler demoEncode demoAdminSession).session =
        { userID := none, accountID := none, admin := some true } ∧
      (DeleteSessionHandler demoEncode demoAdminSession).session.admin =
        demoAdminSession.admin ∧
      ({ whitelistMethods := ["OPTIONS"], adminRequired := false } : SessionAuthRouter).checkAuth
        "GET" (DeleteSessionHandler demoEncode demoAdminSession).session = false ∧
      (DeleteSessionHandler demoEncode demoAdminSession).writes =
        [WriterOp.addHeader "Set-Cookie" "gateway=nobody", WriterOp.writeHeader 200] := by
  decide

end Sessions

section Validation

theorem Errors.Add_ne_nil (e : Errors) (name message : String) : e.Add name message ≠ [] := by
  cases e with
  | nil => simp [Errors.Add]
  | cons entry rest =>
    obtain ⟨k, ms⟩ := entry
    by_cases h : k = name <;> simp [Errors.Add, h]

theorem Errors.foldl_Add_ne_nil (e : Errors) (name : String) (messages : List String)
    (h : e ≠ [] ∨ messages ≠ []) :
    messages.foldl (fun acc message => Errors.Add acc name message) e ≠ [] := by
  induction messages generalizing e with
  | nil =>
    rcases h with h | h
    · simpa using h
    · exact absurd rfl h
  | cons m ms ih => exact ih _ (Or.inl (Errors.Add_ne_nil e name m))

theorem Errors.AddErrors_ne_nil_of_left (e errs : Errors) (h : e ≠ []) :
    e.AddErrors errs ≠ [] := by
  unfold Errors.AddErrors
  induction errs generalizing e with
  | nil => simpa using h
  | cons entry rest ih =>
    exact ih _ (Errors.foldl_Add_ne_nil e entry.1 entry.2 (Or.inl h))

theorem Errors.AddErrors_ne_nil_of_right (e errs : Errors) (h : errs ≠ [])
    (hwf : ∀ entry ∈ errs, entry.2 ≠ []) : e.AddErrors errs ≠ [] := by
  cases errs with
  | nil => exact absurd rfl h
  | cons entry rest =>
    have h1 := Errors.foldl_Add_ne_nil e entry.1 entry.2
      (Or.inr (hwf entry (List.mem_cons_self _ _)))
    exact Errors.AddErrors_ne_nil_of_left _ rest h1

theorem Errors.Add_wf (e : Errors) (name message : String)
    (hwf : ∀ entry ∈ e, entry.2 ≠ []) : ∀ entry ∈ e.Add name message, entry.2 ≠ [] := by
  induction e with
  | nil =>
    intro entry hmem
    simp only [Errors.Add, List.mem_singleton] at hmem
    subst hmem
    simp
  | cons head rest ih =>
    obtain ⟨k, ms⟩ := head
    intro entry hmem
    by_cases hk : k = name
    · simp only [Errors.Add, hk, if_true, List.mem_cons] at hmem
      rcases hmem with rfl | hmem
      · simp
      · exact hwf entry (List.mem_cons_of_mem _ hmem)
    · simp only [Errors.Add, hk, if_false, List.mem_cons] at hmem
      rcases hmem with rfl | hmem
      · exact hwf _ (List.mem_cons_self _ _)
      · exact ih (fun en hen => hwf en (List.mem_cons_of_mem _ hen)) entry hmem

theorem validateTransformationsLoop_wf (tv : ProxyEndpointTransformation → Errors)
    (fmtErrors : Errors → String) (key : String) (i : Nat)
    (ts : List ProxyEndpointTransformation) (errors : Errors)
    (hwf : ∀ entry ∈ errors, entry.2 ≠ []) :
    ∀ entry ∈ validateTransformationsLoop tv fmtErrors key i ts errors, entry.2 ≠ [] := by
  induction ts generalizing i errors with
  | nil => simpa [validateTransformationsLoop] using hwf
  | cons t ts ih =>
    by_cases ht : (tv t).Empty = true
    · simpa [validateTransformationsLoop, ht] using ih (i + 1) errors hwf
    · simp only [Bool.not_eq_true] at ht
      simpa [validateTransformationsLoop, ht] using
        ih (i + 1) _ (Errors.Add_wf errors key _ hwf)

theorem validateTransformationsLoop_eq_nil (tv : ProxyEndpointTransformation → Errors)
    (fmtErrors : Errors → String) (key : String) (i : Nat)
    (ts : List ProxyEndpointTransformation) (errors : Errors) :
    validateTransformationsLoop tv fmtErrors key i ts errors = [] ↔
      errors = [] ∧ ∀ t ∈ ts, (tv t).Empty = true := by
  induction ts generalizing i errors with
  | nil => simp [validateTransformationsLoop]
  | cons t ts ih =>
    by_cases ht : (tv t).Empty = true
    · simp [validateTransformationsLoop, ht, ih]
    · simp only [Bool.not_eq_true] at ht
      simp [validateTransformationsLoop, ht, ih, Errors.Add_ne_nil]

theorem Errors.mem_messages_Add (e : Errors) (name other message m : String)
    (h : m ∈ e.messages name) : m ∈ (e.Add other message).messages name := by
  induction e with
  | nil => simp [Errors.messages, List.lookup] at h
  | cons head rest ih =>
    obtain ⟨k, ms⟩ := head
    by_cases hk : k = other
    · subst hk
      by_cases hn : (name == k) = true
      · simp only [Errors.messages, List.lookup, hn] at h
        simp [Errors.Add, Errors.messages, List.lookup, hn, h]
      · simp only [Bool.not_eq_true] at hn
        simp only [Errors.messages, List.lookup, hn] at h
        simpa [Errors.Add, Errors.messages, List.lookup, hn] using h
    · by_cases hn : (name == k) = true
      · simp only [Errors.messages, List.lookup, hn] at h
        simp [Errors.Add, hk, Errors.messages, List.lookup, hn, h]
      · simp only [Bool.not_eq_true] at hn
        simp only [Errors.messages, List.lookup, hn] at h
        have := ih h
        simpa [Errors.Add, hk, Errors.messages, List.lookup, hn] using this

theorem Errors.mem_messages_foldl_Add (e : Errors) (name key m : String)
    (messages : List String) (h : m ∈ e.messages name) :
    m ∈ (messages.foldl (fun acc message => Errors.Add acc key message) e).messages name := by
  induction messages generalizing e with
  | nil => simpa using h
  | cons m1 ms ih => exact ih _ (Errors.mem_messages_Add e name key m1 m h)

theorem Errors.mem_messages_AddErrors (e errs : Errors) (name m : String)
    (h : m ∈ e.messages name) : m ∈ (e.AddErrors errs).messages name := by
  unfold Errors.AddErrors
  induction errs generalizing e with
  | nil => simpa using h
  | cons entry rest ih =>
    exact ih _ (Errors.mem_messages_foldl_Add e name entry.1 m entry.2 h)

theorem validateTransformations_eq_nil (tv : ProxyEndpointTransformation → Errors)
    (fmtErrors : Errors → String) (c : ProxyEndpointComponent) :
    c.validateTransformations tv fmtErrors = [] ↔
      (∀ t ∈ c.BeforeTransformations, (tv t).Empty = true) ∧
        (∀ t ∈ c.AfterTransformations, (tv t).Empty = true) := by
  simp [ProxyEndpointComponent.validateTransformations, validateTransformationsLoop_eq_nil]

theorem validateTransformations_wf (tv : ProxyEndpointTransformation → Errors)
    (fmtErrors : Errors → String) (c : ProxyEndpointComponent) :
    ∀ entry ∈ c.validateTransformations tv fmtErrors, entry.2 ≠ [] := by
  unfold ProxyEndpointComponent.validateTransformations
  exact validateTransformationsLoop_wf tv fmtErrors "after" 0 _ _
    (validateTransformationsLoop_wf tv fmtErrors "before" 0 _ [] (by simp))

/-- C14: `Validate` returns an empty error set exactly when the type of the component is
`single`, `multi` or `js` and the `Validate` of every before- and after-transformation is
empty; a type outside that set puts its message under the name `type`; and the result is
the same whatever `SharedComponentID` is. -/
theorem Validate_empty_iff (tv : ProxyEndpointTransformation → Errors)
    (fmtErrors : Errors → String) (c : ProxyEndpointComponent) :
    ((c.Validate tv fmtErrors).Empty = true ↔
      (c.Typ = ProxyEndpointComponentTypeSingle ∨ c.Typ = ProxyEndpointComponentTypeMulti ∨
        c.Typ = ProxyEndpointComponentTypeJS) ∧
      (∀ t ∈ c.BeforeTransformations, (tv t).Empty = true) ∧
      (∀ t ∈ c.AfterTransformations, (tv t).Empty = true)) ∧
    (¬ (c.Typ = ProxyEndpointComponentTypeSingle ∨ c.Typ = ProxyEndpointComponentTypeMulti ∨
        c.Typ = ProxyEndpointComponentTypeJS) →
      "must be one of 'single', or 'multi', or 'js'" ∈
        (c.Validate tv fmtErrors).messages "type") ∧
    (∀ n : Int, ProxyEndpointComponent.Validate tv fmtErrors { c with SharedComponentID := n } =
      c.Validate tv fmtErrors) := by
  have hV : ∀ d : ProxyEndpointComponent,
      d.Validate tv fmtErrors = d.validateNonShared tv fmtErrors := by
    intro d
    unfold ProxyEndpointComponent.Validate ProxyEndpointComponent.validateShared
    split_ifs <;> rfl
  refine ⟨?_, ?_, fun n => ?_⟩
  · rw [hV, Errors.Empty, List.isEmpty_iff]
    by_cases hty : c.Typ = ProxyEndpointComponentTypeSingle ∨
        c.Typ = ProxyEndpointComponentTypeMulti ∨ c.Typ = ProxyEndpointComponentTypeJS
    · have hE : c.validateNonShared tv fmtErrors =
          Errors.AddErrors [] (c.validateTransformations tv fmtErrors) := by
        unfold ProxyEndpointComponent.validateNonShared
        rcases hty with h | h | h <;> simp [h]
      rw [hE]
      constructor
      · intro h
        refine ⟨hty, (validateTransformations_eq_nil tv fmtErrors c).1 ?_⟩
        by_contra hne
        exact Errors.AddErrors_ne_nil_of_right [] _ hne
          (validateTransformations_wf tv fmtErrors c) h
      · rintro ⟨-, hb⟩
        rw [(validateTransformations_eq_nil tv fmtErrors c).2 hb]
        rfl
    · have hE : c.validateNonShared tv fmtErrors =
          Errors.AddErrors (Errors.Add [] "type" "must be one of 'single', or 'multi', or 'js'")
            (c.validateTransformations tv fmtErrors) := by
        unfold ProxyEndpointComponent.validateNonShared
        simp only [not_or] at hty
        simp [hty.1, hty.2.1, hty.2.2]
      rw [hE]
      constructor
      · intro h
        exact absurd h (Errors.AddErrors_ne_nil_of_left _ _ (Errors.Add_ne_nil _ _ _))
      · rintro ⟨h, -⟩
        exact absurd h hty
  · intro hty
    rw [hV]
    have hE : c.validateNonShared tv fmtErrors =
        Errors.AddErrors (Errors.Add [] "type" "must be one of 'single', or 'multi', or 'js'")
          (c.validateTransformations tv fmtErrors) := by
      unfold ProxyEndpointComponent.validateNonShared
      simp only [not_or] at hty
      simp [hty.1, hty.2.1, hty.2.2]
    rw [hE]
    apply Errors.mem_messages_AddErrors
    simp [Errors.Add, Errors.messages, List.lookup]
  · rw [hV, hV]
    rfl

theorem Validate_empty_iff_witness :
    (ProxyEndpointComponent.Validate demoValidateTransformation demoFmtErrors
        (demoComponent 1 "single")).Empty = true ∧
      "must be one of 'single', or 'multi', or 'js'" ∈
        (ProxyEndpointComponent.Validate demoValidateTransformation demoFmtErrors
          (demoComponent 1 "soap")).messages "type" :=
  ⟨(Validate_empty_iff demoValidateTransformation demoFmtErrors
      (demoComponent 1 "single")).1.2 (by decide),
    (Validate_empty_iff demoValidateTransformation demoFmtErrors
      (demoComponent 1 "soap")).2.1 (by decide)⟩

end Validation

section Schema

variable {τ : Type}

/-- C15: `ProxyEndpointSchema.Validate` returns an empty error set exactly when the name is
not empty, both types are `json_schema` and each schema text is empty or compiles; and each
of the five conditions decides the messages under its own name alone: `name`,
`request_schema_type`, `response_schema_type`, `request_schema`, `response_schema` hold
their one message when their condition is violated and nothing otherwise, whatever the
other four conditions are. -/
theorem ProxyEndpointSchema_Validate_empty_iff (newSchema : String → Option GoError)
    (fmtError : GoError → String) (s : ProxyEndpointSchema) :
    ((s.Validate newSchema fmtError).Empty = true ↔
      s.Name ≠ "" ∧ s.RequestType = "json_schema" ∧ s.ResponseType = "json_schema" ∧
      (s.RequestSchema = "" ∨ newSchema s.RequestSchema = none) ∧
      (s.ResponseSchema = "" ∨ newSchema s.ResponseSchema = none)) ∧
    (s.Validate newSchema fmtError).messages "name" =
      (if s.Name = "" then ["must have a name"] else []) ∧
    (s.Validate newSchema fmtError).messages "request_schema_type" =
      (if s.RequestType ≠ "json_schema" then ["must be 'json_schema'"] else []) ∧
    (s.Validate newSchema fmtError).messages "response_schema_type" =
      (if s.ResponseType ≠ "json_schema" then ["must be 'json_schema'"] else []) ∧
    (s.Validate newSchema fmtError).messages "request_schema" =
      (if s.RequestSchema ≠ "" then
        match newSchema s.RequestSchema with
        | some err => ["schema error: " ++ fmtError err]
        | none => []
      else []) ∧
    (s.Validate newSchema fmtError).messages "response_schema" =
      (if s.ResponseSchema ≠ "" then
        match newSchema s.ResponseSchema with
        | some err => ["schema error: " ++ fmtError err]
        | none => []
      else []) := by
  by_cases h1 : s.Name = "" <;> by_cases h2 : s.RequestType = "json_schema" <;>
    by_cases h3 : s.ResponseType = "json_schema" <;> by_cases h4 : s.RequestSchema = "" <;>
    by_cases h5 : s.ResponseSchema = "" <;>
    rcases h6 : newSchema s.RequestSchema with _ | e1 <;>
    rcases h7 : newSchema s.ResponseSchema with _ | e2 <;>
    simp [ProxyEndpointSchema.Validate, Errors.Add, Errors.messages, Errors.Empty,
      List.lookup, h1, h2, h3, h4, h5, h6, h7]

theorem ProxyEndpointSchema_Validate_empty_iff_witness :
    (ProxyEndpointSchema.Validate demoNewSchema (fun _ => "compile error")
        (demoSchema "orders" "json_schema" "json_schema" "")).Empty = true ∧
      (ProxyEndpointSchema.Validate demoNewSchema (fun _ => "compile error")
        (demoSchema "" "xml" "json_schema" "")).messages "request_schema_type" =
        ["must be 'json_schema'"] :=
  ⟨(ProxyEndpointSchema_Validate_empty_iff demoNewSchema (fun _ => "compile error")
      (demoSchema "orders" "json_schema" "json_schema" "")).1.2 (by decide),
    (ProxyEndpointSchema_Validate_empty_iff demoNewSchema (fun _ => "compile error")
      (demoSchema "" "xml" "json_schema" "")).2.2.1⟩

/-- C16, as stated, fails: one schema is stored for the endpoint (the count is 1) and the
data of the new schema cannot be marshaled.  `Insert` returns the marshaling error, not the
error "Only 1 schema is allowed per proxy endpoint": it returns before it asks for the
count. -/
theorem Insert_marshal_error_before_count :
    (demoTx.GetCount 1 1 1).1 ≥ 1 ∧
      (ProxyEndpointSchema.Insert demoTx
        (demoSchema "orders" "json_schema" "json_schema" "oops") 1).1 =
          some (GoError.other 30) ∧
      (ProxyEndpointSchema.Insert demoTx
        (demoSchema "orders" "json_schema" "json_schema" "oops") 1).1 ≠
          some (GoError.errorf "Only 1 schema is allowed per proxy endpoint" []) := by
  decide

/-- C16, amended: when the data of the schema is marshaled without error and the count of
existing schemas for its endpoint and API is at least 1, `Insert` returns the error "Only 1
schema is allowed per proxy endpoint", leaves the schema (and so its `ID`) as it was, and
the only call on the transaction is the count: no insert statement, no notification.  When
marshaling fails, `Insert` returns the marshaling error, the schema is unchanged and the
transaction receives no call at all. -/
theorem Insert_only_one_schema (tx : SchemaTx τ) (s : ProxyEndpointSchema) (t : τ)
    (log : List TxEvent) :
    (∀ data, tx.marshaledForStorage s.Data = Except.ok data →
      (tx.GetCount s.ProxyEndpointID s.APIID t).1 ≥ 1 →
      s.Insert tx.traced (t, log) =
        (some (GoError.errorf "Only 1 schema is allowed per proxy endpoint" []), s,
          ((tx.GetCount s.ProxyEndpointID s.APIID t).2,
            log ++ [TxEvent.getCount s.ProxyEndpointID s.APIID]))) ∧
    (∀ err, tx.marshaledForStorage s.Data = Except.error err →
      s.Insert tx.traced (t, log) = (some err, s, (t, log))) := by
  constructor
  · intro data hm hcount
    rcases hc : tx.GetCount s.ProxyEndpointID s.APIID t with ⟨count, t1⟩
    rw [hc] at hcount
    have hc2 : count ≥ 1 := hcount
    simp [ProxyEndpointSchema.Insert, SchemaTx.traced, logged, hm, hc, hc2]
  · intro err hm
    simp [ProxyEndpointSchema.Insert, SchemaTx.traced, hm]

theorem Insert_only_one_schema_witness :
    ProxyEndpointSchema.Insert demoTx.traced
        (demoSchema "orders" "json_schema" "json_schema" "data") (1, []) =
      (some (GoError.errorf "Only 1 schema is allowed per proxy endpoint" []),
        demoSchema "orders" "json_schema" "json_schema" "data",
        (1, [TxEvent.getCount 1 1])) :=
  (Insert_only_one_schema demoTx (demoSchema "orders" "json_schema" "json_schema" "data") 1
    []).1 "data" rfl (by decide)

end Schema

section Release

variable {ρ ν : Type}

theorem rangeLoop_preserves {α : Type} (step : α → σ → Option GoError × σ) (P : σ → Prop)
    (hstep : ∀ x w, P w → P (step x w).2) (xs : List α) (w : σ) (h : P w) :
    P (rangeLoop step xs w).2 := by
  induction xs generalizing w with
  | nil => simpa [rangeLoop] using h
  | cons x xs ih =>
    have hx := hstep x w h
    rcases hs : step x w with ⟨_ | err, w1⟩
    · rw [hs] at hx
      simpa [rangeLoop, hs] using ih w1 hx
    · rw [hs] at hx
      simpa [rangeLoop, hs] using hx

theorem runTransformations_preserves (s : Engine σ) (P : σ → Prop)
    (hjs : ∀ t w, P w → P (s.runJSTransformation t w).2)
    (ts : List ProxyEndpointTransformation) (w : σ) (h : P w) :
    P (runTransformations s ts w).2 := by
  rw [runTransformations_eq_rangeLoop]
  refine rangeLoop_preserves (transformationStep s) P (fun t w1 h1 => ?_) ts w h
  unfold transformationStep
  split_ifs
  · exact hjs t w1 h1
  · exact h1

theorem runComponent_preserves (s : Engine σ) (P : σ → Prop)
    (hcond : ∀ c w, P w → P (s.evaluateComponentConditional c w).2)
    (hjs : ∀ t w, P w → P (s.runJSTransformation t w).2)
    (hcall : ∀ c w, P w → P (s.runCallComponentCore c w).2)
    (hcore : ∀ c w, P w → P (s.runJSComponentCore c w).2)
    (c : ProxyEndpointComponent) (w : σ) (h : P w) : P (runComponent s c w).2 := by
  have h1 := hcond c w h
  rcases hg : s.evaluateComponentConditional c w with ⟨⟨b, e⟩, w1⟩
  rw [hg] at h1
  rcases e with _ | e
  swap
  · simpa [runComponent, hg] using h1
  cases b
  · simpa [runComponent, hg] using h1
  have h2 := runTransformations_preserves s P hjs c.BeforeTransformations w1 h1
  rcases hb : runTransformations s c.BeforeTransformations w1 with ⟨_ | eb, w2⟩
  swap
  · rw [hb] at h2
    simpa [runComponent, hg, hb] using h2
  rw [hb] at h2
  have hafter : ∀ r : Option GoError × σ, P r.2 →
      P (match some r with
        | none => (some (GoError.errorf "%s is not a valid component type" [c.Typ]), w2)
        | some (some err, vm3) => (some err, vm3)
        | some (none, vm3) =>
          match runTransformations s c.AfterTransformations vm3 with
          | (some err, vm4) => (some err, vm4)
          | (none, vm4) => (none, vm4)).2 := by
    rintro ⟨_ | er, w3⟩ h3
    · have h4 := runTransformations_preserves s P hjs c.AfterTransformations w3 h3
      rcases ha : runTransformations s c.AfterTransformations w3 with ⟨_ | ea, w4⟩ <;>
        · rw [ha] at h4
          simpa [ha] using h4
    · simpa using h3
  simp only [runComponent, hg, hb]
  split_ifs
  · exact hafter _ (hcall c w2 h2)
  · exact hafter _ (hcall c w2 h2)
  · exact hafter _ (hcore c w2 h2)
  · exact h2

theorem objectJSON_preserves (s : Server σ ρ ν) (P : σ → Prop) (hP : s.Preserves P)
    (object : ν) (w : σ) (h : P w) : P (objectJSON s object w).2 := by
  have h1 := hP.vmObject "JSON" w h
  rcases ho : s.vmObject "JSON" w with ⟨_ | jsJSON, w1⟩
  · rw [ho] at h1
    simpa [objectJSON, ho] using h1
  · rw [ho] at h1
    have h2 := hP.call jsJSON "stringify" object w1 h1
    rcases hc : s.call jsJSON "stringify" object w1 with ⟨_ | result, w2⟩ <;>
      · rw [hc] at h2
        simpa [objectJSON, ho, hc] using h2

/-- The handler releases nothing and opens nothing itself: a property of the state that
every collaborator preserves and that holds when the handler starts holds when it returns,
on the success path and on every error path. -/
theorem proxyHandlerFunc_preserves (s : Server σ ρ ν) (P : σ → Prop) (hP : s.Preserves P)
    (routeName requestID : String) (r : ρ) (w0 : σ) (h0 : P w0) :
    P (proxyHandlerFunc s routeName requestID r w0).state := by
  rcases hp : s.parseInt routeName with err | id
  · simpa [proxyHandlerFunc, handlerReturn, hp] using h0
  have h1 := hP.findProxyEndpoint id w0 h0
  rcases hf : s.FindProxyEndpoint id w0 with ⟨err | ep, w1⟩ <;> rw [hf] at h1
  · simpa [proxyHandlerFunc, handlerReturn, hp, hf] using h1
  have h2 := hP.newVM requestID r w1 h1
  rcases hn : s.NewVM requestID r w1 with ⟨err | u, w2⟩ <;> rw [hn] at h2
  · simpa [proxyHandlerFunc, handlerReturn, hp, hf, hn] using h2
  have h3 := hP.proxyRequestJSON r w2 h2
  rcases hj : s.proxyRequestJSON r w2 with ⟨err | json, w3⟩ <;> rw [hj] at h3
  · simpa [proxyHandlerFunc, handlerReturn, hp, hf, hn, hj] using h3
  have h4 := hP.vmSet "__ap_proxyRequestJSON" json w3 h3
  have h5 := hP.vmRunAll ["var request = JSON.parse(__ap_proxyRequestJSON);",
    "var response = new AP.HTTP.Response();"] _ h4
  rcases ha : s.vmRunAll ["var request = JSON.parse(__ap_proxyRequestJSON);",
    "var response = new AP.HTTP.Response();"] (s.vmSet "__ap_proxyRequestJSON" json w3)
    with ⟨err | u2, w5⟩ <;> rw [ha] at h5
  · simpa [proxyHandlerFunc, handlerReturn, hp, hf, hn, hj, ha] using h5
  have h6 : P (runComponents s.engine ep.Components w5).2 :=
    rangeLoop_preserves (runComponent s.engine) P
      (runComponent_preserves s.engine P hP.evaluateComponentConditional
        hP.runJSTransformation hP.runCallComponentCore hP.runJSComponentCore)
      ep.Components w5 h5
  rcases hc : runComponents s.engine ep.Components w5 with ⟨_ | err, w6⟩ <;> rw [hc] at h6
  swap
  · simpa [proxyHandlerFunc, handlerReturn, hp, hf, hn, hj, ha, hc] using h6
  have h7 := hP.vmRun "response;" w6 h6
  rcases hr : s.vmRun "response;" w6 with ⟨err | responseObject, w7⟩ <;> rw [hr] at h7
  · simpa [proxyHandlerFunc, handlerReturn, hp, hf, hn, hj, ha, hc, hr] using h7
  have h8 := objectJSON_preserves s P hP responseObject w7 h7
  rcases ho : objectJSON s responseObject w7 with ⟨err | responseJSON, w8⟩ <;> rw [ho] at h8
  · simpa [proxyHandlerFunc, handlerReturn, hp, hf, hn, hj, ha, hc, hr, ho] using h8
  rcases hx : s.proxyResponseFromJSON responseJSON with err | response
  · simpa [proxyHandlerFunc, handlerReturn, hp, hf, hn, hj, ha, hc, hr, ho, hx] using h8
  · simpa [proxyHandlerFunc, handlerReturn, hp, hf, hn, hj, ha, hc, hr, ho, hx] using h8

theorem CacheWorld.Released_of_sameCache {ω κ : Type} (w w1 : CacheWorld ω κ)
    (h : w.sameCache w1) (hw : w.Released) : w1.Released := by
  intro x hx
  unfold CacheWorld.handles at hx
  rw [h.1] at hx
  rw [h.2]
  exact hw x hx

theorem CacheWorld.release_Released {ω κ : Type} (w : CacheWorld ω κ) :
    w.release.Released := by
  intro x hx
  exact List.mem_append_right _ hx

theorem scopedCallCore_Released {ω κ ι : Type} (core : Core ω ι κ)
    (requestsOf : ProxyEndpointComponent → List (RemoteEndpoint × String))
    (perform : ProxyEndpointComponent → ω → Option GoError × ω)
    (c : ProxyEndpointComponent) (w : CacheWorld ω κ) :
    (scopedCallCore core requestsOf perform c w).2.Released := by
  unfold scopedCallCore
  rcases rangeLoop (prepareStep core) (requestsOf c) w with ⟨_ | err, w1⟩
  · exact CacheWorld.release_Released _
  · exact CacheWorld.release_Released _

theorem releasingServer_keepsCache : releasingServer.KeepsCache where
  findProxyEndpoint id w := by
    simp only [releasingServer]
    split_ifs <;> exact ⟨rfl, rfl⟩
  newVM _ _ _ := ⟨rfl, rfl⟩
  proxyRequestJSON _ _ := ⟨rfl, rfl⟩
  vmSet _ _ _ := ⟨rfl, rfl⟩
  vmRunAll _ _ := ⟨rfl, rfl⟩
  vmRun _ _ := ⟨rfl, rfl⟩
  vmObject _ _ := ⟨rfl, rfl⟩
  call _ _ _ _ := ⟨rfl, rfl⟩
  evaluateComponentConditional _ _ := ⟨rfl, rfl⟩
  runJSTransformation _ _ := ⟨rfl, rfl⟩
  runJSComponentCore _ _ := ⟨rfl, rfl⟩

/-- C12, on the owner of the cache as the spec describes it: let the call core of the engine
be the owner that hands the cache to `PrepareRequest` and releases it on every exit path,
and let no other collaborator touch the cache.  If every connection stored in the cache has
been closed when the handler starts (a fresh cache is empty), then when `proxyHandlerFunc`
returns, on the success path and on every error path, every connection stored in the cache
has been closed. -/
theorem proxyHandlerFunc_releases_sticky_connections {ω κ ι : Type}
    (s : Server (CacheWorld ω κ) ρ ν) (core : Core ω ι κ)
    (requestsOf : ProxyEndpointComponent → List (RemoteEndpoint × String))
    (perform : ProxyEndpointComponent → ω → Option GoError × ω)
    (howner : s.engine.runCallComponentCore = scopedCallCore core requestsOf perform)
    (hkeeps : s.KeepsCache) (routeName requestID : String) (r : ρ) (w0 : CacheWorld ω κ)
    (h0 : w0.Released) :
    (proxyHandlerFunc s routeName requestID r w0).state.Released := by
  refine proxyHandlerFunc_preserves s CacheWorld.Released ?_ routeName requestID r w0 h0
  exact
    { findProxyEndpoint := fun id w h =>
        CacheWorld.Released_of_sameCache _ _ (hkeeps.findProxyEndpoint id w) h
      newVM := fun requestID r w h =>
        CacheWorld.Released_of_sameCache _ _ (hkeeps.newVM requestID r w) h
      proxyRequestJSON := fun r w h =>
        CacheWorld.Released_of_sameCache _ _ (hkeeps.proxyRequestJSON r w) h
      vmSet := fun name value w h =>
        CacheWorld.Released_of_sameCache _ _ (hkeeps.vmSet name value w) h
      vmRunAll := fun scripts w h =>
        CacheWorld.Released_of_sameCache _ _ (hkeeps.vmRunAll scripts w) h
      vmRun := fun script w h =>
        CacheWorld.Released_of_sameCache _ _ (hkeeps.vmRun script w) h
      vmObject := fun name w h =>
        CacheWorld.Released_of_sameCache _ _ (hkeeps.vmObject name w) h
      call := fun object method argument w h =>
        CacheWorld.Released_of_sameCache _ _ (hkeeps.call object method argument w) h
      evaluateComponentConditional := fun c w h =>
        CacheWorld.Released_of_sameCache _ _ (hkeeps.evaluateComponentConditional c w) h
      runJSTransformation := fun t w h =>
        CacheWorld.Released_of_sameCache _ _ (hkeeps.runJSTransformation t w) h
      runCallComponentCore := fun c w _ => by
        rw [howner]
        exact scopedCallCore_Released core requestsOf perform c w
      runJSComponentCore := fun c w h =>
        CacheWorld.Released_of_sameCache _ _ (hkeeps.runJSComponentCore c w) h }

theorem proxyHandlerFunc_releases_sticky_connections_witness :
    ((proxyHandlerFunc releasingServer "9" "req" ()
        { connections := [], closed := [], world := 0 }).err = none ∧
      (proxyHandlerFunc releasingServer "9" "req" ()
        { connections := [], closed := [], world := 0 }).state.connections = [(5, some 1)] ∧
      (proxyHandlerFunc releasingServer "9" "req" ()
        { connections := [], closed := [], world := 0 }).state.closed = [1] ∧
      (proxyHandlerFunc releasingServer "9" "req" ()
        { connections := [], closed := [], world := 0 }).state.Released) ∧
    ((proxyHandlerFunc releasingServer "11" "req" ()
        { connections := [], closed := [], world := 0 }).err =
        some (HttpError.serverError (GoError.other 2)) ∧
      (proxyHandlerFunc releasingServer "11" "req" ()
        { connections := [], closed := [], world := 0 }).state.connections = [(5, some 1)] ∧
      (proxyHandlerFunc releasingServer "11" "req" ()
        { connections := [], closed := [], world := 0 }).state.closed = [1] ∧
      (proxyHandlerFunc releasingServer "11" "req" ()
        { connections := [], closed := [], world := 0 }).state.Released) :=
  ⟨⟨by decide, by decide, by decide,
      proxyHandlerFunc_releases_sticky_connections releasingServer demoCore _ _ rfl
        releasingServer_keepsCache "9" "req" () { connections := [], closed := [], world := 0 }
        (fun _ h => by simp [CacheWorld.handles] at h)⟩,
    ⟨by decide, by decide, by decide,
      proxyHandlerFunc_releases_sticky_connections releasingServer demoCore _ _ rfl
        releasingServer_keepsCache "11" "req" () { connections := [], closed := [], world := 0 }
        (fun _ h => by simp [CacheWorld.handles] at h)⟩⟩

end Release

section Timing

/-- C22 (the code differs): a request whose pipeline fails after it has spent time in
backend calls.  When the handler returns, the VM has accumulated a call duration of 13, but
the local `proxiedRequestsDuration` was never assigned: the timing record reports 0 as the
time spent in requests and the whole wall time, 1013, as processing.  The sum of the two is
the total all the same. -/
theorem proxyHandlerFunc_failed_pipeline_reports_no_request_time :
    (proxyHandlerFunc demoServer "7" "req" () 0).err =
        some (HttpError.serverError (GoError.other 1)) ∧
      demoServer.proxiedRequestsDuration (proxyHandlerFunc demoServer "7" "req" () 0).state
        = 13 ∧
      (proxyHandlerFunc demoServer "7" "req" () 0).timing =
        { total := 1013, processing := 1013, requests := 0 } := by
  decide

end Timing

section PostgresModes

/-- C27 (the code differs): a configuration whose `sslmode` is `xpreferx`, which is none of
the six modes but contains one.  The expression `sslModes` has no anchors, so it matches:
the validation of `sslmode` has a false `errCond` and `validate` returns nil. -/
theorem PostgresSpec_validate_accepts_mode_as_substring :
    "xpreferx" ∉ sslModeList ∧
      sslModesMatchString "xpreferx" = true ∧
      ({ pqSimple with SSLMode := "xpreferx" } : PostgresSpec Unit).validate.1 = none := by
  decide

/-- C28, as stated, fails: two configurations that pass validation and differ in `User` and
in `Password` (`a:b` with `c`, and `a` with `b:c`).  `ConnectionString` joins the fields
without escaping them, so both have the same `UniqueServer` text. -/
theorem PostgresSpec_UniqueServer_collision :
    ({ pqSimple with User := "a:b", Password := "c" } : PostgresSpec Unit).validate.1 = none ∧
      ({ pqSimple with User := "a", Password := "b:c" } : PostgresSpec Unit).validate.1 = none ∧
      ({ pqSimple with User := "a:b", Password := "c" } : PostgresSpec Unit).UniqueServer =
        ({ pqSimple with User := "a", Password := "b:c" } : PostgresSpec Unit).UniqueServer ∧
      ({ pqSimple with User := "a:b", Password := "c" } : PostgresSpec Unit).User ≠
        ({ pqSimple with User := "a", Password := "b:c" } : PostgresSpec Unit).User := by
  refine ⟨by decide, by decide, ?_, by decide⟩
  simp [PostgresSpec.UniqueServer, PostgresSpec.ConnectionString, pqSimple]

theorem digitChar_ne (k : Nat) (hk : k < 10) :
    Nat.digitChar k ≠ '/' ∧ Nat.digitChar k ≠ '-' ∧ (Nat.digitChar k).toNat - 48 = k := by
  interval_cases k <;> decide

theorem toDigitsCore_value (fuel n : Nat) (ds : List Char) (h : n < fuel) :
    (Nat.toDigitsCore 10 fuel n ds).foldl (fun acc c => acc * 10 + (c.toNat - 48)) 0 =
      ds.foldl (fun acc c => acc * 10 + (c.toNat - 48)) n := by
  induction fuel generalizing n ds with
  | zero => omega
  | succ fuel ih =>
    have hd := (digitChar_ne (n % 10) (Nat.mod_lt _ (by decide))).2.2
    unfold Nat.toDigitsCore
    by_cases h0 : n / 10 = 0
    · simp only [h0, if_true, List.foldl_cons, Nat.zero_mul, Nat.zero_add, hd]
      congr 1
      omega
    · simp only [h0, if_false]
      rw [ih (n / 10) _ (by omega)]
      simp only [List.foldl_cons, hd]
      congr 1
      omega

theorem toDigitsCore_chars (fuel n : Nat) (ds : List Char)
    (hds : ∀ c ∈ ds, c ≠ '/' ∧ c ≠ '-') :
    ∀ c ∈ Nat.toDigitsCore 10 fuel n ds, c ≠ '/' ∧ c ≠ '-' := by
  induction fuel generalizing n ds with
  | zero => simpa [Nat.toDigitsCore] using hds
  | succ fuel ih =>
    have hd := digitChar_ne (n % 10) (Nat.mod_lt _ (by decide))
    have hcons : ∀ c ∈ Nat.digitChar (n % 10) :: ds, c ≠ '/' ∧ c ≠ '-' := by
      intro c hc
      rcases List.mem_cons.1 hc with rfl | hc
      · exact ⟨hd.1, hd.2.1⟩
      · exact hds c hc
    unfold Nat.toDigitsCore
    by_cases h0 : n / 10 = 0
    · simpa only [h0, if_true] using hcons
    · simp only [h0, if_false]
      exact ih _ _ hcons

theorem Nat_toString_data (n : Nat) : (toString n).data = Nat.toDigits 10 n := rfl

theorem Int_toString_data (i : Int) :
    (toString i).data =
      match i with
      | Int.ofNat m => Nat.toDigits 10 m
      | Int.negSucc m => '-' :: Nat.toDigits 10 (m + 1) := by
  cases i <;> rfl

theorem toDigits_value (n : Nat) :
    (Nat.toDigits 10 n).foldl (fun acc c => acc * 10 + (c.toNat - 48)) 0 = n := by
  unfold Nat.toDigits
  rw [toDigitsCore_value (n + 1) n [] (Nat.lt_succ_self n)]
  rfl

theorem toDigits_chars (n : Nat) : ∀ c ∈ Nat.toDigits 10 n, c ≠ '/' ∧ c ≠ '-' :=
  toDigitsCore_chars (n + 1) n [] (by simp)

theorem Int_toString_chars (i : Int) : '/' ∉ (toString i).data := by
  rw [Int_toString_data]
  cases i with
  | ofNat m => exact fun h => (toDigits_chars m _ h).1 rfl
  | negSucc m =>
    intro h
    rcases List.mem_cons.1 h with h | h
    · exact absurd h (by decide)
    · exact (toDigits_chars (m + 1) _ h).1 rfl

theorem Int_toString_data_inj (i j : Int) (h : (toString i).data = (toString j).data) :
    i = j := by
  rw [Int_toString_data, Int_toString_data] at h
  cases i with
  | ofNat m =>
    cases j with
    | ofNat k =>
      have := congrArg (List.foldl (fun acc c => acc * 10 + (c.toNat - 48)) 0) h
      rw [toDigits_value, toDigits_value] at this
      rw [this]
    | negSucc k =>
      have hm : '-' ∈ Nat.toDigits 10 m := by
        simp only at h
        rw [h]
        exact List.mem_cons_self _ _
      exact absurd rfl (toDigits_chars m _ hm).2
  | negSucc m =>
    cases j with
    | ofNat k =>
      have hm : '-' ∈ Nat.toDigits 10 k := by
        simp only at h
        rw [← h]
        exact List.mem_cons_self _ _
      exact absurd rfl (toDigits_chars k _ hm).2
    | negSucc k =>
      have h1 := (List.cons.inj h).2
      have := congrArg (List.foldl (fun acc c => acc * 10 + (c.toNat - 48)) 0) h1
      rw [toDigits_value, toDigits_value] at this
      have : m = k := by omega
      rw [this]

theorem append_cons_inj {α : Type} (c : α) (a b r t : List α) (ha : c ∉ a) (hb : c ∉ b)
    (h : a ++ c :: r = b ++ c :: t) : a = b ∧ r = t := by
  induction a generalizing b with
  | nil =>
    cases b with
    | nil => exact ⟨rfl, (List.cons.inj h).2⟩
    | cons y b =>
      have := (List.cons.inj h).1
      exact absurd (this ▸ List.mem_cons_self _ _) hb
  | cons x a ih =>
    cases b with
    | nil =>
      have := (List.cons.inj h).1
      exact absurd (this ▸ List.mem_cons_self _ _) ha
    | cons y b =>
      have h1 := List.cons.inj h
      obtain ⟨h2, h3⟩ := ih b (fun hm => ha (List.mem_cons_of_mem _ hm))
        (fun hm => hb (List.mem_cons_of_mem _ hm)) h1.2
      exact ⟨by rw [h1.1, h2], h3⟩

theorem ConnectionString_data {β : Type} (p : PostgresSpec β) :
    p.ConnectionString.data =
      "postgres://".data ++ (p.User.data ++ ':' :: (p.Password.data ++ '@' ::
        (p.Host.data ++ ':' :: ((toString p.Port).data ++ '/' ::
          (p.DbName.data ++ '?' :: ("sslmode=".data ++ p.SSLMode.data)))))) := by
  simp [PostgresSpec.ConnectionString, String.data_append]

/-- C28, amended: `UniqueServer` is the connection string, whose fields are joined without
escaping.  For two configurations whose `User` contains no `:`, whose `Password` contains no
`@`, whose `Host` contains no `:` and whose `DbName` contains no `?`, equal `UniqueServer`
strings imply equal `User`, `Password`, `Host`, `Port`, `DbName` and `SSLMode`. -/
theorem PostgresSpec_UniqueServer_injective {β : Type} (p q : PostgresSpec β)
    (hpU : ':' ∉ p.User.data) (hqU : ':' ∉ q.User.data)
    (hpP : '@' ∉ p.Password.data) (hqP : '@' ∉ q.Password.data)
    (hpH : ':' ∉ p.Host.data) (hqH : ':' ∉ q.Host.data)
    (hpD : '?' ∉ p.DbName.data) (hqD : '?' ∉ q.DbName.data)
    (h : p.UniqueServer = q.UniqueServer) :
    p.User = q.User ∧ p.Password = q.Password ∧ p.Host = q.Host ∧ p.Port = q.Port ∧
      p.DbName = q.DbName ∧ p.SSLMode = q.SSLMode := by
  have hd := congrArg String.data h
  simp only [PostgresSpec.UniqueServer, ConnectionString_data] at hd
  have h0 := List.append_cancel_left hd
  obtain ⟨hU, h1⟩ := append_cons_inj _ _ _ _ _ hpU hqU h0
  obtain ⟨hP, h2⟩ := append_cons_inj _ _ _ _ _ hpP hqP h1
  obtain ⟨hH, h3⟩ := append_cons_inj _ _ _ _ _ hpH hqH h2
  obtain ⟨hN, h4⟩ := append_cons_inj _ _ _ _ _ (Int_toString_chars p.Port)
    (Int_toString_chars q.Port) h3
  obtain ⟨hD, h5⟩ := append_cons_inj _ _ _ _ _ hpD hqD h4
  have hM := List.append_cancel_left h5
  exact ⟨String.ext hU, String.ext hP, String.ext hH, Int_toString_data_inj _ _ hN,
    String.ext hD, String.ext hM⟩

theorem PostgresSpec_UniqueServer_injective_witness :
    ({ pqSimple with spec := 1 } : PostgresSpec Nat).UniqueServer =
        ({ pqSimple with spec := 2 } : PostgresSpec Nat).UniqueServer ∧
      ({ pqSimple with spec := 1 } : PostgresSpec Nat).User =
        ({ pqSimple with spec := 2 } : PostgresSpec Nat).User ∧
      ({ pqSimple with spec := 1 } : PostgresSpec Nat).Port =
        ({ pqSimple with spec := 2 } : PostgresSpec Nat).Port :=
  ⟨rfl,
    (PostgresSpec_UniqueServer_injective ({ pqSimple with spec := 1 } : PostgresSpec Nat)
      { pqSimple with spec := 2 } (by decide) (by decide) (by decide) (by decide) (by decide)
      (by decide) (by decide) (by decide) rfl).1,
    (PostgresSpec_UniqueServer_injective ({ pqSimple with spec := 1 } : PostgresSpec Nat)
      { pqSimple with spec := 2 } (by decide) (by decide) (by decide) (by decide) (by decide)
      (by decide) (by decide) (by decide) rfl).2.2.2.1⟩

end PostgresModes

section ConnConfig

variable {γ : Type}

/-- C26: for a connection string that `pgx.ParseURI` parses without error, `connConfig`
returns no error and sets the TLS fields from the `sslmode` parameter alone: an absent or
empty value gives exactly what `prefer` gives (a `TLSConfig` that skips verification,
`UseFallbackTLS` true, a nil `FallbackTLSConfig`); `allow` sets `UseFallbackTLS` and a
fallback config that skips verification; `require`, `verify-ca` and `verify-full` set a
`TLSConfig` that verifies, with the parsed host as `ServerName`; `disable` returns the
parsed configuration unchanged. -/
theorem connConfig_tls_by_sslmode (ParseURI : String → pgx.ConnConfig γ × Option GoError)
    (sslmodeOf : String → String) (connString : String) (parsed : pgx.ConnConfig γ)
    (hparse : ParseURI connString = (parsed, none)) :
    ((sslmodeOf connString = "" ∨ sslmodeOf connString = "prefer") →
      connConfig ParseURI sslmodeOf connString =
        ({ parsed with
            TLSConfig := some { InsecureSkipVerify := true, ServerName := "" },
            UseFallbackTLS := true,
            FallbackTLSConfig := none }, none)) ∧
    (sslmodeOf connString = "allow" →
      connConfig ParseURI sslmodeOf connString =
        ({ parsed with
            UseFallbackTLS := true,
            FallbackTLSConfig := some { InsecureSkipVerify := true, ServerName := "" } },
          none)) ∧
    ((sslmodeOf connString = "require" ∨ sslmodeOf connString = "verify-ca" ∨
        sslmodeOf connString = "verify-full") →
      connConfig ParseURI sslmodeOf connString =
        ({ parsed with
            TLSConfig := some { InsecureSkipVerify := false, ServerName := parsed.Host } },
          none)) ∧
    (sslmodeOf connString = "disable" →
      connConfig ParseURI sslmodeOf connString = (parsed, none)) := by
  refine ⟨?_, ?_, ?_, ?_⟩
  · rintro (h | h) <;> simp [connConfig, hparse, h]
  · intro h
    simp [connConfig, hparse, h]
  · rintro (h | h | h) <;> simp [connConfig, hparse, h]
  · intro h
    simp [connConfig, hparse, h]

theorem connConfig_tls_by_sslmode_witness :
    demoParseURI "postgres://u:p@db.example.com:5432/db?sslmode=verify-full" =
        ({ Host := "db.example.com", TLSConfig := none, UseFallbackTLS := false,
           FallbackTLSConfig := none, rest := () }, none) ∧
      connConfig demoParseURI (fun _ => "verify-full")
          "postgres://u:p@db.example.com:5432/db?sslmode=verify-full" =
        ({ Host := "db.example.com",
           TLSConfig := some { InsecureSkipVerify := false, ServerName := "db.example.com" },
           UseFallbackTLS := false, FallbackTLSConfig := none, rest := () }, none) :=
  ⟨rfl, (connConfig_tls_by_sslmode demoParseURI (fun _ => "verify-full")
    "postgres://u:p@db.example.com:5432/db?sslmode=verify-full" _ rfl).2.2.1
    (Or.inr (Or.inr rfl))⟩

end ConnConfig

section Login

variable {δ : Type}

/-- C21, as stated, fails: a request whose body cannot be read as credentials, sent with the
session of a logged-in administrator.  `NewSessionHandler` returns the default server error,
not the 400 "Invalid credentials" error; the session ends without `user_id` and without
`account_id` all the same. -/
theorem NewSessionHandler_unreadable_body :
    (NewSessionHandler demoSessionEnv "garbage" demoAdminSession 0).1.err =
        some HttpError.defaultServerError ∧
      (NewSessionHandler demoSessionEnv "garbage" demoAdminSession 0).1.err ≠
        some (HttpError.newError (GoError.errorf "Invalid credentials" []) 400) ∧
      (NewSessionHandler demoSessionEnv "garbage" demoAdminSession 0).1.session.userID = none ∧
      (NewSessionHandler demoSessionEnv "garbage" demoAdminSession 0).1.session.accountID
        = none := by
  decide

/-- C21, amended: `NewSessionHandler` stores `user_id`, `account_id` and `admin` exactly when
the credentials can be read from the body, a user with the email read exists, is confirmed
and the password is valid, and then stores the id, the account id and the admin flag of that
user.  When the credentials are read but no such user passes, it returns the 400 "Invalid
credentials" error; when the body cannot be read, it returns the default server error.  In
both cases the session ends as `_deleteSession` left it: without `user_id` and without
`account_id`, whatever it held before. -/
theorem NewSessionHandler_stores_iff_valid (env : SessionEnv δ) (body : String)
    (session : Session) (db : δ) :
    (∀ email password user db1, env.deserialize body = Except.ok (email, password) →
      env.FindUserByEmail email db = (Except.ok user, db1) → user.Confirmed = true →
      env.ValidPassword user password = true →
      (NewSessionHandler env body session db).1.session =
        { userID := some user.ID, accountID := some user.AccountID,
          admin := some user.Admin }) ∧
    (∀ email password, env.deserialize body = Except.ok (email, password) →
      (∀ user db1, env.FindUserByEmail email db = (Except.ok user, db1) →
        user.Confirmed = false ∨ env.ValidPassword user password = false) →
      (NewSessionHandler env body session db).1.session =
          { userID := none, accountID := none, admin := session.admin } ∧
        (NewSessionHandler env body session db).1.err =
          some (HttpError.newError (GoError.errorf "Invalid credentials" []) 400)) ∧
    (∀ err, env.deserialize body = Except.error err →
      (NewSessionHandler env body session db).1.session =
          { userID := none, accountID := none, admin := session.admin } ∧
        (NewSessionHandler env body session db).1.err = some HttpError.defaultServerError) ∧
    ((NewSessionHandler env body session db).1.session.userID ≠ none ↔
      ∃ email password user db1, env.deserialize body = Except.ok (email, password) ∧
        env.FindUserByEmail email db = (Except.ok user, db1) ∧ user.Confirmed = true ∧
        env.ValidPassword user password = true) := by
  rcases hd : env.deserialize body with err | ⟨email, password⟩
  · have hres : (NewSessionHandler env body session db).1.session =
          { userID := none, accountID := none, admin := session.admin } ∧
        (NewSessionHandler env body session db).1.err = some HttpError.defaultServerError := by
      simp [NewSessionHandler, hd, _deleteSession]
    refine ⟨fun _ _ _ _ h => (by cases h), fun _ _ h => (by cases h), fun _ _ => hres, ?_⟩
    rw [hres.1]
    simp
  have hkey : ∀ e p, (Except.ok (email, password) : Except GoError (String × String)) =
      Except.ok (e, p) → email = e ∧ password = p := by
    intro e p h
    injection h with h
    exact Prod.mk.inj h
  rcases hf : env.FindUserByEmail email db with ⟨err | user, db1⟩
  · have hres : (NewSessionHandler env body session db).1.session =
          { userID := none, accountID := none, admin := session.admin } ∧
        (NewSessionHandler env body session db).1.err =
          some (HttpError.newError (GoError.errorf "Invalid credentials" []) 400) := by
      simp [NewSessionHandler, hd, hf, _deleteSession]
    refine ⟨fun e p u d h1 h2 => ?_, fun _ _ _ _ => hres, fun _ h => (by cases h), ?_⟩
    · obtain ⟨rfl, rfl⟩ := hkey e p h1
      rw [hf] at h2
      cases h2
    · rw [hres.1]
      simp only [ne_eq, not_true_eq_false, false_iff, not_exists, not_and]
      intro e p u d h1 h2
      obtain ⟨rfl, rfl⟩ := hkey e p h1
      rw [hf] at h2
      cases h2
  have huser : ∀ u d, (Except.ok user, db1) = ((Except.ok u, d) : Except GoError User × δ) →
      user = u := by
    intro u d h
    have h1 := (Prod.mk.inj h).1
    injection h1
  by_cases hok : user.Confirmed = true ∧ env.ValidPassword user password = true
  · obtain ⟨hc, hv⟩ := hok
    have hres : (NewSessionHandler env body session db).1.session =
        { userID := some user.ID, accountID := some user.AccountID,
          admin := some user.Admin } := by
      rcases hm : env.marshalUser user with err | dataJSON <;>
        simp [NewSessionHandler, hd, hf, hc, hv, hm, _deleteSession]
    refine ⟨fun e p u d h1 h2 _ _ => ?_, fun e p h1 hall => ?_, fun _ h => (by cases h), ?_⟩
    · obtain ⟨rfl, rfl⟩ := hkey e p h1
      rw [hf] at h2
      rw [← huser u d h2]
      exact hres
    · obtain ⟨rfl, rfl⟩ := hkey e p h1
      rcases hall user db1 hf with h | h
      · rw [hc] at h
        cases h
      · rw [hv] at h
        cases h
    · rw [hres]
      simp only [ne_eq, reduceCtorEq, not_false_eq_true, true_iff]
      exact ⟨email, password, user, db1, rfl, hf, hc, hv⟩
  · have hres : (NewSessionHandler env body session db).1.session =
          { userID := none, accountID := none, admin := session.admin } ∧
        (NewSessionHandler env body session db).1.err =
          some (HttpError.newError (GoError.errorf "Invalid credentials" []) 400) := by
      rw [not_and_or] at hok
      rcases hok with h | h
      · simp only [Bool.not_eq_true] at h
        simp [NewSessionHandler, hd, hf, h, _deleteSession]
      · simp only [Bool.not_eq_true] at h
        simp [NewSessionHandler, hd, hf, h, _deleteSession]
    refine ⟨fun e p u d h1 h2 h3 h4 => ?_, fun _ _ _ _ => hres, fun _ h => (by cases h), ?_⟩
    · obtain ⟨rfl, rfl⟩ := hkey e p h1
      rw [hf] at h2
      have := huser u d h2
      subst this
      exact absurd ⟨h3, h4⟩ hok
    · rw [hres.1]
      simp only [ne_eq, not_true_eq_false, false_iff, not_exists, not_and]
      intro e p u d h1 h2 h3 h4
      obtain ⟨rfl, rfl⟩ := hkey e p h1
      rw [hf] at h2
      have := huser u d h2
      subst this
      exact absurd ⟨h3, h4⟩ hok

theorem NewSessionHandler_stores_iff_valid_witness :
    (NewSessionHandler demoSessionEnv "dev@example.com" demoAdminSession 0).1.session =
        { userID := some 7, accountID := some 3, admin := some true } ∧
      ((NewSessionHandler demoSessionEnv "nobody@example.com" demoAdminSession 0).1.session =
          { userID := none, accountID := none, admin := some true } ∧
        (NewSessionHandler demoSessionEnv "nobody@example.com" demoAdminSession 0).1.err =
          some (HttpError.newError (GoError.errorf "Invalid credentials" []) 400)) :=
  ⟨(NewSessionHandler_stores_iff_valid demoSessionEnv "dev@example.com" demoAdminSession 0).1
      "dev@example.com" "secret" { ID := 7, AccountID := 3, Admin := true, Confirmed := true }
      0 rfl rfl rfl rfl,
    (NewSessionHandler_stores_iff_valid demoSessionEnv "nobody@example.com" demoAdminSession
      0).2.1 "nobody@example.com" "secret" rfl (fun user db1 h => by
        simp [demoSessionEnv] at h)⟩

end Login

section ComponentInsert

variable {τ : Type}

theorem rangeLoop_append {α : Type} (f : α → σ → Option GoError × σ) (xs ys : List α)
    (w : σ) :
    rangeLoop f (xs ++ ys) w =
      match rangeLoop f xs w with
      | (some err, w1) => (some err, w1)
      | (none, w1) => rangeLoop f ys w1 := by
  induction xs generalizing w with
  | nil => simp [rangeLoop]
  | cons x xs ih =>
    rcases hx : f x w with ⟨_ | err, w1⟩
    · simp [rangeLoop, hx, ih]
    · simp [rangeLoop, hx]

theorem insertTransformationsFrom_eq (tx : ComponentTx τ) (componentID apiID : Int)
    (before : Bool) (position : Nat) (ts : List ProxyEndpointTransformation) (t : τ) :
    insertTransformationsFrom tx componentID before
        (if before then "Inserting before transformation"
          else "Inserting after transformation") position ts t =
      rangeLoop (insertStep tx componentID apiID)
        ((ts.enumFrom position).map (fun p => InsertOp.transformation p.2 before p.1)) t := by
  induction ts generalizing position t with
  | nil => simp [insertTransformationsFrom, rangeLoop]
  | cons x xs ih =>
    rcases hx : tx.InsertForComponent x componentID before position t with ⟨_ | err, t1⟩
    · simp [insertTransformationsFrom, rangeLoop, insertStep, hx, ih]
    · simp [insertTransformationsFrom, rangeLoop, insertStep, hx]

theorem insertCallsFrom_eq (tx : ComponentTx τ) (componentID apiID : Int) (position : Nat)
    (calls : List ProxyEndpointCall) (t : τ) :
    insertCallsFrom tx componentID apiID position calls t =
      rangeLoop (insertStep tx componentID apiID)
        ((calls.enumFrom position).map (fun p => InsertOp.multiCall p.2 p.1)) t := by
  induction calls generalizing position t with
  | nil => simp [insertCallsFrom, rangeLoop]
  | cons x xs ih =>
    rcases hx : tx.CallInsert (some x) componentID apiID position t with ⟨_ | err, t1⟩
    · simp [insertCallsFrom, rangeLoop, insertStep, hx, ih]
    · simp [insertCallsFrom, rangeLoop, insertStep, hx]

theorem Insert_eq_rangeLoop (tx : ComponentTx τ) (c : ProxyEndpointComponent)
    (endpointID apiID position : Int) (t t1 : τ) (data : String) (id : Int)
    (hm : tx.marshaledForStorage c.Data = Except.ok data)
    (hi : tx.InsertOne c endpointID position data t = ((id, none), t1)) :
    c.Insert tx endpointID apiID position t =
      ((rangeLoop (insertStep tx id apiID) (insertPlan c) t1).1, { c with ID := id },
        (rangeLoop (insertStep tx id apiID) (insertPlan c) t1).2) := by
  have hb := insertTransformationsFrom_eq tx id apiID true 0 c.BeforeTransformations
  have ha := insertTransformationsFrom_eq tx id apiID false 0 c.AfterTransformations
  simp only [if_true, Bool.false_eq_true, if_false] at hb ha
  simp only [ProxyEndpointComponent.Insert, hm, hi, hb, ha, insertPlan, rangeLoop_append,
    List.enum]
  rcases h1 : rangeLoop (insertStep tx id apiID)
      ((c.BeforeTransformations.enumFrom 0).map
        (fun p => InsertOp.transformation p.2 true p.1)) t1 with ⟨_ | e1, t2⟩
  swap
  · simp [h1]
  rcases h2 : rangeLoop (insertStep tx id apiID)
      ((c.AfterTransformations.enumFrom 0).map
        (fun p => InsertOp.transformation p.2 false p.1)) t2 with ⟨_ | e2, t3⟩
  swap
  · simp [h1, h2]
  by_cases hs : c.Typ = ProxyEndpointComponentTypeSingle
  · rcases hc : tx.CallInsert c.Call id apiID 0 t3 with ⟨_ | e3, t4⟩ <;>
      simp [h1, h2, hs, rangeLoop, insertStep, hc]
  · by_cases hmu : c.Typ = ProxyEndpointComponentTypeMulti
    · have hs2 : ¬ ProxyEndpointComponentTypeMulti = ProxyEndpointComponentTypeSingle := by
        decide
      rcases hc : rangeLoop (insertStep tx id apiID)
          ((c.Calls.enumFrom 0).map (fun p => InsertOp.multiCall p.2 p.1)) t3
        with ⟨_ | e3, t4⟩ <;> simp [h1, h2, hs2, hmu, hc, insertCallsFrom_eq]
    · simp [h1, h2, hs, hmu, rangeLoop]

theorem insertStep_traced (tx : ComponentTx τ) (componentID apiID : Int) :
    insertStep tx.traced componentID apiID =
      fun op => logged (op.event componentID apiID) (insertStep tx componentID apiID op) := by
  funext op st
  obtain ⟨t, log⟩ := st
  cases op with
  | transformation transform before position =>
    rcases h : tx.InsertForComponent transform componentID before position t with
      ⟨_ | err, t1⟩ <;>
      simp [insertStep, ComponentTx.traced, logged, InsertOp.event, h]
  | singleCall call =>
    rcases h : tx.CallInsert call componentID apiID 0 t with ⟨_ | err, t1⟩ <;>
      simp [insertStep, ComponentTx.traced, logged, InsertOp.event, h]
  | multiCall call position =>
    rcases h : tx.CallInsert (some call) componentID apiID position t with ⟨_ | err, t1⟩ <;>
      simp [insertStep, ComponentTx.traced, logged, InsertOp.event, h]

theorem insertStep_error_wrapped (tx : ComponentTx τ) (componentID apiID : Int)
    (op : InsertOp) (t : τ) (err : GoError)
    (h : (insertStep tx componentID apiID op t).1 = some err) :
    ∃ context cause, err = GoError.wrapped context cause := by
  cases op with
  | transformation transform before position =>
    rcases hc : tx.InsertForComponent transform componentID before position t with
      ⟨_ | e, t1⟩
    · simp [insertStep, hc] at h
    · simp only [insertStep, hc, Option.some.injEq] at h
      exact ⟨_, e, h.symm⟩
  | singleCall call =>
    rcases hc : tx.CallInsert call componentID apiID 0 t with ⟨_ | e, t1⟩
    · simp [insertStep, hc] at h
    · simp only [insertStep, hc, Option.some.injEq] at h
      exact ⟨_, e, h.symm⟩
  | multiCall call position =>
    rcases hc : tx.CallInsert (some call) componentID apiID position t with ⟨_ | e, t1⟩
    · simp [insertStep, hc] at h
    · simp only [insertStep, hc, Option.some.injEq] at h
      exact ⟨_, e, h.symm⟩

theorem exists_getElem?_eq_iff {α : Type} (l : List α) (k : Nat) (x : α) :
    (∃ a b, l[a]? = some b ∧ b = x ∧ a = k) ↔ l[k]? = some x := by
  constructor
  · rintro ⟨a, b, h, rfl, rfl⟩
    exact h
  · intro h
    exact ⟨k, x, h, rfl, rfl⟩

theorem insertPlan_positions (c : ProxyEndpointComponent) :
    (∀ k transform, InsertOp.transformation transform true k ∈ insertPlan c ↔
      c.BeforeTransformations[k]? = some transform) ∧
    (∀ k transform, InsertOp.transformation transform false k ∈ insertPlan c ↔
      c.AfterTransformations[k]? = some transform) ∧
    (∀ call, InsertOp.singleCall call ∈ insertPlan c ↔
      c.Typ = ProxyEndpointComponentTypeSingle ∧ call = c.Call) ∧
    (∀ k call, InsertOp.multiCall call k ∈ insertPlan c ↔
      c.Typ = ProxyEndpointComponentTypeMulti ∧ c.Calls[k]? = some call) := by
  have hne : ¬ ProxyEndpointComponentTypeMulti = ProxyEndpointComponentTypeSingle := by decide
  refine ⟨fun k transform => ?_, fun k transform => ?_, fun call => ?_, fun k call => ?_⟩
  · by_cases hs : c.Typ = ProxyEndpointComponentTypeSingle
    · simp [insertPlan, hs, List.mk_mem_enum_iff_getElem?, exists_getElem?_eq_iff]
    · by_cases hm : c.Typ = ProxyEndpointComponentTypeMulti
      · simp [insertPlan, hm, hne, List.mk_mem_enum_iff_getElem?, exists_getElem?_eq_iff]
      · simp [insertPlan, hs, hm, List.mk_mem_enum_iff_getElem?, exists_getElem?_eq_iff]
  · by_cases hs : c.Typ = ProxyEndpointComponentTypeSingle
    · simp [insertPlan, hs, List.mk_mem_enum_iff_getElem?, exists_getElem?_eq_iff]
    · by_cases hm : c.Typ = ProxyEndpointComponentTypeMulti
      · simp [insertPlan, hm, hne, List.mk_mem_enum_iff_getElem?, exists_getElem?_eq_iff]
      · simp [insertPlan, hs, hm, List.mk_mem_enum_iff_getElem?, exists_getElem?_eq_iff]
  · by_cases hs : c.Typ = ProxyEndpointComponentTypeSingle
    · simp [insertPlan, hs]
    · by_cases hm : c.Typ = ProxyEndpointComponentTypeMulti
      · simp [insertPlan, hm, hne]
      · simp [insertPlan, hs, hm]
  · by_cases hs : c.Typ = ProxyEndpointComponentTypeSingle
    · have hne2 : ¬ ProxyEndpointComponentTypeSingle = ProxyEndpointComponentTypeMulti := by
        decide
      simp [insertPlan, hs, hne2]
    · by_cases hm : c.Typ = ProxyEndpointComponentTypeMulti
      · simp [insertPlan, hm, hne, List.mk_mem_enum_iff_getElem?, exists_getElem?_eq_iff]
      · simp [insertPlan, hs, hm]

/-- C24: `Insert` stores the component and then issues, in this order, one insert per
before-transformation, per after-transformation and per call, each with the position equal
to the index of the element in its own list (position 0 for the single call), so positions
ascend with the in-memory order.  It stops at the first failure: a failure to marshal the
data or to insert the component is returned wrapped and nothing further is issued, and the
inserts that follow the component are those of the plan up to and including the first one
that fails, whose wrapped failure is the error returned; when none fails every insert of the
plan is issued once, in order, and `Insert` returns nil. -/
theorem Insert_positions_and_first_failure (tx : ComponentTx τ) (c : ProxyEndpointComponent)
    (endpointID apiID position : Int) (t : τ) (log : List ComponentTxEvent) :
    (∀ err, tx.marshaledForStorage c.Data = Except.error err →
      c.Insert tx.traced endpointID apiID position (t, log) =
        (some (GoError.wrapped "Marshaling component JSON" err), c, (t, log))) ∧
    (∀ data id err t1, tx.marshaledForStorage c.Data = Except.ok data →
      tx.InsertOne c endpointID position data t = ((id, some err), t1) →
      c.Insert tx.traced endpointID apiID position (t, log) =
        (some (GoError.wrapped "Inserting component" err), { c with ID := id },
          (t1, log ++ [ComponentTxEvent.insertOne c endpointID position data]))) ∧
    (∀ data id t1, tx.marshaledForStorage c.Data = Except.ok data →
      tx.InsertOne c endpointID position data t = ((id, none), t1) →
      c.Insert tx.traced endpointID apiID position (t, log) =
          ((rangeLoop (insertStep tx id apiID) (insertPlan c) t1).1, { c with ID := id },
            ((rangeLoop (insertStep tx id apiID) (insertPlan c) t1).2,
              log ++ ComponentTxEvent.insertOne c endpointID position data ::
                (attempted (insertStep tx id apiID) (insertPlan c) t1).map
                  (InsertOp.event id apiID))) ∧
        (allSucceed (insertStep tx id apiID) (insertPlan c) t1 = true →
          (rangeLoop (insertStep tx id apiID) (insertPlan c) t1).1 = none ∧
            attempted (insertStep tx id apiID) (insertPlan c) t1 = insertPlan c) ∧
        (∀ (i : Nat) (hi : i < (insertPlan c).length) (err : GoError),
          allSucceed (insertStep tx id apiID) ((insertPlan c).take i) t1 = true →
          (insertStep tx id apiID (insertPlan c)[i]
            (rangeLoop (insertStep tx id apiID) ((insertPlan c).take i) t1).2).1 = some err →
          (rangeLoop (insertStep tx id apiID) (insertPlan c) t1).1 = some err ∧
            (∃ context cause, err = GoError.wrapped context cause) ∧
            attempted (insertStep tx id apiID) (insertPlan c) t1 =
              (insertPlan c).take (i + 1))) ∧
    ((∀ k transform, InsertOp.transformation transform true k ∈ insertPlan c ↔
        c.BeforeTransformations[k]? = some transform) ∧
      (∀ k transform, InsertOp.transformation transform false k ∈ insertPlan c ↔
        c.AfterTransformations[k]? = some transform) ∧
      (∀ call, InsertOp.singleCall call ∈ insertPlan c ↔
        c.Typ = ProxyEndpointComponentTypeSingle ∧ call = c.Call) ∧
      (∀ k call, InsertOp.multiCall call k ∈ insertPlan c ↔
        c.Typ = ProxyEndpointComponentTypeMulti ∧ c.Calls[k]? = some call)) := by
  refine ⟨fun err hm => ?_, fun data id err t1 hm hi => ?_, fun data id t1 hm hi => ⟨?_, ?_, ?_⟩,
    insertPlan_positions c⟩
  · simp [ProxyEndpointComponent.Insert, ComponentTx.traced, hm]
  · simp [ProxyEndpointComponent.Insert, ComponentTx.traced, logged, hm, hi]
  · have htm : tx.traced.marshaledForStorage c.Data = Except.ok data := hm
    have hti : tx.traced.InsertOne c endpointID position data (t, log) =
        ((id, none), (t1, log ++ [ComponentTxEvent.insertOne c endpointID position data])) := by
      simp [ComponentTx.traced, logged, hi]
    rw [Insert_eq_rangeLoop tx.traced c endpointID apiID position (t, log) _ data id htm hti,
      insertStep_traced, rangeLoop_logged]
    simp
  · exact rangeLoop_of_allSucceed _ _ _
  · intro i hlt err hpre herr
    have h := rangeLoop_first_error (insertStep tx id apiID) (insertPlan c) t1 i hlt err hpre
      herr
    refine ⟨by rw [h.1], insertStep_error_wrapped tx id apiID _ _ err herr, h.2⟩

theorem Insert_positions_and_first_failure_witness :
    ProxyEndpointComponent.Insert demoComponentTx.traced
        (demoMultiComponent 1 [demoCall 3 1, demoCall (-4) 1, demoCall 5 1]) 9 2 0 (0, []) =
      (some (GoError.wrapped "Inserting multi call" (GoError.other 61)),
        { demoMultiComponent 1 [demoCall 3 1, demoCall (-4) 1, demoCall 5 1] with ID := 100 },
        (5, [ComponentTxEvent.insertOne
            (demoMultiComponent 1 [demoCall 3 1, demoCall (-4) 1, demoCall 5 1]) 9 0 "",
          ComponentTxEvent.insertForComponent (demoTransformation 11) 100 true 0,
          ComponentTxEvent.insertForComponent (demoTransformation 12) 100 false 0,
          ComponentTxEvent.callInsert (some (demoCall 3 1)) 100 2 0,
          ComponentTxEvent.callInsert (some (demoCall (-4) 1)) 100 2 1])) :=
  (((Insert_positions_and_first_failure demoComponentTx
    (demoMultiComponent 1 [demoCall 3 1, demoCall (-4) 1, demoCall 5 1]) 9 2 0 0 []).2.2.1
    "" 100 1 rfl rfl).1).trans (by decide)

end ComponentInsert

section Loading

/-- C25, as stated, fails: the loaded transformation 23 names call 7 (and component 1) with
`Before` set, yet the `Before` list that call 7 ends with is empty: a transformation with a
`ComponentID` is attached to that component only. -/
theorem AllProxyEndpointComponentsForEndpointID_component_reference_wins :
    AllProxyEndpointComponentsForEndpointID demoStore 1 =
      LoadResult.ok
        [{ ID := 1, Conditional := "", ConditionalPositive := true, Typ := "multi",
           BeforeTransformations :=
             [{ ID := 21, Typ := "js", Before := true, ComponentID := some 1, CallID := none },
              { ID := 23, Typ := "js", Before := true, ComponentID := some 1,
                CallID := some 7 }],
           AfterTransformations := [],
           Call := none,
           Calls :=
             [{ ID := 7, ComponentID := 1, BeforeTransformations := [],
                AfterTransformations := [] },
              { ID := 8, ComponentID := 1, BeforeTransformations := [],
                AfterTransformations :=
                  [{ ID := 22, Typ := "js", Before := false, ComponentID := none,
                     CallID := some 8 }] }],
           Data := "", SharedComponentID := 0 }] := by
  decide

theorem PointerMap.get_set_same (m : PointerMap) (id : Int) (p : Nat) :
    (m.set id p).get id = some p := by
  induction m with
  | nil => simp [PointerMap.set, PointerMap.get, List.lookup]
  | cons e m ih =>
    obtain ⟨k, v⟩ := e
    by_cases h : k = id
    · simp [PointerMap.set, PointerMap.get, List.lookup, h]
    · have h2 : (id == k) = false := by
        simpa using fun h3 => h h3.symm
      simpa [PointerMap.set, PointerMap.get, List.lookup, h, h2] using ih

theorem PointerMap.get_set_other (m : PointerMap) (id other : Int) (p : Nat)
    (hne : other ≠ id) : (m.set id p).get other = m.get other := by
  induction m with
  | nil =>
    have h2 : (other == id) = false := by simpa using hne
    simp [PointerMap.set, PointerMap.get, List.lookup, h2]
  | cons e m ih =>
    obtain ⟨k, v⟩ := e
    by_cases h : k = id
    · subst h
      have h2 : (other == k) = false := by simpa using hne
      simp [PointerMap.set, PointerMap.get, List.lookup, h2]
    · by_cases h3 : other = k
      · subst h3
        simp [PointerMap.set, PointerMap.get, List.lookup, h]
      · have h4 : (other == k) = false := by simpa using h3
        simpa [PointerMap.set, PointerMap.get, List.lookup, h, h4] using ih

theorem PointerMap.get_setAll (keys : List Int) (hnd : keys.Nodup) (i : Nat) (m : PointerMap)
    (id : Int) (k : Nat) :
    (PointerMap.setAll i keys m).get id = some k ↔
      (id ∉ keys ∧ m.get id = some k) ∨ (k, id) ∈ keys.enumFrom i := by
  induction keys generalizing i m with
  | nil => simp [PointerMap.setAll]
  | cons key keys ih =>
    rw [List.nodup_cons] at hnd
    rw [PointerMap.setAll, ih hnd.2]
    have hmem : ∀ n, (k, id) ∈ keys.enumFrom n → id ∈ keys := fun n h =>
      (List.mem_enumFrom h).2.2 ▸ List.getElem_mem _
    by_cases h : id = key
    · subst h
      rw [PointerMap.get_set_same]
      constructor
      · rintro (⟨_, h1⟩ | h1)
        · right
          simp only [Option.some.injEq] at h1
          simp [List.enumFrom_cons, h1]
        · exact absurd (hmem _ h1) hnd.1
      · rintro (⟨h1, _⟩ | h1)
        · simp at h1
        · simp only [List.enumFrom_cons, List.mem_cons, Prod.mk.injEq] at h1
          rcases h1 with ⟨h1, _⟩ | h1
          · left
            exact ⟨hnd.1, by rw [h1]⟩
          · exact absurd (hmem _ h1) hnd.1
    · rw [PointerMap.get_set_other _ _ _ _ h]
      simp [List.enumFrom_cons, h]

theorem PointerMap.get_setAll_zero (keys : List Int) (hnd : keys.Nodup) (id : Int) (k : Nat) :
    (PointerMap.setAll 0 keys []).get id = some k ↔ keys[k]? = some id := by
  rw [PointerMap.get_setAll keys hnd, ← List.enum, List.mk_mem_enum_iff_getElem?]
  simp [PointerMap.get]

theorem indexComponents_eq (cs : List ProxyEndpointComponent) (i : Nat) (ids : List Int)
    (m : PointerMap) :
    indexComponents i cs (ids, m) =
      (ids ++ cs.map (fun c => c.ID), PointerMap.setAll i (cs.map (fun c => c.ID)) m) := by
  induction cs generalizing i ids m with
  | nil => simp [indexComponents, PointerMap.setAll]
  | cons c cs ih => simp [indexComponents, PointerMap.setAll, ih]

theorem attachCalls_eq (componentsByID : PointerMap) (calls : List ProxyEndpointCall)
    (j : Nat) (callIDs : List Int) (callsByID : PointerMap) (cells : List ComponentCell)
    (hres : ∀ call ∈ calls, ∃ i, componentsByID.get call.ComponentID = some i ∧
      i < cells.length) :
    ∃ cells1, attachCalls componentsByID j calls (callIDs, callsByID, cells) =
        some (callIDs ++ calls.map (fun c => c.ID),
          PointerMap.setAll j (calls.map (fun c => c.ID)) callsByID, cells1) ∧
      ∀ i, cells1[i]? = (cells[i]?).map (cellAfterCalls componentsByID i j calls) := by
  induction calls generalizing j callIDs callsByID cells with
  | nil => exact ⟨cells, by simp [attachCalls, PointerMap.setAll], by simp [cellAfterCalls]⟩
  | cons call rest ih =>
    obtain ⟨i0, hi0, hlt⟩ := hres call (List.mem_cons_self _ _)
    obtain ⟨cell, hcell⟩ : ∃ cell, cells[i0]? = some cell :=
      ⟨cells[i0], List.getElem?_eq_getElem hlt⟩
    obtain ⟨cells1, h1, h2⟩ := ih (j + 1) (callIDs ++ [call.ID]) (callsByID.set call.ID j)
      (cells.set i0
        (if cell.component.Typ = ProxyEndpointComponentTypeSingle then
          { cell with Call := some j }
        else if cell.component.Typ = ProxyEndpointComponentTypeMulti then
          { cell with Calls := cell.Calls ++ [j] }
        else cell))
      (fun c hc => by
        obtain ⟨i, hi, hl⟩ := hres c (List.mem_cons_of_mem _ hc)
        exact ⟨i, hi, by simpa using hl⟩)
    refine ⟨cells1, ?_, ?_⟩
    · simp only [attachCalls, hi0, hcell, h1]
      simp [PointerMap.setAll]
    · intro i
      rw [h2 i, List.getElem?_set]
      by_cases hi : i0 = i
      · subst hi
        simp [hlt, hcell, cellAfterCalls, hi0]
      · have hne : ¬ componentsByID.get call.ComponentID = some i := by
          rw [hi0]
          simpa using hi
        rcases hc : cells[i]? with _ | c
        · simp [hi]
        · simp [hi, cellAfterCalls, hne]

theorem attachTransformations_eq (componentsByID callsByID : PointerMap)
    (transforms : List ProxyEndpointTransformation) (cells : List ComponentCell)
    (calls : List ProxyEndpointCall)
    (hres : ∀ t ∈ transforms,
      (∀ componentID, t.ComponentID = some componentID →
        ∃ i, componentsByID.get componentID = some i ∧ i < cells.length) ∧
      (t.ComponentID = none → ∀ callID, t.CallID = some callID →
        ∃ j, callsByID.get callID = some j ∧ j < calls.length)) :
    ∃ cells1 calls1, attachTransformations componentsByID callsByID transforms (cells, calls) =
        some (cells1, calls1) ∧
      (∀ i, cells1[i]? =
        (cells[i]?).map (cellAfterTransformations componentsByID i transforms)) ∧
      ∀ j, calls1[j]? =
        (calls[j]?).map (callAfterTransformations callsByID j transforms) := by
  induction transforms generalizing cells calls with
  | nil =>
    exact ⟨cells, calls, by simp [attachTransformations],
      by simp [cellAfterTransformations], by simp [callAfterTransformations]⟩
  | cons t rest ih =>
    have hrest : ∀ (cells2 : List ComponentCell) (calls2 : List ProxyEndpointCall),
        cells2.length = cells.length → calls2.length = calls.length →
        ∀ t2 ∈ rest,
          (∀ componentID, t2.ComponentID = some componentID →
            ∃ i, componentsByID.get componentID = some i ∧ i < cells2.length) ∧
          (t2.ComponentID = none → ∀ callID, t2.CallID = some callID →
            ∃ j, callsByID.get callID = some j ∧ j < calls2.length) := by
      intro cells2 calls2 hl1 hl2 t2 ht2
      rw [hl1, hl2]
      exact hres t2 (List.mem_cons_of_mem _ ht2)
    obtain ⟨hc, hk⟩ := hres t (List.mem_cons_self _ _)
    rcases hcid : t.ComponentID with _ | componentID
    · rcases hkid : t.CallID with _ | callID
      · obtain ⟨cells1, calls1, h1, h2, h3⟩ := ih cells calls (hrest cells calls rfl rfl)
        refine ⟨cells1, calls1, ?_, ?_, ?_⟩
        · simp [attachTransformations, hcid, hkid, h1]
        · intro i
          rw [h2 i]
          simp [cellAfterTransformations, hcid]
        · intro j
          rw [h3 j]
          simp [callAfterTransformations, hkid]
      · obtain ⟨j0, hj0, hlt⟩ := hk hcid callID hkid
        obtain ⟨call, hcall⟩ : ∃ call, calls[j0]? = some call :=
          ⟨calls[j0], List.getElem?_eq_getElem hlt⟩
        obtain ⟨cells1, calls1, h1, h2, h3⟩ := ih cells
          (calls.set j0
            (if t.Before then
              { call with BeforeTransformations := call.BeforeTransformations ++ [t] }
            else
              { call with AfterTransformations := call.AfterTransformations ++ [t] }))
          (hrest _ _ rfl (by simp))
        refine ⟨cells1, calls1, ?_, ?_, ?_⟩
        · simp [attachTransformations, hcid, hkid, hj0, hcall, h1]
        · intro i
          rw [h2 i]
          simp [cellAfterTransformations, hcid]
        · intro j
          rw [h3 j, List.getElem?_set]
          by_cases hj : j0 = j
          · subst hj
            simp [hlt, hcall, callAfterTransformations, hcid, hkid, hj0]
          · have hne : ¬ callsByID.get callID = some j := by
              rw [hj0]
              simpa using hj
            rcases hc2 : calls[j]? with _ | c
            · simp [hj]
            · simp [hj, callAfterTransformations, hcid, hkid, hne]
    · obtain ⟨i0, hi0, hlt⟩ := hc componentID hcid
      obtain ⟨cell, hcell⟩ : ∃ cell, cells[i0]? = some cell :=
        ⟨cells[i0], List.getElem?_eq_getElem hlt⟩
      obtain ⟨cells1, calls1, h1, h2, h3⟩ := ih
        (cells.set i0
          { cell with
            component :=
              if t.Before then
                { cell.component with
                  BeforeTransformations := cell.component.BeforeTransformations ++ [t] }
              else
                { cell.component with
                  AfterTransformations := cell.component.AfterTransformations ++ [t] } })
        calls (hrest _ _ (by simp) rfl)
      refine ⟨cells1, calls1, ?_, ?_, ?_⟩
      · simp [attachTransformations, hcid, hi0, hcell, h1]
      · intro i
        rw [h2 i, List.getElem?_set]
        by_cases hi : i0 = i
        · subst hi
          simp [hlt, hcell, cellAfterTransformations, hcid, hi0]
        · have hne : ¬ componentsByID.get componentID = some i := by
            rw [hi0]
            simpa using hi
          rcases hc2 : cells[i]? with _ | c
          · simp [hi]
          · simp [hi, cellAfterTransformations, hcid, hne]
      · intro j
        rw [h3 j]
        simp [callAfterTransformations, hcid]


theorem cellAfterTransformations_eq (componentsByID : PointerMap) (i : Nat)
    (transforms : List ProxyEndpointTransformation) (cell : ComponentCell) :
    cellAfterTransformations componentsByID i transforms cell =
      { cell with
        component :=
          { cell.component with
            BeforeTransformations := cell.component.BeforeTransformations ++
              transforms.filter (fun t =>
                decide (t.ComponentID.bind componentsByID.get = some i) && t.Before),
            AfterTransformations := cell.component.AfterTransformations ++
              transforms.filter (fun t =>
                decide (t.ComponentID.bind componentsByID.get = some i) && !t.Before) } } := by
  induction transforms generalizing cell with
  | nil => simp [cellAfterTransformations]
  | cons t rest ih =>
    rw [cellAfterTransformations, ih]
    by_cases h : t.ComponentID.bind componentsByID.get = some i
    · by_cases hb : t.Before <;> simp [h, hb, List.filter_cons]
    · simp [h, List.filter_cons]

theorem callAfterTransformations_eq (callsByID : PointerMap) (j : Nat)
    (transforms : List ProxyEndpointTransformation) (call : ProxyEndpointCall) :
    callAfterTransformations callsByID j transforms call =
      { call with
        BeforeTransformations := call.BeforeTransformations ++
          transforms.filter (fun t =>
            decide (t.ComponentID = none) && decide (t.CallID.bind callsByID.get = some j) &&
              t.Before),
        AfterTransformations := call.AfterTransformations ++
          transforms.filter (fun t =>
            decide (t.ComponentID = none) && decide (t.CallID.bind callsByID.get = some j) &&
              !t.Before) } := by
  induction transforms generalizing call with
  | nil => simp [callAfterTransformations]
  | cons t rest ih =>
    rw [callAfterTransformations, ih]
    by_cases h : t.ComponentID = none ∧ t.CallID.bind callsByID.get = some j
    · by_cases hb : t.Before <;> simp [h, h.1, h.2, hb, List.filter_cons]
    · have h2 : (decide (t.ComponentID = none) &&
          decide (t.CallID.bind callsByID.get = some j)) = false := by
        simpa using h
      simp [h, h2, List.filter_cons]

theorem cellAfterCalls_component (componentsByID : PointerMap) (i j : Nat)
    (calls : List ProxyEndpointCall) (cell : ComponentCell) :
    (cellAfterCalls componentsByID i j calls cell).component = cell.component := by
  induction calls generalizing j cell with
  | nil => simp [cellAfterCalls]
  | cons call rest ih =>
    rw [cellAfterCalls, ih]
    split_ifs <;> rfl

theorem cellAfterCalls_Calls (componentsByID : PointerMap) (i j : Nat)
    (calls : List ProxyEndpointCall) (cell : ComponentCell) :
    (cellAfterCalls componentsByID i j calls cell).Calls =
      cell.Calls ++
        if cell.component.Typ = ProxyEndpointComponentTypeMulti then
          ((calls.enumFrom j).filter
            (fun p => decide (componentsByID.get p.2.ComponentID = some i))).map Prod.fst
        else [] := by
  have hs : ¬ ProxyEndpointComponentTypeMulti = ProxyEndpointComponentTypeSingle := by decide
  induction calls generalizing j cell with
  | nil => simp [cellAfterCalls]
  | cons call rest ih =>
    rw [cellAfterCalls, ih]
    by_cases h : componentsByID.get call.ComponentID = some i
    · by_cases h1 : cell.component.Typ = ProxyEndpointComponentTypeSingle
      · have h2 : ¬ cell.component.Typ = ProxyEndpointComponentTypeMulti := by
          rw [h1]
          exact fun h3 => hs h3.symm
        simp [h, h1, h2, Ne.symm hs]
      · by_cases h2 : cell.component.Typ = ProxyEndpointComponentTypeMulti
        · simp [h, h2, hs, List.enumFrom_cons, List.filter_cons]
        · simp [h, h1, h2]
    · by_cases h2 : cell.component.Typ = ProxyEndpointComponentTypeMulti
      · simp [h, h2, List.enumFrom_cons, List.filter_cons]
      · simp [h, h2]

theorem cellAfterCalls_Call (componentsByID : PointerMap) (i j : Nat)
    (calls : List ProxyEndpointCall) (cell : ComponentCell) :
    (cellAfterCalls componentsByID i j calls cell).Call =
      if cell.component.Typ = ProxyEndpointComponentTypeSingle then
        match (((calls.enumFrom j).filter
            (fun p => decide (componentsByID.get p.2.ComponentID = some i))).map
              Prod.fst).getLast? with
        | some k => some k
        | none => cell.Call
      else cell.Call := by
  have hs : ¬ ProxyEndpointComponentTypeMulti = ProxyEndpointComponentTypeSingle := by decide
  induction calls generalizing j cell with
  | nil => simp [cellAfterCalls]
  | cons call rest ih =>
    rw [cellAfterCalls, ih]
    by_cases h : componentsByID.get call.ComponentID = some i
    · by_cases h1 : cell.component.Typ = ProxyEndpointComponentTypeSingle
      · simp only [h, h1, if_true, List.enumFrom_cons, List.filter_cons, decide_True,
          List.map_cons, List.getLast?_cons]
        generalize (List.map Prod.fst (List.filter
          (fun p => decide (componentsByID.get p.2.ComponentID = some i))
          (List.enumFrom (j + 1) rest))).getLast? = g
        cases g <;> rfl
      · by_cases h2 : cell.component.Typ = ProxyEndpointComponentTypeMulti
        · simp [h, h2, hs]
        · simp [h, h1, h2]
    · by_cases h1 : cell.component.Typ = ProxyEndpointComponentTypeSingle
      · simp [h, h1, List.enumFrom_cons, List.filter_cons]
      · simp [h, h1]


theorem filterMap_enum_filter {α β : Type} (l : List α) (p : α → Bool) (g : Nat → Option β)
    (G : α → β) (hg : ∀ k a, l[k]? = some a → g k = some (G a)) :
    (((l.enum).filter (fun x => p x.2)).map Prod.fst).filterMap g = (l.filter p).map G := by
  have h1 : ((l.enum).filter (fun x => p x.2)).filterMap (g ∘ Prod.fst) =
      ((l.enum).filter (fun x => p x.2)).filterMap (some ∘ fun x => G x.2) := by
    apply List.filterMap_congr
    intro x hx
    have hx2 := (List.mem_filter.1 hx).1
    exact hg x.1 x.2 (List.mk_mem_enum_iff_getElem?.1 hx2)
  rw [List.filterMap_map, h1, List.filterMap_eq_map]
  have h2 : (fun x : Nat × α => G x.2) = G ∘ Prod.snd := rfl
  have h3 : (fun x : Nat × α => p x.2) = p ∘ Prod.snd := rfl
  rw [h2, ← List.map_map, h3, ← List.filter_map, List.enum_map_snd]

theorem getLast?_enum_filter {α β : Type} (l : List α) (p : α → Bool) (g : Nat → Option β)
    (G : α → β) (hg : ∀ k a, l[k]? = some a → g k = some (G a)) :
    ((((l.enum).filter (fun x => p x.2)).map Prod.fst).getLast?).bind g =
      ((l.filter p).getLast?).map G := by
  have h3 : (fun x : Nat × α => p x.2) = p ∘ Prod.snd := rfl
  have h4 : l.filter p = ((l.enum).filter (fun x => p x.2)).map Prod.snd := by
    rw [h3, ← List.filter_map, List.enum_map_snd]
  rw [h4, List.getLast?_map, List.getLast?_map]
  rcases hl : ((l.enum).filter (fun x => p x.2)).getLast? with _ | x
  · rw [hl]
    rfl
  · have hx := (List.mem_filter.1 (List.mem_of_getLast?_eq_some hl)).1
    rw [hl]
    exact hg x.1 x.2 (List.mk_mem_enum_iff_getElem?.1 hx)

theorem callAfterTransformations_eq_assembleCall (calls : List ProxyEndpointCall)
    (hnd : (calls.map (fun c => c.ID)).Nodup) (j : Nat) (call : ProxyEndpointCall)
    (hj : calls[j]? = some call) (transforms : List ProxyEndpointTransformation) :
    callAfterTransformations (PointerMap.setAll 0 (calls.map (fun c => c.ID)) []) j transforms
      call = assembleCall transforms call := by
  have hk : ∀ t : ProxyEndpointTransformation,
      decide (t.CallID.bind (PointerMap.setAll 0 (calls.map (fun c => c.ID)) []).get = some j) =
        decide (t.CallID = some call.ID) := by
    intro t
    rcases t.CallID with _ | callID
    · simp
    · simp only [Option.some_bind, PointerMap.get_setAll_zero _ hnd, List.getElem?_map, hj,
        Option.map_some', Option.some.injEq]
      exact decide_eq_decide.2 eq_comm
  rw [callAfterTransformations_eq, assembleCall]
  simp only [hk]

theorem resolve_eq_assembleComponent (componentsByID : PointerMap) (i : Nat)
    (r : ComponentRow) (calls calls1 : List ProxyEndpointCall)
    (transforms : List ProxyEndpointTransformation)
    (hi : ∀ id, componentsByID.get id = some i ↔ id = r.ID)
    (hcalls : ∀ (k : Nat) (call : ProxyEndpointCall), calls[k]? = some call →
      calls1[k]? = some (assembleCall transforms call)) :
    ComponentCell.resolve calls1
      (cellAfterTransformations componentsByID i transforms
        (cellAfterCalls componentsByID i 0 calls
          { component := r.component, Call := none, Calls := [] })) =
      assembleComponent calls transforms r := by
  have hp1 : (fun t : ProxyEndpointTransformation =>
      decide (t.ComponentID.bind componentsByID.get = some i) && t.Before) =
        fun t => decide (t.ComponentID = some r.ID) && t.Before := by
    funext t
    rcases t.ComponentID with _ | componentID
    · simp
    · simp [hi]
  have hp1n : (fun t : ProxyEndpointTransformation =>
      decide (t.ComponentID.bind componentsByID.get = some i) && !t.Before) =
        fun t => decide (t.ComponentID = some r.ID) && !t.Before := by
    funext t
    rcases t.ComponentID with _ | componentID
    · simp
    · simp [hi]
  have hp2 : (fun p : Nat × ProxyEndpointCall =>
      decide (componentsByID.get p.2.ComponentID = some i)) =
        fun p => decide (p.2.ComponentID = r.ID) := by
    funext p
    simp [hi]
  have hCalls : (((calls.enumFrom 0).filter (fun p => decide (p.2.ComponentID = r.ID))).map
      Prod.fst).filterMap (fun k => calls1[k]?) =
        (calls.filter (fun call => decide (call.ComponentID = r.ID))).map
          (assembleCall transforms) :=
    filterMap_enum_filter calls (fun call => decide (call.ComponentID = r.ID))
      (fun k => calls1[k]?) (assembleCall transforms) hcalls
  have hCall : ((((calls.enumFrom 0).filter (fun p => decide (p.2.ComponentID = r.ID))).map
      Prod.fst).getLast?).bind (fun k => calls1[k]?) =
        ((calls.filter (fun call => decide (call.ComponentID = r.ID))).getLast?).map
          (assembleCall transforms) :=
    getLast?_enum_filter calls (fun call => decide (call.ComponentID = r.ID))
      (fun k => calls1[k]?) (assembleCall transforms) hcalls
  have hcomponent : (cellAfterTransformations componentsByID i transforms
      (cellAfterCalls componentsByID i 0 calls
        { component := r.component, Call := none, Calls := [] })).component =
      { r.component with
        BeforeTransformations :=
          transforms.filter (fun t => decide (t.ComponentID = some r.ID) && t.Before),
        AfterTransformations :=
          transforms.filter (fun t => decide (t.ComponentID = some r.ID) && !t.Before) } := by
    rw [cellAfterTransformations_eq, cellAfterCalls_component, hp1, hp1n]
    rfl
  have hCallsF : (cellAfterTransformations componentsByID i transforms
      (cellAfterCalls componentsByID i 0 calls
        { component := r.component, Call := none, Calls := [] })).Calls =
      if r.Typ = ProxyEndpointComponentTypeMulti then
        ((calls.enumFrom 0).filter (fun p => decide (p.2.ComponentID = r.ID))).map Prod.fst
      else [] := by
    rw [cellAfterTransformations_eq]
    show (cellAfterCalls componentsByID i 0 calls
      { component := r.component, Call := none, Calls := [] }).Calls = _
    rw [cellAfterCalls_Calls, hp2]
    rfl
  have hCallF : (cellAfterTransformations componentsByID i transforms
      (cellAfterCalls componentsByID i 0 calls
        { component := r.component, Call := none, Calls := [] })).Call =
      if r.Typ = ProxyEndpointComponentTypeSingle then
        (((calls.enumFrom 0).filter (fun p => decide (p.2.ComponentID = r.ID))).map
          Prod.fst).getLast?
      else none := by
    rw [cellAfterTransformations_eq]
    show (cellAfterCalls componentsByID i 0 calls
      { component := r.component, Call := none, Calls := [] }).Call = _
    rw [cellAfterCalls_Call, hp2]
    show (if r.Typ = ProxyEndpointComponentTypeSingle then _ else none) = _
    generalize (List.map Prod.fst (List.filter
      (fun p : Nat × ProxyEndpointCall => decide (p.2.ComponentID = r.ID))
      (List.enumFrom 0 calls))).getLast? = g
    cases g <;> rfl
  generalize cellAfterTransformations componentsByID i transforms
      (cellAfterCalls componentsByID i 0 calls
        { component := r.component, Call := none, Calls := [] }) = cell at hcomponent hCallsF hCallF
  unfold ComponentCell.resolve assembleComponent
  rw [hcomponent, hCallsF, hCallF]
  by_cases h1 : r.Typ = ProxyEndpointComponentTypeSingle
  · have h2 : ¬ r.Typ = ProxyEndpointComponentTypeMulti := by
      rw [h1]
      decide
    simp only [if_pos h1, if_neg h2, List.filterMap_nil, hCall]
  · by_cases h2 : r.Typ = ProxyEndpointComponentTypeMulti
    · simp only [if_neg h1, if_pos h2, hCalls, Option.none_bind]
    · simp only [if_neg h1, if_neg h2, List.filterMap_nil, Option.none_bind]

theorem lt_length_of_getElem?_map {α : Type} (l l1 : List α) (f : Nat → α → α)
    (h : ∀ i, l1[i]? = (l[i]?).map (f i)) (i : Nat) (hi : i < l.length) : i < l1.length := by
  by_contra hlt
  have h1 := h i
  rw [List.getElem?_eq_none (Nat.le_of_not_lt hlt), List.getElem?_eq_getElem hi] at h1
  simp at h1

/-- C25, amended.  Let the three queries succeed, let the loaded components have distinct
ids and the loaded calls distinct ids, let every loaded call name a loaded component, and
let every loaded transformation that names a component name a loaded one, and every other
one that names a call name a loaded one.  Then the function returns one component per row,
in the order loaded.  The `Before` and `After` lists of a component are the loaded
transformations that name it, in loaded order, split by their `Before` flag.  The calls of a
multi-call component are the loaded calls that name it, in loaded order; the call of a
single-call component is the last loaded call that names it.  The lists of a call gain the
loaded transformations that name no component and name the call, in loaded order. -/
theorem AllProxyEndpointComponentsForEndpointID_assembles (db : ComponentStore)
    (endpointID : Int) (rows : List ComponentRow) (calls : List ProxyEndpointCall)
    (transforms : List ProxyEndpointTransformation)
    (hrows : db.selectComponents endpointID = Except.ok rows)
    (hcalls : db.AllProxyEndpointCallsForComponentIDs (rows.map (fun r => r.ID)) =
      Except.ok calls)
    (htransforms : db.AllProxyEndpointTransformationsForComponentIDsAndCallIDs
      (rows.map (fun r => r.ID)) (calls.map (fun c => c.ID)) = Except.ok transforms)
    (hrowIDs : (rows.map (fun r => r.ID)).Nodup)
    (hcallIDs : (calls.map (fun c => c.ID)).Nodup)
    (hcallRefs : ∀ call ∈ calls, call.ComponentID ∈ rows.map (fun r => r.ID))
    (htransformRefs : ∀ t ∈ transforms,
      (∀ componentID, t.ComponentID = some componentID →
        componentID ∈ rows.map (fun r => r.ID)) ∧
      (t.ComponentID = none → ∀ callID, t.CallID = some callID →
        callID ∈ calls.map (fun c => c.ID))) :
    AllProxyEndpointComponentsForEndpointID db endpointID =
      LoadResult.ok (rows.map (assembleComponent calls transforms)) := by
  have hids : (rows.map ComponentRow.component).map (fun c => c.ID) =
      rows.map (fun r => r.ID) := by
    rw [List.map_map]
    rfl
  have hget : ∀ (keys : List Int) (id : Int), id ∈ keys → keys.Nodup →
      ∃ i, (PointerMap.setAll 0 keys []).get id = some i ∧ i < keys.length := by
    intro keys id hmem hnd
    obtain ⟨i, hi, hid⟩ := List.getElem_of_mem hmem
    exact ⟨i, (PointerMap.get_setAll_zero keys hnd id i).2
      ((List.getElem?_eq_getElem hi).trans (congrArg some hid)), hi⟩
  have hindex : indexComponents 0 (rows.map ComponentRow.component) ([], []) =
      (rows.map (fun r => r.ID), PointerMap.setAll 0 (rows.map (fun r => r.ID)) []) := by
    rw [indexComponents_eq, hids, List.nil_append]
  obtain ⟨cells1, hA, hA2⟩ := attachCalls_eq
    (PointerMap.setAll 0 (rows.map (fun r => r.ID)) []) calls 0 [] []
    ((rows.map ComponentRow.component).map
      fun c => { component := c, Call := none, Calls := [] })
    (fun call hc => by
      obtain ⟨i, hi, hlt⟩ := hget _ _ (hcallRefs call hc) hrowIDs
      exact ⟨i, hi, by simpa using hlt⟩)
  rw [List.nil_append] at hA
  have hlen : ∀ i, i < rows.length → i < cells1.length := fun i hi =>
    lt_length_of_getElem?_map _ _ _ hA2 i (by simpa using hi)
  obtain ⟨cells2, calls2, hT, hT2, hT3⟩ := attachTransformations_eq
    (PointerMap.setAll 0 (rows.map (fun r => r.ID)) [])
    (PointerMap.setAll 0 (calls.map (fun c => c.ID)) []) transforms cells1 calls
    (fun t ht => ⟨fun componentID hc => by
        obtain ⟨i, hi, hlt⟩ := hget _ _ ((htransformRefs t ht).1 componentID hc) hrowIDs
        exact ⟨i, hi, hlen i (by simpa using hlt)⟩,
      fun hn callID hc => by
        obtain ⟨j, hj, hlt⟩ := hget _ _ ((htransformRefs t ht).2 hn callID hc) hcallIDs
        exact ⟨j, hj, by simpa using hlt⟩⟩)
  have hrun : AllProxyEndpointComponentsForEndpointID db endpointID =
      LoadResult.ok (cells2.map (ComponentCell.resolve calls2)) := by
    unfold AllProxyEndpointComponentsForEndpointID
    simp only [hrows, hindex, hcalls, hA, htransforms, hT]
  rw [hrun]
  congr 1
  apply List.ext_getElem?
  intro i
  rw [List.getElem?_map, hT2 i, hA2 i, List.getElem?_map, List.getElem?_map,
    List.getElem?_map]
  rcases hr : rows[i]? with _ | r
  · rfl
  · simp only [Option.map_some']
    congr 1
    apply resolve_eq_assembleComponent
    · intro id
      rw [PointerMap.get_setAll_zero _ hrowIDs, List.getElem?_map, hr]
      simp [eq_comm]
    · intro k call hk
      rw [hT3 k, hk]
      simp only [Option.map_some']
      rw [callAfterTransformations_eq_assembleCall calls hcallIDs k call hk]

theorem AllProxyEndpointComponentsForEndpointID_assembles_witness :
    AllProxyEndpointComponentsForEndpointID demoStore 1 =
      LoadResult.ok
        ([{ ID := 1, Conditional := "", ConditionalPositive := true, Typ := "multi",
            Data := "", SharedComponentID := 0 }].map
          (assembleComponent [demoCall 7 1, demoCall 8 1]
            [{ ID := 21, Typ := "js", Before := true, ComponentID := some 1, CallID := none },
             { ID := 22, Typ := "js", Before := false, ComponentID := none,
               CallID := some 8 },
             { ID := 23, Typ := "js", Before := true, ComponentID := some 1,
               CallID := some 7 }])) :=
  AllProxyEndpointComponentsForEndpointID_assembles demoStore 1 _ _ _ rfl rfl rfl
    (by decide) (by decide) (by decide) (by decide)

end Loading

end Gateway
